import Mathlib

/-!
# OpenRCT2 game actions: `SurfaceSetStyleAction` and `TrackDesignAction`

A shallow embedding of `src/openrct2/actions/SurfaceSetStyleAction.hpp` and
`src/openrct2/actions/TrackDesignAction.cpp`, followed by theorems about the
`Query` / `Execute` pair of each action.

Conventions of the embedding

* `int32_t` / `money32` values are integers; every addition the source performs
  on them is reduced with `wrapInt32` (two's complement).
* `uint8_t` values are natural numbers.
* Global game state the source reads (flags, object manager, map) is gathered in
  a `World` record that is passed explicitly; `Execute` returns the new world.
* Calls that only have an effect (setters, redraw requests, litter removal) are
  also recorded in a log, in program order.
-/

namespace OpenRCT2

/-! ## Machine integers and shared result types -/

/-- Two's-complement reduction of an integer to the `int32_t` range. -/
def wrapInt32 (v : Int) : Int := (v + 2147483648) % 4294967296 - 2147483648

/-- Addition on `int32_t` (and on `money32`, which is an `int32_t`). -/
def add32 (a b : Int) : Int := wrapInt32 (a + b)

/-- The failure sentinel `MONEY32_UNDEFINED`, `(money32)0x80000000`. -/
def MONEY32_UNDEFINED : Int := -2147483648

/-- The error codes of `GA_ERROR` that the two actions use, and `OK`. -/
inductive GA_ERROR where
  | OK
  | INVALID_PARAMETERS
  | DISALLOWED
  | GAME_PAUSED
  | NO_FREE_ELEMENTS
  | UNKNOWN
  deriving DecidableEq, Repr

/-- String ids (`rct_string_id`): the named ones the two actions pass, and any other id. -/
inductive rct_string_id where
  | STR_NONE
  | STR_CANT_CHANGE_LAND_TYPE
  | STR_FORBIDDEN_BY_THE_LOCAL_AUTHORITY
  | STR_CONSTRUCTION_NOT_POSSIBLE_WHILE_GAME_IS_PAUSED
  | STR_CANT_CREATE_NEW_RIDE_ATTRACTION
  | other (id : Nat)
  deriving DecidableEq, Repr

/-- A position `CoordsXYZ`. -/
structure CoordsXYZ where
  x : Int
  y : Int
  z : Int
  deriving DecidableEq, Repr

/-- Value of `RCT_EXPENDITURE_TYPE_RIDE_CONSTRUCTION`. -/
def RCT_EXPENDITURE_TYPE_RIDE_CONSTRUCTION : Nat := 0

/-- Value of `RCT_EXPENDITURE_TYPE_LANDSCAPING`. -/
def RCT_EXPENDITURE_TYPE_LANDSCAPING : Nat := 3

/-- The result object `GameActionResult` (with the `rideIndex` that
`TrackDesignActionResult` adds; `none` is `RIDE_ID_NULL`). -/
structure GameActionResult where
  Error : GA_ERROR
  ErrorTitle : rct_string_id
  ErrorMessage : rct_string_id
  Position : CoordsXYZ
  Cost : Int
  ExpenditureType : Nat
  rideIndex : Option Nat
  deriving DecidableEq, Repr

/-- Modelled from the spec: `MakeResult()` with no argument, whose declaration
(`GameAction.h`) is not among the sources. A fresh result has no error, cost 0
and a position that no code of the action has assigned; that initial position
is the parameter `pos0`. -/
def MakeResult (pos0 : CoordsXYZ) : GameActionResult :=
  { Error := GA_ERROR.OK
    ErrorTitle := rct_string_id.STR_NONE
    ErrorMessage := rct_string_id.STR_NONE
    Position := pos0
    Cost := 0
    ExpenditureType := 0
    rideIndex := none }

/-- Modelled from the spec: `MakeResult(error)`, a fresh result carrying only the error code. -/
def MakeResultError (pos0 : CoordsXYZ) (error : GA_ERROR) : GameActionResult :=
  { MakeResult pos0 with Error := error }

/-- Modelled from the spec: `MakeResult(error, message)`, a fresh result
carrying the error code and one message id. -/
def MakeResultMessage (pos0 : CoordsXYZ) (error : GA_ERROR) (message : rct_string_id) :
    GameActionResult :=
  { MakeResult pos0 with Error := error, ErrorMessage := message }

/-- Modelled from the spec: `MakeResult(error, title, message)`, a fresh result
carrying the error code, a title id and a message id. -/
def MakeResultTitleMessage (pos0 : CoordsXYZ) (error : GA_ERROR)
    (title message : rct_string_id) : GameActionResult :=
  { MakeResult pos0 with Error := error, ErrorTitle := title, ErrorMessage := message }

/-! ## The map, the object manager and the global flags -/

/-- A rectangular range `MapRange`: four `int32_t` in world units. -/
structure MapRange where
  left : Int
  top : Int
  right : Int
  bottom : Int
  deriving DecidableEq, Repr

/-- Getter `MapRange::GetLeft`. -/
def MapRange.GetLeft (r : MapRange) : Int := r.left

/-- Getter `MapRange::GetTop`. -/
def MapRange.GetTop (r : MapRange) : Int := r.top

/-- Getter `MapRange::GetRight`. -/
def MapRange.GetRight (r : MapRange) : Int := r.right

/-- Getter `MapRange::GetBottom`. -/
def MapRange.GetBottom (r : MapRange) : Int := r.bottom

/-- Modelled from the spec: the surface element of a tile, which "exposes
current surface style, edge style, and a grass-growth counter" and is "mutated
only through setter calls"; the class itself (`SurfaceElement`) is not among
the sources. The two styles are style identifiers, of "bounded range per style
class (surface ≤ 0x1F, edge ≤ 0xF)": the setters below keep an element they
write within these bounds. -/
structure SurfaceElement where
  surfaceStyle : Nat
  edgeStyle : Nat
  grassLength : Nat
  deriving DecidableEq, Repr

/-- Modelled from the spec: getter `SurfaceElement::GetSurfaceStyle`, the
"current surface style" the element exposes. -/
def SurfaceElement.GetSurfaceStyle (el : SurfaceElement) : Nat := el.surfaceStyle

/-- Modelled from the spec: getter `SurfaceElement::GetEdgeStyle`, the current
"edge style" the element exposes. -/
def SurfaceElement.GetEdgeStyle (el : SurfaceElement) : Nat := el.edgeStyle

/-- Modelled from the spec: getter `SurfaceElement::GetGrassLength`, the
"grass-growth counter" the element exposes. -/
def SurfaceElement.GetGrassLength (el : SurfaceElement) : Nat := el.grassLength

/-- Modelled from the spec: setter `SurfaceElement::SetSurfaceStyle`. A surface
style is bounded, "surface ≤ 0x1F": the element has five bits for it and keeps
the low five bits of the value it is given. A value within the bound is stored
as it is; whatever is stored lies within the bound. -/
def SurfaceElement.SetSurfaceStyle (el : SurfaceElement) (v : Nat) : SurfaceElement :=
  { el with surfaceStyle := v % 32 }

/-- Modelled from the spec: setter `SurfaceElement::SetEdgeStyle`. An edge style
is bounded, "edge ≤ 0xF": the element has four bits for it and keeps the low
four bits of the value it is given. A value within the bound is stored as it
is; whatever is stored lies within the bound. -/
def SurfaceElement.SetEdgeStyle (el : SurfaceElement) (v : Nat) : SurfaceElement :=
  { el with edgeStyle := v % 16 }

/-- Modelled from the spec: setter `SurfaceElement::SetGrassLength`, which
writes the "grass-growth counter". -/
def SurfaceElement.SetGrassLength (el : SurfaceElement) (v : Nat) : SurfaceElement :=
  { el with grassLength := v }

/-- Value of `GRASS_LENGTH_CLEAR_0`, the stage a grass reset writes. -/
def GRASS_LENGTH_CLEAR_0 : Nat := 1

/-- The object categories the action names when it queries the object manager. -/
inductive ObjectType where
  | OBJECT_TYPE_TERRAIN_SURFACE
  | OBJECT_TYPE_TERRAIN_EDGE
  deriving DecidableEq, Repr

/-- A loaded terrain object; the action reads only its `Price`. -/
structure TerrainObject where
  Price : Int
  deriving DecidableEq, Repr

/-- The surface elements of the map, by tile index (one tile is 32 world units). -/
abbrev TileMap := Int → Int → Option SurfaceElement

/-- The world state the action reads. Apart from `tiles`, every field is a
collaborator or a global whose code is not among the sources and is taken as a
parameter:

* `map_is_location_in_park x y`, `tile_element_height x y` by world coordinates;
* `GetLoadedObject type index` of the object manager (`none` is `nullptr`);
* `CanGrassGrow style`: whether a surface of that style supports grass;
* `gMapSizeMaxXY`;
* `screenFlagScenarioEditor` is `gScreenFlags & SCREEN_FLAGS_SCENARIO_EDITOR`;
* `gCheatsSandboxMode`;
* `parkFlagForbidLandscapeChanges` is `gParkFlags & PARK_FLAGS_FORBID_LANDSCAPE_CHANGES`;
* `resultPosition0`, the position of a result object before any assignment. -/
structure World where
  tiles : TileMap
  map_is_location_in_park : Int → Int → Bool
  tile_element_height : Int → Int → Int
  GetLoadedObject : ObjectType → Nat → Option TerrainObject
  CanGrassGrow : Nat → Bool
  gMapSizeMaxXY : Int
  screenFlagScenarioEditor : Bool
  gCheatsSandboxMode : Bool
  parkFlagForbidLandscapeChanges : Bool
  resultPosition0 : CoordsXYZ

/-- Tile index of a world coordinate: `coord / 32` (C++ division, towards zero). -/
def tileIndex (v : Int) : Int := Int.tdiv v 32

/-- Modelled from the spec: `map_get_surface_element_at(x, y)`,
"`SpatialIndex.surfaceAt(x,y) -> SurfaceElement?` — null if tile has no
surface"; the element belongs to the tile that contains the coordinate. -/
def map_get_surface_element_at (tiles : TileMap) (x y : Int) : Option SurfaceElement :=
  tiles (tileIndex x) (tileIndex y)

/-- The map after the surface element of the tile containing `(x, y)` has been
mutated through its pointer into `el`. -/
def storeSurfaceElement (tiles : TileMap) (x y : Int) (el : SurfaceElement) : TileMap :=
  fun tx ty => if tx = tileIndex x ∧ ty = tileIndex y then some el else tiles tx ty

/-- Effects of `Execute` on the map and its collaborators, in program order. -/
inductive MapEvent where
  | SetSurfaceStyle (x y : Int) (style : Nat)
  | SetEdgeStyle (x y : Int) (style : Nat)
  | SetGrassLength (x y : Int) (length : Nat)
  | map_invalidate_tile_full (x y : Int)
  | footpath_remove_litter (x y z : Int)
  deriving DecidableEq, Repr

namespace SurfaceSetStyleAction

/-! ## `SurfaceSetStyleAction` -/

/-- The clamped range `validRange` built from `x0, y0, x1, y1`
(lines 42-47 and 156-161). -/
def validRange (w : World) (range : MapRange) : MapRange :=
  { left := max range.GetLeft 32
    top := max range.GetTop 32
    right := min range.GetRight w.gMapSizeMaxXY
    bottom := min range.GetBottom w.gMapSizeMaxXY }

/-- The value `xMid` (lines 85 and 163), in `int32_t` arithmetic. -/
def xMid (vr : MapRange) : Int := add32 (Int.tdiv (add32 vr.GetLeft vr.GetRight) 2) 16

/-- The value `yMid` (lines 86 and 164), in `int32_t` arithmetic. -/
def yMid (vr : MapRange) : Int := add32 (Int.tdiv (add32 vr.GetTop vr.GetBottom) 2) 16

/-- The value `heightMid` (lines 87 and 165): `tile_element_height(xMid, yMid) & 0xFFFF`. -/
def heightMid (w : World) (vr : MapRange) : Int :=
  w.tile_element_height (xMid vr) (yMid vr) % 65536

/-- Values taken by `v` in `for (v = lo; v <= hi; v += 32)`, at most `fuel` of them. -/
def forValues : Nat → Int → Int → List Int
  | 0, _, _ => []
  | fuel + 1, v, hi => if v ≤ hi then v :: forValues fuel (v + 32) hi else []

/-- Values taken by the loop variable of `for (v = lo; v <= hi; v += 32)`.
The fuel `hi + 1 - lo` is never exhausted (`mem_loopValues`). -/
def loopValues (lo hi : Int) : List Int := forValues (hi + 1 - lo).toNat lo hi

/-- The two accumulators `surfaceCost` and `edgeCost`. -/
structure Costs where
  surfaceCost : Int
  edgeCost : Int
  deriving DecidableEq, Repr

/-- Body of the inner loop of `Query` (lines 106-143) at `(x, y)`. -/
def queryTile (w : World) (surfaceStyle edgeStyle : Nat) (acc : Costs) (x y : Int) : Costs :=
  if (!w.screenFlagScenarioEditor && !w.gCheatsSandboxMode)
      && !w.map_is_location_in_park x y then acc
  else
    match map_get_surface_element_at w.tiles x y with
    | none => acc
    | some surfaceElement =>
      let surfaceCost :=
        if surfaceStyle ≠ 0xFF then
          if surfaceStyle ≠ surfaceElement.GetSurfaceStyle then
            match w.GetLoadedObject ObjectType.OBJECT_TYPE_TERRAIN_SURFACE surfaceStyle with
            | some surfaceObj => add32 acc.surfaceCost surfaceObj.Price
            | none => acc.surfaceCost
          else acc.surfaceCost
        else acc.surfaceCost
      let edgeCost :=
        if edgeStyle ≠ 0xFF then
          if edgeStyle ≠ surfaceElement.GetEdgeStyle then add32 acc.edgeCost 100
          else acc.edgeCost
        else acc.edgeCost
      { surfaceCost := surfaceCost, edgeCost := edgeCost }

/-- The two nested loops of `Query` (lines 100-145): `x` outside, `y` inside. -/
def queryLoop (w : World) (vr : MapRange) (surfaceStyle edgeStyle : Nat) : Costs :=
  (loopValues vr.GetLeft vr.GetRight).foldl
    (fun acc x =>
      (loopValues vr.GetTop vr.GetBottom).foldl
        (fun acc y => queryTile w surfaceStyle edgeStyle acc x y) acc)
    { surfaceCost := 0, edgeCost := 0 }

/-- The method `SurfaceSetStyleAction::Query` (lines 37-149). -/
def Query (w : World) (range : MapRange) (surfaceStyle edgeStyle : Nat) : GameActionResult :=
  let res := { MakeResult w.resultPosition0 with
    ExpenditureType := RCT_EXPENDITURE_TYPE_LANDSCAPING }
  let vr := validRange w range
  if surfaceStyle ≠ 0xFF ∧ surfaceStyle > 0x1F then
    MakeResultMessage w.resultPosition0 GA_ERROR.INVALID_PARAMETERS
      rct_string_id.STR_CANT_CHANGE_LAND_TYPE
  else if surfaceStyle ≠ 0xFF
      ∧ (w.GetLoadedObject ObjectType.OBJECT_TYPE_TERRAIN_SURFACE surfaceStyle).isNone then
    MakeResultMessage w.resultPosition0 GA_ERROR.INVALID_PARAMETERS
      rct_string_id.STR_CANT_CHANGE_LAND_TYPE
  else if edgeStyle ≠ 0xFF ∧ edgeStyle > 0xF then
    MakeResultMessage w.resultPosition0 GA_ERROR.INVALID_PARAMETERS
      rct_string_id.STR_CANT_CHANGE_LAND_TYPE
  else if edgeStyle ≠ 0xFF
      ∧ (w.GetLoadedObject ObjectType.OBJECT_TYPE_TERRAIN_SURFACE edgeStyle).isNone then
    -- line 76 passes OBJECT_TYPE_TERRAIN_SURFACE for the edge style
    MakeResultMessage w.resultPosition0 GA_ERROR.INVALID_PARAMETERS
      rct_string_id.STR_CANT_CHANGE_LAND_TYPE
  else
    let res := { res with Position := ⟨xMid vr, yMid vr, heightMid w vr⟩ }
    if (!w.screenFlagScenarioEditor && !w.gCheatsSandboxMode)
        && w.parkFlagForbidLandscapeChanges then
      MakeResultTitleMessage w.resultPosition0 GA_ERROR.DISALLOWED
        rct_string_id.STR_CANT_CHANGE_LAND_TYPE
        rct_string_id.STR_FORBIDDEN_BY_THE_LOCAL_AUTHORITY
    else
      let costs := queryLoop w vr surfaceStyle edgeStyle
      { res with Cost := add32 costs.surfaceCost costs.edgeCost }

/-- Loop state of `Execute`: the two accumulators, the map and the effect log. -/
structure ExecState where
  surfaceCost : Int
  edgeCost : Int
  tiles : TileMap
  log : List MapEvent

/-- Body of the inner loop of `Execute` (lines 177-222) at `(x, y)`. -/
def executeTile (w : World) (surfaceStyle edgeStyle : Nat) (st : ExecState) (x y : Int) :
    ExecState :=
  match map_get_surface_element_at st.tiles x y with
  | none => st
  | some surfaceElement =>
    -- lines 184-203
    let a : SurfaceElement × Int × List MapEvent :=
      if surfaceStyle ≠ 0xFF then
        if surfaceStyle ≠ surfaceElement.GetSurfaceStyle then
          match w.GetLoadedObject ObjectType.OBJECT_TYPE_TERRAIN_SURFACE surfaceStyle with
          | some surfaceObj =>
            (surfaceElement.SetSurfaceStyle surfaceStyle,
             add32 st.surfaceCost surfaceObj.Price,
             [MapEvent.SetSurfaceStyle x y surfaceStyle,
              MapEvent.map_invalidate_tile_full x y,
              MapEvent.footpath_remove_litter x y (w.tile_element_height x y)])
          | none => (surfaceElement, st.surfaceCost, [])
        else (surfaceElement, st.surfaceCost, [])
      else (surfaceElement, st.surfaceCost, [])
    -- lines 205-216
    let b : SurfaceElement × Int × List MapEvent :=
      if edgeStyle ≠ 0xFF then
        if edgeStyle ≠ a.1.GetEdgeStyle then
          (a.1.SetEdgeStyle edgeStyle,
           add32 st.edgeCost 100,
           [MapEvent.SetEdgeStyle x y edgeStyle, MapEvent.map_invalidate_tile_full x y])
        else (a.1, st.edgeCost, [])
      else (a.1, st.edgeCost, [])
    -- lines 218-222
    let c : SurfaceElement × List MapEvent :=
      if w.CanGrassGrow b.1.GetSurfaceStyle = true
          ∧ b.1.GetGrassLength % 8 ≠ GRASS_LENGTH_CLEAR_0 then
        (b.1.SetGrassLength GRASS_LENGTH_CLEAR_0,
         [MapEvent.SetGrassLength x y GRASS_LENGTH_CLEAR_0,
          MapEvent.map_invalidate_tile_full x y])
      else (b.1, [])
    { surfaceCost := a.2.1
      edgeCost := b.2.1
      tiles := storeSurfaceElement st.tiles x y c.1
      log := st.log ++ a.2.2 ++ b.2.2 ++ c.2 }

/-- The two nested loops of `Execute` (lines 171-224): `x` outside, `y` inside. -/
def executeLoop (w : World) (vr : MapRange) (surfaceStyle edgeStyle : Nat) : ExecState :=
  (loopValues vr.GetLeft vr.GetRight).foldl
    (fun st x =>
      (loopValues vr.GetTop vr.GetBottom).foldl
        (fun st y => executeTile w surfaceStyle edgeStyle st x y) st)
    { surfaceCost := 0, edgeCost := 0, tiles := w.tiles, log := [] }

/-- The method `SurfaceSetStyleAction::Execute` (lines 151-228): the result, the
world it leaves and the effects it performed. -/
def Execute (w : World) (range : MapRange) (surfaceStyle edgeStyle : Nat) :
    GameActionResult × World × List MapEvent :=
  let res := { MakeResult w.resultPosition0 with
    ExpenditureType := RCT_EXPENDITURE_TYPE_LANDSCAPING }
  let vr := validRange w range
  let res := { res with Position := ⟨xMid vr, yMid vr, heightMid w vr⟩ }
  let st := executeLoop w vr surfaceStyle edgeStyle
  ({ res with Cost := add32 st.surfaceCost st.edgeCost }, { w with tiles := st.tiles }, st.log)

end SurfaceSetStyleAction

namespace TrackDesignAction

/-! ## `TrackDesignAction` -/

/-- The bits of `GetFlags()` the action tests, and the remaining bits. -/
structure CommandFlags where
  GAME_COMMAND_FLAG_ALLOW_DURING_PAUSED : Bool
  GAME_COMMAND_FLAG_GHOST : Bool
  others : Nat
  deriving DecidableEq, Repr

/-- The placement modes passed to `place_virtual_track`. -/
inductive PtdOperation where
  | PTD_OPERATION_PLACE_QUERY
  | PTD_OPERATION_PLACE
  | PTD_OPERATION_PLACE_GHOST
  deriving DecidableEq, Repr

/-- The kinds of `RideSetVehicleAction` the action issues. -/
inductive RideSetVehicleType where
  | NumTrains
  | NumCarsPerTrain
  | RideEntry
  deriving DecidableEq, Repr

/-- The settings passed to `set_operating_setting_nested`. -/
inductive RideSetSetting where
  | Mode
  | Departure
  | MinWaitingTime
  | MaxWaitingTime
  | Operation
  | LiftHillSpeed
  | NumCircuits
  deriving DecidableEq, Repr

/-- An object entry `rct_object_entry`; the action reads its `name`. -/
structure rct_object_entry where
  name : String
  deriving DecidableEq, Repr

/-- The fields of the descriptor `TrackDesign` that the action reads. The
colour arrays are given by index. -/
structure TrackDesign where
  type : Nat
  vehicle_object : rct_object_entry
  ride_mode : Nat
  number_of_trains : Nat
  number_of_cars_per_train : Nat
  depart_flags : Nat
  min_waiting_time : Nat
  max_waiting_time : Nat
  operation_setting : Nat
  lift_hill_speed : Nat
  num_circuits : Nat
  colour_scheme : Nat
  entrance_style : Nat
  track_spine_colour : Nat → Nat
  track_rail_colour : Nat → Nat
  track_support_colour : Nat → Nat
  vehicle_body_colour : Nat → Nat
  vehicle_trim_colour : Nat → Nat
  vehicle_additional_colour : Nat → Nat
  name : String

/-- Value of `RCT12_NUM_COLOUR_SCHEMES`. -/
def RCT12_NUM_COLOUR_SCHEMES : Nat := 4

/-- Value of `MAX_VEHICLES_PER_RIDE`. -/
def MAX_VEHICLES_PER_RIDE : Nat := 32

/-- A ride as seen through the pointer `get_ride` returns; the action reads its `id`. -/
structure Ride where
  id : Nat
  deriving DecidableEq, Repr

/-- Calls the action makes on its collaborators, in program order. The first
two return a value the action uses; the others are made for their effect. -/
inductive Call where
  | ride_create_command (type entryIndex : Nat) (flags : CommandFlags)
  | place_virtual_track (ptdOperation : PtdOperation) (placeScenery : Bool) (ride : Ride)
      (loc : CoordsXYZ)
  | ride_action_modify_demolish (ride : Ride) (flags : CommandFlags)
  | RideSetVehicleAction (rideIndex : Nat) (type : RideSetVehicleType) (value colour : Nat)
  | set_operating_setting_nested (rideIndex : Nat) (setting : RideSetSetting) (value : Nat)
  | SetToDefaultInspectionInterval (ride : Ride)
  | set_lifecycle_flag_not_custom_design (ride : Ride)
  | set_colour_scheme_type (ride : Ride) (value : Nat)
  | set_entrance_style (ride : Ride) (value : Nat)
  | set_track_colour (ride : Ride) (i main additional supports : Nat)
  | set_vehicle_colours (ride : Ride) (i body trim ternary : Nat)
  | ride_set_name (ride : Ride) (name : String)
  deriving DecidableEq, Repr

/-- The collaborators of the action over a game state `G`; none of them is among
the sources, so each is a parameter. Functions that return a pair return their
C++ result and the game state they leave. `get_ride_entry_indices_for_ride_type`
gives the entries before the terminator `RIDE_ENTRY_INDEX_NULL`;
`GetRideGroup g type rei` stands for `GetRideGroup(type, get_ride_entry(rei))`;
ride groups are compared by `RideGroupEquals`; `applyCall` is the effect on the
game state of a call made for its effect; `resultPosition0` is the position of
a result object before any assignment. -/
structure Collaborators (G : Type) where
  resultPosition0 : CoordsXYZ
  game_is_paused : G → Bool
  gCheatsBuildInPauseMode : G → Bool
  gCheatsIgnoreResearchStatus : G → Bool
  find_object_in_entry_group : G → rct_object_entry → Option (Nat × Nat)
  ride_entry_is_invented : G → Nat → Bool
  RideTypeHasRideGroups : Nat → Bool
  object_repository_find_object_by_name : G → String → Option Nat
  RideGroupFind : Nat → Nat → Nat
  get_ride_entry_indices_for_ride_type : G → Nat → List Nat
  GetRideGroup : G → Nat → Nat → Nat
  RideGroupEquals : Nat → Nat → Bool
  ride_create_command : G → Nat → Nat → CommandFlags → (Int × Nat × Nat) × G
  get_ride : G → Nat → Option Ride
  place_virtual_track : G → TrackDesign → PtdOperation → Bool → Ride → CoordsXYZ → Int × G
  trackDesignPlaceStateSceneryUnavailable : G → Bool
  gGameCommandErrorText : G → rct_string_id
  ride_get_unused_preset_vehicle_colour : G → Nat → Nat
  applyCall : G → Call → G

/-- The pause gate (lines 34-40 and 127-133): `true` when the action returns `GAME_PAUSED`. -/
def pauseGate {G : Type} (c : Collaborators G) (flags : CommandFlags) (g : G) : Bool :=
  !flags.GAME_COMMAND_FLAG_ALLOW_DURING_PAUSED
    && (c.game_is_paused g && !c.gCheatsBuildInPauseMode g)

/-- The loop over `availableRideEntries` (lines 65-80 and 158-173): `continue`
on an entry that is not invented, `break` with the first entry of the ride
group; `entryIndex` is returned unchanged when the list is exhausted. -/
def searchRideEntries {G : Type} (c : Collaborators G) (g : G) (type td6RideGroup : Nat) :
    List Nat → Nat → Nat
  | [], entryIndex => entryIndex
  | rei :: rest, entryIndex =>
    if !c.ride_entry_is_invented g rei && !c.gCheatsIgnoreResearchStatus g then
      searchRideEntries c g type td6RideGroup rest entryIndex
    else if c.RideGroupEquals td6RideGroup (c.GetRideGroup g type rei) then rei
    else searchRideEntries c g type td6RideGroup rest entryIndex

/-- The value of `entryIndex` passed to `ride_create_command` (lines 42-82 and 135-175). -/
def resolveEntryIndex {G : Type} (c : Collaborators G) (td : TrackDesign) (g : G) : Nat :=
  let entryIndex : Nat :=
    match c.find_object_in_entry_group g td.vehicle_object with
    | none => 0xFF
    | some found =>
      if !c.ride_entry_is_invented g found.2 && !c.gCheatsIgnoreResearchStatus g then 0xFF
      else found.2
  if c.RideTypeHasRideGroups td.type && entryIndex == 0xFF then
    match c.object_repository_find_object_by_name g td.vehicle_object.name with
    | none => entryIndex
    | some rideGroupIndex =>
      searchRideEntries c g td.type (c.RideGroupFind td.type rideGroupIndex)
        (c.get_ride_entry_indices_for_ride_type g td.type) entryIndex
  else entryIndex

/-- State of the placement section: the last `cost`, `placeScenery`, the game
state and the calls made so far. -/
structure Placement (G : Type) where
  cost : Int
  placeScenery : Bool
  game : G
  calls : List Call

/-- The query passes (lines 99-107 and 192-200): one with scenery, and one
without when `_trackDesignPlaceStateSceneryUnavailable` is set after the first. -/
def queryPasses {G : Type} (c : Collaborators G) (td : TrackDesign) (ride : Ride)
    (loc : CoordsXYZ) (g : G) : Placement G :=
  let first := c.place_virtual_track g td PtdOperation.PTD_OPERATION_PLACE_QUERY true ride loc
  let firstCall := Call.place_virtual_track PtdOperation.PTD_OPERATION_PLACE_QUERY true ride loc
  if c.trackDesignPlaceStateSceneryUnavailable first.2 then
    let second :=
      c.place_virtual_track first.2 td PtdOperation.PTD_OPERATION_PLACE_QUERY false ride loc
    { cost := second.1, placeScenery := false, game := second.2,
      calls := [firstCall,
        Call.place_virtual_track PtdOperation.PTD_OPERATION_PLACE_QUERY false ride loc] }
  else
    { cost := first.1, placeScenery := true, game := first.2, calls := [firstCall] }

/-- The operation chosen at lines 204-212. -/
def commitOperation (flags : CommandFlags) : PtdOperation :=
  if flags.GAME_COMMAND_FLAG_GHOST then PtdOperation.PTD_OPERATION_PLACE_GHOST
  else PtdOperation.PTD_OPERATION_PLACE

/-- The commit pass of `Execute` (lines 202-215), run only when the query
passes did not end on `MONEY32_UNDEFINED`. -/
def commitPass {G : Type} (c : Collaborators G) (flags : CommandFlags) (td : TrackDesign)
    (ride : Ride) (loc : CoordsXYZ) (q : Placement G) : Placement G :=
  if q.cost ≠ MONEY32_UNDEFINED then
    let placed := c.place_virtual_track q.game td (commitOperation flags) q.placeScenery ride loc
    { cost := placed.1, placeScenery := q.placeScenery, game := placed.2,
      calls := q.calls
        ++ [Call.place_virtual_track (commitOperation flags) q.placeScenery ride loc] }
  else q

/-- The configuration cascade of `Execute` (lines 224-271) as the list of its
calls; `colour` is the value `ride_get_unused_preset_vehicle_colour(entryIndex)`. -/
def cascadeCalls (td : TrackDesign) (ride : Ride) (entryIndex colour : Nat) : List Call :=
  (if entryIndex ≠ 0xFF then
      [Call.RideSetVehicleAction ride.id RideSetVehicleType.RideEntry entryIndex colour]
    else [])
  ++ [Call.set_operating_setting_nested ride.id RideSetSetting.Mode td.ride_mode,
      Call.RideSetVehicleAction ride.id RideSetVehicleType.NumTrains td.number_of_trains 0,
      Call.RideSetVehicleAction ride.id RideSetVehicleType.NumCarsPerTrain
        td.number_of_cars_per_train 0,
      Call.set_operating_setting_nested ride.id RideSetSetting.Departure td.depart_flags,
      Call.set_operating_setting_nested ride.id RideSetSetting.MinWaitingTime
        td.min_waiting_time,
      Call.set_operating_setting_nested ride.id RideSetSetting.MaxWaitingTime
        td.max_waiting_time,
      Call.set_operating_setting_nested ride.id RideSetSetting.Operation td.operation_setting,
      Call.set_operating_setting_nested ride.id RideSetSetting.LiftHillSpeed
        (td.lift_hill_speed % 32),
      Call.set_operating_setting_nested ride.id RideSetSetting.NumCircuits
        (if td.num_circuits = 0 then 1 else td.num_circuits),
      Call.SetToDefaultInspectionInterval ride,
      Call.set_lifecycle_flag_not_custom_design ride,
      Call.set_colour_scheme_type ride td.colour_scheme,
      Call.set_entrance_style ride td.entrance_style]
  ++ (List.range RCT12_NUM_COLOUR_SCHEMES).map
      (fun i => Call.set_track_colour ride i (td.track_spine_colour i)
        (td.track_rail_colour i) (td.track_support_colour i))
  ++ (List.range MAX_VEHICLES_PER_RIDE).map
      (fun i => Call.set_vehicle_colours ride i (td.vehicle_body_colour i)
        (td.vehicle_trim_colour i) (td.vehicle_additional_colour i))
  ++ [Call.ride_set_name ride td.name]

/-- The result object after lines 28-32 and 121-125. -/
def initialResult {G : Type} (c : Collaborators G) (loc : CoordsXYZ) : GameActionResult :=
  { MakeResult c.resultPosition0 with
    Position := ⟨add32 loc.x 16, add32 loc.y 16, loc.z⟩
    ExpenditureType := RCT_EXPENDITURE_TYPE_RIDE_CONSTRUCTION }

/-- The method `TrackDesignAction::Query` (lines 26-117): the result, the game
state it leaves and the calls it made. -/
def Query {G : Type} (c : Collaborators G) (flags : CommandFlags) (loc : CoordsXYZ)
    (td : TrackDesign) (g : G) : GameActionResult × G × List Call :=
  let res := initialResult c loc
  if pauseGate c flags g then
    (MakeResultMessage c.resultPosition0 GA_ERROR.GAME_PAUSED
      rct_string_id.STR_CONSTRUCTION_NOT_POSSIBLE_WHILE_GAME_IS_PAUSED, g, [])
  else
    let entryIndex := resolveEntryIndex c td g
    let created := c.ride_create_command g td.type entryIndex flags
    let createCall := Call.ride_create_command td.type entryIndex flags
    if created.1.1 = MONEY32_UNDEFINED then
      (MakeResultTitleMessage c.resultPosition0 GA_ERROR.NO_FREE_ELEMENTS
        rct_string_id.STR_CANT_CREATE_NEW_RIDE_ATTRACTION rct_string_id.STR_NONE,
        created.2, [createCall])
    else
      match c.get_ride created.2 created.1.2.1 with
      | none => (MakeResultError c.resultPosition0 GA_ERROR.UNKNOWN, created.2, [createCall])
      | some ride =>
        let q := queryPasses c td ride loc created.2
        let error_reason := c.gGameCommandErrorText q.game
        let demolish := Call.ride_action_modify_demolish ride flags
        let g2 := c.applyCall q.game demolish
        if q.cost = MONEY32_UNDEFINED then
          (MakeResultMessage c.resultPosition0 GA_ERROR.DISALLOWED error_reason, g2,
            createCall :: q.calls ++ [demolish])
        else
          ({ res with Cost := q.cost }, g2, createCall :: q.calls ++ [demolish])

/-- The method `TrackDesignAction::Execute` (lines 119-275): the result, the
game state it leaves and the calls it made. -/
def Execute {G : Type} (c : Collaborators G) (flags : CommandFlags) (loc : CoordsXYZ)
    (td : TrackDesign) (g : G) : GameActionResult × G × List Call :=
  let res := initialResult c loc
  if pauseGate c flags g then
    (MakeResultMessage c.resultPosition0 GA_ERROR.GAME_PAUSED
      rct_string_id.STR_CONSTRUCTION_NOT_POSSIBLE_WHILE_GAME_IS_PAUSED, g, [])
  else
    let entryIndex := resolveEntryIndex c td g
    let created := c.ride_create_command g td.type entryIndex flags
    let createCall := Call.ride_create_command td.type entryIndex flags
    if created.1.1 = MONEY32_UNDEFINED then
      (MakeResultTitleMessage c.resultPosition0 GA_ERROR.NO_FREE_ELEMENTS
        rct_string_id.STR_CANT_CREATE_NEW_RIDE_ATTRACTION rct_string_id.STR_NONE,
        created.2, [createCall])
    else
      match c.get_ride created.2 created.1.2.1 with
      | none => (MakeResultError c.resultPosition0 GA_ERROR.UNKNOWN, created.2, [createCall])
      | some ride =>
        let p := commitPass c flags td ride loc (queryPasses c td ride loc created.2)
        if p.cost = MONEY32_UNDEFINED then
          let error_reason := c.gGameCommandErrorText p.game
          let demolish := Call.ride_action_modify_demolish ride flags
          (MakeResultMessage c.resultPosition0 GA_ERROR.DISALLOWED error_reason,
            c.applyCall p.game demolish, createCall :: p.calls ++ [demolish])
        else
          let colour := c.ride_get_unused_preset_vehicle_colour p.game entryIndex
          let cascade := cascadeCalls td ride entryIndex colour
          ({ res with Cost := p.cost, rideIndex := some ride.id },
            cascade.foldl c.applyCall p.game, createCall :: p.calls ++ cascade)

end TrackDesignAction

/-! ## Notions used to state the theorems

The coordinates the loops visit, the element and the writes `Execute` makes on a
tile, and the position and cost as the specification words them. -/

namespace SurfaceSetStyleAction

/-- The coordinates at which the loops of `Query` and `Execute` run their body,
in program order (`x` outside, `y` inside). -/
def visitedCoords (w : World) (range : MapRange) : List (Int × Int) :=
  (loopValues (validRange w range).GetLeft (validRange w range).GetRight).flatMap
    (fun x => (loopValues (validRange w range).GetTop (validRange w range).GetBottom).map
      (fun y => (x, y)))

/-- The surface element `Execute` leaves on a tile it visits, given the element
`el` it finds there: the three blocks of the loop body (lines 184-222) applied
in order. -/
def elementAfter (w : World) (surfaceStyle edgeStyle : Nat) (el : SurfaceElement) :
    SurfaceElement :=
  let style :=
    if surfaceStyle ≠ 0xFF ∧ surfaceStyle ≠ el.surfaceStyle
        ∧ (w.GetLoadedObject ObjectType.OBJECT_TYPE_TERRAIN_SURFACE surfaceStyle).isSome then
      (el.SetSurfaceStyle surfaceStyle).surfaceStyle
    else el.surfaceStyle
  let edge :=
    if edgeStyle ≠ 0xFF ∧ edgeStyle ≠ el.edgeStyle then (el.SetEdgeStyle edgeStyle).edgeStyle
    else el.edgeStyle
  let grass :=
    if w.CanGrassGrow style = true ∧ el.grassLength % 8 ≠ GRASS_LENGTH_CLEAR_0 then
      GRASS_LENGTH_CLEAR_0
    else el.grassLength
  { surfaceStyle := style, edgeStyle := edge, grassLength := grass }

/-- The body of `Execute` at `c` writes the requested surface style: the tile
has a surface element, the style is not the sentinel, differs from the style of
the element and is loaded. -/
def surfaceWritten (w : World) (tiles : TileMap) (surfaceStyle : Nat) (c : Int × Int) : Bool :=
  match map_get_surface_element_at tiles c.1 c.2 with
  | some el =>
    surfaceStyle != 0xFF && surfaceStyle != el.surfaceStyle
      && (w.GetLoadedObject ObjectType.OBJECT_TYPE_TERRAIN_SURFACE surfaceStyle).isSome
  | none => false

/-- The body of `Execute` at `c` writes the requested edge style: the tile has a
surface element and the style is not the sentinel and differs from the style of
the element. -/
def edgeWritten (tiles : TileMap) (edgeStyle : Nat) (c : Int × Int) : Bool :=
  match map_get_surface_element_at tiles c.1 c.2 with
  | some el => edgeStyle != 0xFF && edgeStyle != el.edgeStyle
  | none => false

/-- The effects the body of `Execute` performs at `(x, y)` on a tile whose
element is `el`, in program order (lines 197-200, 213-214, 220-221). -/
def tileEvents (w : World) (surfaceStyle edgeStyle : Nat) (x y : Int) (el : SurfaceElement) :
    List MapEvent :=
  (if surfaceStyle ≠ 0xFF ∧ surfaceStyle ≠ el.surfaceStyle
        ∧ (w.GetLoadedObject ObjectType.OBJECT_TYPE_TERRAIN_SURFACE surfaceStyle).isSome then
      [MapEvent.SetSurfaceStyle x y surfaceStyle, MapEvent.map_invalidate_tile_full x y,
        MapEvent.footpath_remove_litter x y (w.tile_element_height x y)]
    else [])
  ++ (if edgeStyle ≠ 0xFF ∧ edgeStyle ≠ el.edgeStyle then
      [MapEvent.SetEdgeStyle x y edgeStyle, MapEvent.map_invalidate_tile_full x y]
    else [])
  ++ (if w.CanGrassGrow (elementAfter w surfaceStyle edgeStyle el).surfaceStyle = true
        ∧ el.grassLength % 8 ≠ GRASS_LENGTH_CLEAR_0 then
      [MapEvent.SetGrassLength x y GRASS_LENGTH_CLEAR_0, MapEvent.map_invalidate_tile_full x y]
    else [])

/-- The effects the body of `Execute` performs at `c` on the map `tiles`. -/
def eventsAt (w : World) (tiles : TileMap) (surfaceStyle edgeStyle : Nat) (c : Int × Int) :
    List MapEvent :=
  match map_get_surface_element_at tiles c.1 c.2 with
  | some el => tileEvents w surfaceStyle edgeStyle c.1 c.2 el
  | none => []

/-- The surface style of the tile at `c` differs between the two maps. -/
def surfaceStyleChanged (before after : TileMap) (c : Int × Int) : Bool :=
  (map_get_surface_element_at before c.1 c.2).map SurfaceElement.GetSurfaceStyle
    != (map_get_surface_element_at after c.1 c.2).map SurfaceElement.GetSurfaceStyle

/-- The edge style of the tile at `c` differs between the two maps. -/
def edgeStyleChanged (before after : TileMap) (c : Int × Int) : Bool :=
  (map_get_surface_element_at before c.1 c.2).map SurfaceElement.GetEdgeStyle
    != (map_get_surface_element_at after c.1 c.2).map SurfaceElement.GetEdgeStyle

/-- The conditions under which the specification has `Query` return
`InvalidParameters`: a style id that is not the sentinel and is above its
bound, or does not resolve, the surface style to a loaded terrain surface
object and the edge style to a loaded terrain edge object. -/
def claimedInvalidParameters (w : World) (surfaceStyle edgeStyle : Nat) : Bool :=
  (surfaceStyle != 0xFF && decide (surfaceStyle > 0x1F))
  || (surfaceStyle != 0xFF
      && (w.GetLoadedObject ObjectType.OBJECT_TYPE_TERRAIN_SURFACE surfaceStyle).isNone)
  || (edgeStyle != 0xFF && decide (edgeStyle > 0xF))
  || (edgeStyle != 0xFF
      && (w.GetLoadedObject ObjectType.OBJECT_TYPE_TERRAIN_EDGE edgeStyle).isNone)

/-- The position the specification reports: the midpoint of the clamped range
offset to the tile centre, with the map height there masked to 16 bits. Plain
integer arithmetic. -/
def claimedPosition (w : World) (range : MapRange) : CoordsXYZ :=
  let x := Int.tdiv ((validRange w range).left + (validRange w range).right) 2 + 16
  let y := Int.tdiv ((validRange w range).top + (validRange w range).bottom) 2 + 16
  { x := x, y := y, z := w.tile_element_height x y % 65536 }

/-- Editor or sandbox mode. -/
def privileged (w : World) : Bool := w.screenFlagScenarioEditor || w.gCheatsSandboxMode

/-- The surface element the specification prices at a coordinate: the one of
the tile there, provided the tile lies inside the park or the mode is
privileged. -/
def pricedElement (w : World) (c : Int × Int) : Option SurfaceElement :=
  if privileged w || w.map_is_location_in_park c.1 c.2 then
    map_get_surface_element_at w.tiles c.1 c.2
  else none

/-- The registered price of a surface style (0 when the style is not loaded). -/
def registeredPrice (w : World) (surfaceStyle : Nat) : Int :=
  match w.GetLoadedObject ObjectType.OBJECT_TYPE_TERRAIN_SURFACE surfaceStyle with
  | some surfaceObj => surfaceObj.Price
  | none => 0

/-- The requested surface style is not the sentinel and differs from the style
of the priced element at `c`. -/
def surfaceDiffers (w : World) (surfaceStyle : Nat) (c : Int × Int) : Bool :=
  match pricedElement w c with
  | some el => surfaceStyle != 0xFF && surfaceStyle != el.surfaceStyle
  | none => false

/-- The requested edge style is not the sentinel and differs from the style of
the priced element at `c`. -/
def edgeDiffers (w : World) (edgeStyle : Nat) (c : Int × Int) : Bool :=
  match pricedElement w c with
  | some el => edgeStyle != 0xFF && edgeStyle != el.edgeStyle
  | none => false

/-- The price the specification charges for one tile. -/
def claimedTileCost (w : World) (surfaceStyle edgeStyle : Nat) (c : Int × Int) : Int :=
  (if surfaceDiffers w surfaceStyle c then registeredPrice w surfaceStyle else 0)
    + (if edgeDiffers w edgeStyle c then 100 else 0)

/-- The coordinates from `lo` up to `hi` in steps of one tile, as the
specification words the iteration ("tile-by-tile (32-unit stride)"): `lo`,
`lo + 32`, ... up to `hi`, none when `hi < lo`. Written by counting and not by
running the loops of the source. -/
def claimedStride (lo hi : Int) : List Int :=
  (List.range ((hi - lo) / 32 + 1).toNat).map (fun (i : Nat) => lo + 32 * (i : Int))

/-- The tiles the specification has the action visit: the tiles of the clamped
range ("left/top floored at ... 32 units, right/bottom capped at world max
size"), one tile every 32 units, `x` outside and `y` inside. -/
def claimedTiles (w : World) (range : MapRange) : List (Int × Int) :=
  (claimedStride (max range.left 32) (min range.right w.gMapSizeMaxXY)).flatMap
    (fun x => (claimedStride (max range.top 32) (min range.bottom w.gMapSizeMaxXY)).map
      (fun y => (x, y)))

/-- The cost of `Query` as the specification states it: the sum of the tile
prices over the tiles of the clamped range, as an `int32_t`. -/
def claimedQueryCost (w : World) (range : MapRange) (surfaceStyle edgeStyle : Nat) : Int :=
  wrapInt32 (((claimedTiles w range).map (claimedTileCost w surfaceStyle edgeStyle)).sum)

/-- The same cost by counting: price times the number of tiles whose surface
differs plus 100 times the number whose edge differs, as an `int32_t`. -/
def claimedQueryCostByCount (w : World) (range : MapRange) (surfaceStyle edgeStyle : Nat) :
    Int :=
  wrapInt32
    (registeredPrice w surfaceStyle
        * (((claimedTiles w range).filter (surfaceDiffers w surfaceStyle)).length : Int)
      + 100 * (((claimedTiles w range).filter (edgeDiffers w edgeStyle)).length : Int))

/-- The price of one effect of `Execute`: the registered price of the style it
writes for a surface style write, 100 for an edge style write, nothing for any
other effect. -/
def effectPrice (w : World) : MapEvent → Int
  | MapEvent.SetSurfaceStyle _ _ style => registeredPrice w style
  | MapEvent.SetEdgeStyle _ _ _ => 100
  | _ => 0

/-- The price of the effects in a log, as an `int32_t`. -/
def effectsPrice (w : World) (log : List MapEvent) : Int :=
  wrapInt32 ((log.map (effectPrice w)).sum)

end SurfaceSetStyleAction

namespace TrackDesignAction

/-- The call of `ride_create_command` at lines 86 and 179: its result
(`createRideResult`, `rideIndex`, `rideColour`) and the game state it leaves. -/
def createRide {G : Type} (c : Collaborators G) (flags : CommandFlags) (td : TrackDesign)
    (g : G) : (Int × Nat × Nat) × G :=
  c.ride_create_command g td.type (resolveEntryIndex c td g) flags

/-- The query passes of `Query` and `Execute`, run on the game state that ride
creation leaves. -/
def queryPlacement {G : Type} (c : Collaborators G) (flags : CommandFlags) (loc : CoordsXYZ)
    (td : TrackDesign) (ride : Ride) (g : G) : Placement G :=
  queryPasses c td ride loc (createRide c flags td g).2

/-- The placement section of `Execute`: the query passes followed by the commit pass. -/
def executePlacement {G : Type} (c : Collaborators G) (flags : CommandFlags) (loc : CoordsXYZ)
    (td : TrackDesign) (ride : Ride) (g : G) : Placement G :=
  commitPass c flags td ride loc (queryPlacement c flags loc td ride g)

/-- The first query pass (lines 102 and 195): placement in query mode with
scenery, on the game state that ride creation leaves. -/
def firstQueryPass {G : Type} (c : Collaborators G) (flags : CommandFlags) (loc : CoordsXYZ)
    (td : TrackDesign) (ride : Ride) (g : G) : Int × G :=
  c.place_virtual_track (createRide c flags td g).2 td PtdOperation.PTD_OPERATION_PLACE_QUERY
    true ride loc

/-- The flag `_trackDesignPlaceStateSceneryUnavailable` after the first query pass. -/
def sceneryUnavailable {G : Type} (c : Collaborators G) (flags : CommandFlags)
    (loc : CoordsXYZ) (td : TrackDesign) (ride : Ride) (g : G) : Bool :=
  c.trackDesignPlaceStateSceneryUnavailable (firstQueryPass c flags loc td ride g).2

/-- The second query pass (lines 106 and 199): placement in query mode without
scenery, on the game state that the first pass leaves. -/
def secondQueryPass {G : Type} (c : Collaborators G) (flags : CommandFlags) (loc : CoordsXYZ)
    (td : TrackDesign) (ride : Ride) (g : G) : Int × G :=
  c.place_virtual_track (firstQueryPass c flags loc td ride g).2 td
    PtdOperation.PTD_OPERATION_PLACE_QUERY false ride loc

/-- The commit call of `Execute` (line 214): placement in the mode chosen by the
ghost flag, with the scenery decision of the query passes, on the game state
they leave. -/
def commitCall {G : Type} (c : Collaborators G) (flags : CommandFlags) (loc : CoordsXYZ)
    (td : TrackDesign) (ride : Ride) (g : G) : Int × G :=
  c.place_virtual_track (queryPlacement c flags loc td ride g).game td (commitOperation flags)
    (queryPlacement c flags loc td ride g).placeScenery ride loc

/-- A call of `place_virtual_track`. -/
def Call.isPlacement : Call → Bool
  | Call.place_virtual_track _ _ _ _ => true
  | _ => false

/-- A call of `ride_create_command`. -/
def Call.isRideCreation : Call → Bool
  | Call.ride_create_command _ _ _ => true
  | _ => false

/-- An entry may be used: it is invented, or the cheat that ignores the
research status is on. -/
def entryUsable {G : Type} (c : Collaborators G) (g : G) (entryIndex : Nat) : Bool :=
  c.ride_entry_is_invented g entryIndex || c.gCheatsIgnoreResearchStatus g

/-- The entry index the specification falls back to when the entry of the
descriptor is not usable: with ride groups and the object of the descriptor in
the object repository, the first usable entry of the ride type, in registry
order, whose ride group equals the one of the descriptor; 0xFF otherwise. -/
def claimedFallbackEntryIndex {G : Type} (c : Collaborators G) (td : TrackDesign) (g : G) :
    Nat :=
  if c.RideTypeHasRideGroups td.type then
    match c.object_repository_find_object_by_name g td.vehicle_object.name with
    | some rideGroupIndex =>
      ((c.get_ride_entry_indices_for_ride_type g td.type).find?
        (fun rei => entryUsable c g rei
          && c.RideGroupEquals (c.RideGroupFind td.type rideGroupIndex)
              (c.GetRideGroup g td.type rei))).getD 0xFF
    | none => 0xFF
  else 0xFF

/-- The entry index the specification passes to ride creation: the resolved
entry of the descriptor when it resolves and is usable, the fallback otherwise. -/
def claimedEntryIndex {G : Type} (c : Collaborators G) (td : TrackDesign) (g : G) : Nat :=
  match c.find_object_in_entry_group g td.vehicle_object with
  | some found =>
    if entryUsable c g found.2 then found.2 else claimedFallbackEntryIndex c td g
  | none => claimedFallbackEntryIndex c td g

/-- A call that demolishes a ride. -/
def Call.isDemolish : Call → Bool
  | Call.ride_action_modify_demolish _ _ => true
  | _ => false

/-- A call of the configuration cascade (lines 224-271 of `Execute`). -/
def Call.isCascade : Call → Bool
  | Call.ride_create_command _ _ _ => false
  | Call.place_virtual_track _ _ _ _ => false
  | Call.ride_action_modify_demolish _ _ => false
  | _ => true

/-- What the specification says of the early failures of a run of `Query` or
`Execute` that ended in `out` (result, game state, calls made):
the result is `GAME_PAUSED` exactly when the flag allowing the action during
pause is absent, the game is paused and the build-in-pause cheat is off, and
then nothing was called and the game state is untouched; otherwise it is
`NO_FREE_ELEMENTS` exactly when ride creation returned `MONEY32_UNDEFINED`;
otherwise it is `UNKNOWN` exactly when the created ride id is not retrievable;
and with any of these three results no placement and no cascade call was made. -/
def EarlyFailures {G : Type} (c : Collaborators G) (flags : CommandFlags) (td : TrackDesign)
    (g : G) (out : GameActionResult × G × List Call) : Prop :=
  (out.1.Error = GA_ERROR.GAME_PAUSED ↔
      flags.GAME_COMMAND_FLAG_ALLOW_DURING_PAUSED = false ∧ c.game_is_paused g = true
        ∧ c.gCheatsBuildInPauseMode g = false)
  ∧ (out.1.Error = GA_ERROR.GAME_PAUSED → out.2.2 = [] ∧ out.2.1 = g)
  ∧ (out.1.Error ≠ GA_ERROR.GAME_PAUSED →
      (out.1.Error = GA_ERROR.NO_FREE_ELEMENTS ↔
        (createRide c flags td g).1.1 = MONEY32_UNDEFINED))
  ∧ (out.1.Error ≠ GA_ERROR.GAME_PAUSED → out.1.Error ≠ GA_ERROR.NO_FREE_ELEMENTS →
      (out.1.Error = GA_ERROR.UNKNOWN ↔
        c.get_ride (createRide c flags td g).2 (createRide c flags td g).1.2.1 = none))
  ∧ (out.1.Error = GA_ERROR.GAME_PAUSED ∨ out.1.Error = GA_ERROR.NO_FREE_ELEMENTS
        ∨ out.1.Error = GA_ERROR.UNKNOWN →
      ∀ call ∈ out.2.2, call.isPlacement = false ∧ call.isCascade = false)

end TrackDesignAction

/-! ## Concrete worlds used to evaluate the actions -/

namespace Examples

open SurfaceSetStyleAction

/-- A map with one surface element, on tile (1, 1), of surface style 0, edge
style 0 and grass length 0. -/
def oneTile : TileMap :=
  fun tx ty => if tx = 1 ∧ ty = 1 then some ⟨0, 0, 0⟩ else none

/-- An object manager with terrain surface objects 0 (price 40) and 1 (price 50)
and no other object. -/
def twoSurfaces : ObjectType → Nat → Option TerrainObject
  | ObjectType.OBJECT_TYPE_TERRAIN_SURFACE, 0 => some ⟨40⟩
  | ObjectType.OBJECT_TYPE_TERRAIN_SURFACE, 1 => some ⟨50⟩
  | _, _ => none

/-- A world over `oneTile` and `twoSurfaces` with map size 8159, flat height 16,
grass on style 0 only, and the given park membership and flags. -/
def world (inPark scenarioEditor sandbox forbidLandscape : Bool) : World :=
  { tiles := oneTile
    map_is_location_in_park := fun _ _ => inPark
    tile_element_height := fun _ _ => 16
    GetLoadedObject := twoSurfaces
    CanGrassGrow := fun style => style == 0
    gMapSizeMaxXY := 8159
    screenFlagScenarioEditor := scenarioEditor
    gCheatsSandboxMode := sandbox
    parkFlagForbidLandscapeChanges := forbidLandscape
    resultPosition0 := ⟨0, 0, 0⟩ }

/-- An object manager with terrain surface objects 0 (price 40) and 1 (price 50),
terrain edge object 2, and no other object. -/
def surfacesAndEdge : ObjectType → Nat → Option TerrainObject
  | ObjectType.OBJECT_TYPE_TERRAIN_SURFACE, 0 => some ⟨40⟩
  | ObjectType.OBJECT_TYPE_TERRAIN_SURFACE, 1 => some ⟨50⟩
  | ObjectType.OBJECT_TYPE_TERRAIN_EDGE, 2 => some ⟨0⟩
  | _, _ => none

/-- The world `world true false false false` with the object manager `surfacesAndEdge`. -/
def edgeWorld : World :=
  { world true false false false with GetLoadedObject := surfacesAndEdge }

/-- A map with surface elements on tiles (1, 1) and (2, 1): the first of surface
style 0, edge style 0 and grass length 3, the second of surface style 1, edge
style 2 and grass length 9. -/
def twoTiles : TileMap :=
  fun tx ty =>
    if tx = 1 ∧ ty = 1 then some ⟨0, 0, 3⟩
    else if tx = 2 ∧ ty = 1 then some ⟨1, 2, 9⟩
    else none

/-- The world `world true false false false` over the map `twoTiles`, with grass
on the surface styles 0 and 1. -/
def grassWorld : World :=
  { world true false false false with
    tiles := twoTiles
    CanGrassGrow := fun style => style == 0 || style == 1 }

/-- The world `grassWorld` with an object manager that has a terrain surface
object of price 50 under every index. -/
def everyStyleWorld : World :=
  { grassWorld with GetLoadedObject := fun _ _ => some ⟨50⟩ }

/-- The world `grassWorld` with every tile outside the park. -/
def outsideWorld : World :=
  { grassWorld with map_is_location_in_park := fun _ _ => false }

/-- The world `grassWorld` in sandbox mode, with every tile outside the park. -/
def sandboxWorld : World :=
  { grassWorld with
    gCheatsSandboxMode := true
    map_is_location_in_park := fun _ _ => false }

/-- The range that covers exactly the tiles at (32, 32) and (64, 32). -/
def twoTileRange : MapRange := ⟨32, 32, 95, 63⟩

/-- The range that covers exactly the tile at (32, 32). -/
def tileRange : MapRange := ⟨32, 32, 63, 63⟩

open TrackDesignAction

/-- A descriptor with every numeric field 0 and the given ride type. -/
def design (type : Nat) : TrackDesign :=
  { type := type
    vehicle_object := ⟨"VEH"⟩
    ride_mode := 0
    number_of_trains := 0
    number_of_cars_per_train := 0
    depart_flags := 0
    min_waiting_time := 0
    max_waiting_time := 0
    operation_setting := 0
    lift_hill_speed := 0
    num_circuits := 0
    colour_scheme := 0
    entrance_style := 0
    track_spine_colour := fun _ => 0
    track_rail_colour := fun _ => 0
    track_support_colour := fun _ => 0
    vehicle_body_colour := fun _ => 0
    vehicle_trim_colour := fun _ => 0
    vehicle_additional_colour := fun _ => 0
    name := "" }

/-- Collaborators over a game state that is the list of the ids of the rides
that exist. Ride creation appends a new id, demolition erases the id, and
`place_virtual_track` answers `queryCost` in query mode and `commitCost`
otherwise; scenery is always available and nothing is paused. -/
def rideList (queryCost commitCost : Int) : Collaborators (List Nat) :=
  { resultPosition0 := ⟨0, 0, 0⟩
    game_is_paused := fun _ => false
    gCheatsBuildInPauseMode := fun _ => false
    gCheatsIgnoreResearchStatus := fun _ => false
    find_object_in_entry_group := fun _ _ => none
    ride_entry_is_invented := fun _ _ => false
    RideTypeHasRideGroups := fun _ => false
    object_repository_find_object_by_name := fun _ _ => none
    RideGroupFind := fun _ _ => 0
    get_ride_entry_indices_for_ride_type := fun _ _ => []
    GetRideGroup := fun _ _ _ => 0
    RideGroupEquals := fun a b => a == b
    ride_create_command := fun g _ _ _ => ((0, g.length, 0), g ++ [g.length])
    get_ride := fun g i => if i ∈ g then some ⟨i⟩ else none
    place_virtual_track := fun g _ op _ _ _ =>
      (if op = PtdOperation.PTD_OPERATION_PLACE_QUERY then queryCost else commitCost, g)
    trackDesignPlaceStateSceneryUnavailable := fun _ => false
    gGameCommandErrorText := fun _ => rct_string_id.other 7
    ride_get_unused_preset_vehicle_colour := fun _ _ => 0
    applyCall := fun g call =>
      match call with
      | Call.ride_action_modify_demolish ride _ => g.erase ride.id
      | _ => g }

/-- The collaborators `rideList 10 20` with the game paused. -/
def pausedGame : Collaborators (List Nat) :=
  { rideList 10 20 with game_is_paused := fun _ => true }

/-- The collaborators `rideList 10 20` at the ride limit: ride creation fails. -/
def fullGame : Collaborators (List Nat) :=
  { rideList 10 20 with ride_create_command := fun g _ _ _ => ((MONEY32_UNDEFINED, 0, 0), g) }

/-- The collaborators `rideList 10 20` where no ride id is retrievable. -/
def lostRide : Collaborators (List Nat) :=
  { rideList 10 20 with get_ride := fun _ _ => none }

/-- The collaborators `rideList 10 20` where the first query pass leaves the
scenery-unavailable flag set. -/
def noScenery : Collaborators (List Nat) :=
  { rideList 10 20 with trackDesignPlaceStateSceneryUnavailable := fun _ => true }

/-- The collaborators `rideList 10 20` with ride groups: the entry of the
descriptor resolves to entry 4, which is not invented; its object is in the
repository with ride group 1; and the ride type has the entries 3 (group 0,
invented), 4 (group 1, not invented) and 5 (group 1, invented). -/
def rideGroups : Collaborators (List Nat) :=
  { rideList 10 20 with
    find_object_in_entry_group := fun _ _ => some (0, 4)
    ride_entry_is_invented := fun _ rei => rei != 4
    RideTypeHasRideGroups := fun _ => true
    object_repository_find_object_by_name := fun _ _ => some 1
    RideGroupFind := fun _ rideGroupIndex => rideGroupIndex
    get_ride_entry_indices_for_ride_type := fun _ _ => [3, 4, 5]
    GetRideGroup := fun _ _ rei => if rei = 3 then 0 else 1 }

/-- The descriptor `design 3` with lift-hill speed 0xE5 and no circuit count. -/
def fastDesign : TrackDesign :=
  { design 3 with lift_hill_speed := 0xE5, num_circuits := 0 }

/-- Flags with the ghost bit set. -/
def ghostFlags : CommandFlags := ⟨false, true, 0⟩

/-- Flags with no bit set. -/
def noFlags : CommandFlags := ⟨false, false, 0⟩

end Examples

/-! # Theorems -/

/-! ## Machine arithmetic and loops -/

/-- Reduction to `int32_t` may be postponed past an addition (left operand). -/
theorem wrapInt32_add_left (a b : Int) : wrapInt32 (wrapInt32 a + b) = wrapInt32 (a + b) := by
  unfold wrapInt32; omega

/-- Reduction to `int32_t` may be postponed past an addition (right operand). -/
theorem wrapInt32_add_right (a b : Int) : wrapInt32 (a + wrapInt32 b) = wrapInt32 (a + b) := by
  unfold wrapInt32; omega

/-- Reduction to `int32_t` is idempotent. -/
theorem wrapInt32_idem (a : Int) : wrapInt32 (wrapInt32 a) = wrapInt32 a := by
  unfold wrapInt32; omega

/-- A value in the `int32_t` range is its own reduction. -/
theorem wrapInt32_of_range (a : Int) (h1 : -2147483648 ≤ a) (h2 : a ≤ 2147483647) :
    wrapInt32 a = a := by
  unfold wrapInt32; omega

namespace SurfaceSetStyleAction

/-- With enough fuel, `forValues` yields exactly the values `v + 32 * i` up to `hi`. -/
theorem mem_forValues (hi x : Int) :
    ∀ (fuel : Nat) (v : Int), (hi + 1 - v).toNat ≤ fuel →
      (x ∈ forValues fuel v hi ↔ ∃ i : Nat, x = v + 32 * i ∧ x ≤ hi) := by
  intro fuel
  induction fuel with
  | zero =>
    intro v hfuel
    simp only [forValues, List.not_mem_nil, false_iff]
    rintro ⟨i, hx, hle⟩
    omega
  | succ n ih =>
    intro v hfuel
    unfold forValues
    split_ifs with hv
    · rw [List.mem_cons, ih (v + 32) (by omega)]
      constructor
      · rintro (h | ⟨i, hx, hle⟩)
        · exact ⟨0, by omega, by omega⟩
        · exact ⟨i + 1, by push_cast; omega, hle⟩
      · rintro ⟨i, hx, hle⟩
        cases i with
        | zero => left; simpa using hx
        | succ j => right; exact ⟨j, by push_cast at hx; omega, hle⟩
    · simp only [List.not_mem_nil, false_iff]
      rintro ⟨i, hx, hle⟩
      omega

/-- The loop variable of `for (v = lo; v <= hi; v += 32)` takes exactly the
values `lo + 32 * i` that are at most `hi`: the fuel of `loopValues` suffices. -/
theorem mem_loopValues (lo hi x : Int) :
    x ∈ loopValues lo hi ↔ ∃ i : Nat, x = lo + 32 * i ∧ x ≤ hi :=
  mem_forValues hi x _ lo (le_refl _)

/-- Two nested `for` loops are one loop over the pairs, `x` outside. -/
theorem foldl_nested {σ α β : Type} (f : σ → α → β → σ) (ys : List β) :
    ∀ (xs : List α) (s : σ),
      xs.foldl (fun st x => ys.foldl (fun st y => f st x y) st) s
        = (xs.flatMap (fun x => ys.map (fun y => (x, y)))).foldl
            (fun st c => f st c.1 c.2) s := by
  intro xs
  induction xs with
  | nil => intro s; rfl
  | cons x xs ih =>
    intro s
    simp only [List.foldl_cons, List.flatMap_cons, List.foldl_append, List.foldl_map]
    exact ih _

/-- A property kept by every iteration holds when the loop ends. -/
theorem foldl_invariant {σ α : Type} (P : σ → Prop) (f : σ → α → σ) :
    ∀ (l : List α) (s : σ), (∀ st c, c ∈ l → P st → P (f st c)) → P s → P (l.foldl f s) := by
  intro l
  induction l with
  | nil => intro s _ hs; exact hs
  | cons a l ih =>
    intro s hstep hs
    exact ih (f s a) (fun st c hc => hstep st c (List.mem_cons_of_mem a hc))
      (hstep s a (List.mem_cons_self a l) hs)

/-- The loops of `Query` as one loop over `visitedCoords`. -/
theorem queryLoop_eq (w : World) (range : MapRange) (s e : Nat) :
    queryLoop w (validRange w range) s e
      = (visitedCoords w range).foldl (fun acc c => queryTile w s e acc c.1 c.2)
          { surfaceCost := 0, edgeCost := 0 } := by
  unfold queryLoop visitedCoords
  exact foldl_nested (fun acc x y => queryTile w s e acc x y) _ _ _

/-- The loops of `Execute` as one loop over `visitedCoords`. -/
theorem executeLoop_eq (w : World) (range : MapRange) (s e : Nat) :
    executeLoop w (validRange w range) s e
      = (visitedCoords w range).foldl (fun st c => executeTile w s e st c.1 c.2)
          { surfaceCost := 0, edgeCost := 0, tiles := w.tiles, log := [] } := by
  unfold executeLoop visitedCoords
  exact foldl_nested (fun st x y => executeTile w s e st x y) _ _ _

/-- Membership in `visitedCoords`. -/
theorem mem_visitedCoords (w : World) (range : MapRange) (x y : Int) :
    (x, y) ∈ visitedCoords w range ↔
      (∃ i : Nat, x = (validRange w range).left + 32 * i ∧ x ≤ (validRange w range).right)
      ∧ (∃ j : Nat, y = (validRange w range).top + 32 * j ∧ y ≤ (validRange w range).bottom) := by
  unfold visitedCoords
  simp only [List.mem_flatMap, List.mem_map, Prod.mk.injEq, mem_loopValues,
    MapRange.GetLeft, MapRange.GetRight, MapRange.GetTop, MapRange.GetBottom]
  constructor
  · rintro ⟨a, ha, b, hb, rfl, rfl⟩
    exact ⟨ha, hb⟩
  · rintro ⟨hx, hy⟩
    exact ⟨x, hx, y, hy, rfl, rfl⟩

/-- The value `xMid` (and `yMid`) without overflow: when the sum of the two
bounds fits an `int32_t`, the result is the plain midpoint plus 16. -/
theorem midpoint_of_range (a b : Int) (h1 : -2147483648 ≤ a + b)
    (h2 : a + b ≤ 2147483647) :
    add32 (Int.tdiv (add32 a b) 2) 16 = Int.tdiv (a + b) 2 + 16 := by
  have hsum : add32 a b = a + b := wrapInt32_of_range _ h1 h2
  rw [hsum]
  have hdiv : -1073741824 ≤ Int.tdiv (a + b) 2 ∧ Int.tdiv (a + b) 2 ≤ 1073741824 := by
    rcases le_or_lt 0 (a + b) with h | h
    · rw [Int.tdiv_eq_ediv h (by decide)]; omega
    · have hneg : Int.tdiv (a + b) 2 = -(Int.tdiv (-(a + b)) 2) := by
        rw [Int.neg_tdiv, neg_neg]
      rw [hneg, Int.tdiv_eq_ediv (by omega) (by decide)]; omega
  exact wrapInt32_of_range _ (by omega) (by omega)

end SurfaceSetStyleAction

/-! ## The return paths of `Query` and `Execute` -/

namespace SurfaceSetStyleAction

/-- The three return paths of `Query`: the style validation rejects, or the
landscape gate rejects, or the loops run and their cost is returned. -/
theorem Query_cases (w : World) (range : MapRange) (s e : Nat) :
    (Query w range s e = MakeResultMessage w.resultPosition0 GA_ERROR.INVALID_PARAMETERS
        rct_string_id.STR_CANT_CHANGE_LAND_TYPE)
    ∨ (Query w range s e = MakeResultTitleMessage w.resultPosition0 GA_ERROR.DISALLOWED
          rct_string_id.STR_CANT_CHANGE_LAND_TYPE
          rct_string_id.STR_FORBIDDEN_BY_THE_LOCAL_AUTHORITY
        ∧ ((!w.screenFlagScenarioEditor && !w.gCheatsSandboxMode)
            && w.parkFlagForbidLandscapeChanges) = true)
    ∨ (Query w range s e =
          { Error := GA_ERROR.OK
            ErrorTitle := rct_string_id.STR_NONE
            ErrorMessage := rct_string_id.STR_NONE
            Position := ⟨xMid (validRange w range), yMid (validRange w range),
              heightMid w (validRange w range)⟩
            Cost := add32 (queryLoop w (validRange w range) s e).surfaceCost
              (queryLoop w (validRange w range) s e).edgeCost
            ExpenditureType := RCT_EXPENDITURE_TYPE_LANDSCAPING
            rideIndex := none }
        ∧ (s ≠ 0xFF → s ≤ 0x1F
            ∧ ∃ obj, w.GetLoadedObject ObjectType.OBJECT_TYPE_TERRAIN_SURFACE s = some obj)
        ∧ ((!w.screenFlagScenarioEditor && !w.gCheatsSandboxMode)
            && w.parkFlagForbidLandscapeChanges) = false) := by
  unfold Query
  simp only []
  split_ifs with h1 h2 h3 h4 h5
  · left; rfl
  · left; rfl
  · left; rfl
  · left; rfl
  · right; left; exact ⟨rfl, h5⟩
  · right; right
    refine ⟨rfl, ?_, by simpa using h5⟩
    intro hs
    refine ⟨by omega, ?_⟩
    cases hobj : w.GetLoadedObject ObjectType.OBJECT_TYPE_TERRAIN_SURFACE s with
    | none => exact absurd ⟨hs, by simp [hobj]⟩ h2
    | some obj => exact ⟨obj, rfl⟩

/-- The style validation of `Query` (lines 49-83) rejects a style id above its bound. -/
theorem Query_invalid (w : World) (range : MapRange) (s e : Nat)
    (h : (s ≠ 0xFF ∧ s > 0x1F) ∨ (e ≠ 0xFF ∧ e > 0xF)) :
    Query w range s e = MakeResultMessage w.resultPosition0 GA_ERROR.INVALID_PARAMETERS
      rct_string_id.STR_CANT_CHANGE_LAND_TYPE := by
  unfold Query
  simp only []
  split_ifs with h1 h2 h3 h4 h5
  · rfl
  · rfl
  · rfl
  · rfl
  · rcases h with h | h
    · exact absurd h h1
    · exact absurd h h3
  · rcases h with h | h
    · exact absurd h h1
    · exact absurd h h3

/-- The style validation of `Query` as the source performs it: the result is
`INVALID_PARAMETERS` exactly when a style id that is not the sentinel is above
its bound or is not loaded as a terrain surface object; the edge style, too, is
looked up as `OBJECT_TYPE_TERRAIN_SURFACE` (line 76). -/
theorem Query_invalid_iff (w : World) (range : MapRange) (s e : Nat) :
    (Query w range s e).Error = GA_ERROR.INVALID_PARAMETERS ↔
      (s ≠ 0xFF ∧ (s > 0x1F
          ∨ (w.GetLoadedObject ObjectType.OBJECT_TYPE_TERRAIN_SURFACE s).isNone = true))
      ∨ (e ≠ 0xFF ∧ (e > 0xF
          ∨ (w.GetLoadedObject ObjectType.OBJECT_TYPE_TERRAIN_SURFACE e).isNone = true)) := by
  unfold Query
  simp only []
  split_ifs with h1 h2 h3 h4 h5
  · exact ⟨fun _ => Or.inl ⟨h1.1, Or.inl h1.2⟩, fun _ => rfl⟩
  · exact ⟨fun _ => Or.inl ⟨h2.1, Or.inr h2.2⟩, fun _ => rfl⟩
  · exact ⟨fun _ => Or.inr ⟨h3.1, Or.inl h3.2⟩, fun _ => rfl⟩
  · exact ⟨fun _ => Or.inr ⟨h4.1, Or.inr h4.2⟩, fun _ => rfl⟩
  · constructor
    · intro h; simp [MakeResultTitleMessage, MakeResult] at h
    · rintro (⟨hs, h | h⟩ | ⟨he, h | h⟩)
      · exact absurd ⟨hs, h⟩ h1
      · exact absurd ⟨hs, h⟩ h2
      · exact absurd ⟨he, h⟩ h3
      · exact absurd ⟨he, h⟩ h4
  · constructor
    · intro h; simp [MakeResult] at h
    · rintro (⟨hs, h | h⟩ | ⟨he, h | h⟩)
      · exact absurd ⟨hs, h⟩ h1
      · exact absurd ⟨hs, h⟩ h2
      · exact absurd ⟨he, h⟩ h3
      · exact absurd ⟨he, h⟩ h4

/-- The landscape gate of `Query` (lines 93-98): with the editor flag clear,
sandbox mode off and landscape changes forbidden, a request that the style
validation does not reject gets the fresh error result `DISALLOWED`, of cost 0. -/
theorem Query_disallowed (w : World) (range : MapRange) (s e : Nat)
    (heditor : w.screenFlagScenarioEditor = false)
    (hsandbox : w.gCheatsSandboxMode = false)
    (hforbid : w.parkFlagForbidLandscapeChanges = true)
    (hvalid : (Query w range s e).Error ≠ GA_ERROR.INVALID_PARAMETERS) :
    Query w range s e = MakeResultTitleMessage w.resultPosition0 GA_ERROR.DISALLOWED
        rct_string_id.STR_CANT_CHANGE_LAND_TYPE
        rct_string_id.STR_FORBIDDEN_BY_THE_LOCAL_AUTHORITY := by
  rcases Query_cases w range s e with h | ⟨h, _⟩ | ⟨_, _, hgate⟩
  · rw [h] at hvalid
    exact absurd rfl hvalid
  · exact h
  · rw [heditor, hsandbox, hforbid] at hgate
    exact absurd hgate (by decide)

/-- A request that the style validation of `Query` does not reject has style
ids that are the sentinel or within their bounds. -/
theorem Query_valid_bounds (w : World) (range : MapRange) (s e : Nat)
    (hvalid : (Query w range s e).Error ≠ GA_ERROR.INVALID_PARAMETERS) :
    (s ≠ 0xFF → s ≤ 0x1F) ∧ (e ≠ 0xFF → e ≤ 0xF) := by
  have h := (not_congr (Query_invalid_iff w range s e)).mp hvalid
  constructor
  · intro hs
    by_contra hgt
    exact h (Or.inl ⟨hs, Or.inl (by omega)⟩)
  · intro he
    by_contra hgt
    exact h (Or.inr ⟨he, Or.inl (by omega)⟩)

/-- The method `Execute` has a single return path, which reports no error. -/
theorem Execute_error (w : World) (range : MapRange) (s e : Nat) :
    (Execute w range s e).1.Error = GA_ERROR.OK := rfl

/-- The position `Execute` reports. -/
theorem Execute_position (w : World) (range : MapRange) (s e : Nat) :
    (Execute w range s e).1.Position
      = ⟨xMid (validRange w range), yMid (validRange w range),
          heightMid w (validRange w range)⟩ := rfl

/-- The cost `Execute` reports. -/
theorem Execute_cost (w : World) (range : MapRange) (s e : Nat) :
    (Execute w range s e).1.Cost
      = add32 (executeLoop w (validRange w range) s e).surfaceCost
          (executeLoop w (validRange w range) s e).edgeCost := rfl

end SurfaceSetStyleAction

/-! ## The loop bodies -/

namespace SurfaceSetStyleAction

/-- On a tile without surface element the body of `Execute` does nothing. -/
theorem executeTile_none (w : World) (s e : Nat) (st : ExecState) (x y : Int)
    (h : map_get_surface_element_at st.tiles x y = none) :
    executeTile w s e st x y = st := by
  unfold executeTile
  rw [h]

/-- The map after one run of the body of `Execute` on a tile with element `el`. -/
theorem executeTile_tiles (w : World) (s e : Nat) (st : ExecState) (x y : Int)
    (el : SurfaceElement) (h : map_get_surface_element_at st.tiles x y = some el) :
    (executeTile w s e st x y).tiles
      = storeSurfaceElement st.tiles x y (elementAfter w s e el) := by
  obtain ⟨es, ee, eg⟩ := el
  unfold executeTile elementAfter
  rw [h]
  cases hobj : w.GetLoadedObject ObjectType.OBJECT_TYPE_TERRAIN_SURFACE s <;>
    by_cases h1 : s = 0xFF <;> by_cases h2 : s = es <;>
    by_cases h3 : e = 0xFF <;> by_cases h4 : e = ee <;>
    by_cases h5 : eg % 8 = GRASS_LENGTH_CLEAR_0 <;>
    simp [h1, h2, h3, h4, h5, hobj, SurfaceElement.GetSurfaceStyle,
      SurfaceElement.GetEdgeStyle, SurfaceElement.GetGrassLength,
      SurfaceElement.SetSurfaceStyle, SurfaceElement.SetEdgeStyle,
      SurfaceElement.SetGrassLength] <;>
    split_ifs <;> simp_all

/-- The surface accumulator after one run of the body of `Execute`. -/
theorem executeTile_surfaceCost (w : World) (s e : Nat) (st : ExecState) (x y : Int)
    (el : SurfaceElement) (h : map_get_surface_element_at st.tiles x y = some el) :
    (executeTile w s e st x y).surfaceCost
      = if s ≠ 0xFF ∧ s ≠ el.surfaceStyle then
          match w.GetLoadedObject ObjectType.OBJECT_TYPE_TERRAIN_SURFACE s with
          | some surfaceObj => add32 st.surfaceCost surfaceObj.Price
          | none => st.surfaceCost
        else st.surfaceCost := by
  unfold executeTile
  rw [h]
  simp only [SurfaceElement.GetSurfaceStyle]
  by_cases h1 : s = 0xFF <;> by_cases h2 : s = el.surfaceStyle <;>
    cases hobj : w.GetLoadedObject ObjectType.OBJECT_TYPE_TERRAIN_SURFACE s <;>
    simp [h1, h2]

/-- The edge accumulator after one run of the body of `Execute`. -/
theorem executeTile_edgeCost (w : World) (s e : Nat) (st : ExecState) (x y : Int)
    (el : SurfaceElement) (h : map_get_surface_element_at st.tiles x y = some el) :
    (executeTile w s e st x y).edgeCost
      = if e ≠ 0xFF ∧ e ≠ el.edgeStyle then add32 st.edgeCost 100 else st.edgeCost := by
  unfold executeTile
  rw [h]
  simp only [SurfaceElement.GetSurfaceStyle, SurfaceElement.GetEdgeStyle,
    SurfaceElement.SetSurfaceStyle]
  by_cases h1 : s = 0xFF <;> by_cases h2 : s = el.surfaceStyle <;>
    by_cases h3 : e = 0xFF <;> by_cases h4 : e = el.edgeStyle <;>
    cases hobj : w.GetLoadedObject ObjectType.OBJECT_TYPE_TERRAIN_SURFACE s <;>
    simp [h1, h2, h3, h4]

/-- The body of `Execute` at `(x, y)` leaves the tiles other than the one
containing `(x, y)` as they are. -/
theorem executeTile_tiles_other (w : World) (s e : Nat) (st : ExecState) (x y tx ty : Int)
    (h : ¬ (tx = tileIndex x ∧ ty = tileIndex y)) :
    (executeTile w s e st x y).tiles tx ty = st.tiles tx ty := by
  cases hel : map_get_surface_element_at st.tiles x y with
  | none => rw [executeTile_none w s e st x y hel]
  | some el =>
    rw [executeTile_tiles w s e st x y el hel]
    unfold storeSurfaceElement
    rw [if_neg h]

/-- The element on the tile of `(x, y)` after the body of `Execute` ran at `(x, y)`. -/
theorem executeTile_at (w : World) (s e : Nat) (st : ExecState) (x y : Int)
    (el : SurfaceElement) (h : map_get_surface_element_at st.tiles x y = some el) :
    map_get_surface_element_at (executeTile w s e st x y).tiles x y
      = some (elementAfter w s e el) := by
  rw [executeTile_tiles w s e st x y el h]
  simp [map_get_surface_element_at, storeSurfaceElement]

/-- A property kept by the body of `Execute` at every visited coordinate holds
of the state in which the loops end. -/
theorem executeLoop_invariant (w : World) (range : MapRange) (s e : Nat)
    (P : ExecState → Prop)
    (h0 : P { surfaceCost := 0, edgeCost := 0, tiles := w.tiles, log := [] })
    (hstep : ∀ st c, c ∈ visitedCoords w range → P st → P (executeTile w s e st c.1 c.2)) :
    P (executeLoop w (validRange w range) s e) := by
  rw [executeLoop_eq]
  exact foldl_invariant P _ _ _ hstep h0

/-- A property kept by the body of `Query` at every visited coordinate holds of
the accumulators with which the loops end. -/
theorem queryLoop_invariant (w : World) (range : MapRange) (s e : Nat)
    (P : Costs → Prop)
    (h0 : P { surfaceCost := 0, edgeCost := 0 })
    (hstep : ∀ acc c, c ∈ visitedCoords w range → P acc → P (queryTile w s e acc c.1 c.2)) :
    P (queryLoop w (validRange w range) s e) := by
  rw [queryLoop_eq]
  exact foldl_invariant P _ _ _ hstep h0

/-- The body of `Query` in terms of the element the specification prices. -/
theorem queryTile_eq (w : World) (s e : Nat) (acc : Costs) (x y : Int) :
    queryTile w s e acc x y =
      match pricedElement w (x, y) with
      | none => acc
      | some el =>
        { surfaceCost :=
            if s ≠ 0xFF ∧ s ≠ el.surfaceStyle then
              match w.GetLoadedObject ObjectType.OBJECT_TYPE_TERRAIN_SURFACE s with
              | some surfaceObj => add32 acc.surfaceCost surfaceObj.Price
              | none => acc.surfaceCost
            else acc.surfaceCost
          edgeCost :=
            if e ≠ 0xFF ∧ e ≠ el.edgeStyle then add32 acc.edgeCost 100 else acc.edgeCost } := by
  unfold queryTile pricedElement privileged
  cases hel : map_get_surface_element_at w.tiles x y with
  | none =>
    cases h1 : w.screenFlagScenarioEditor <;> cases h2 : w.gCheatsSandboxMode <;>
      cases h3 : w.map_is_location_in_park x y <;> simp
  | some el =>
    cases h1 : w.screenFlagScenarioEditor <;> cases h2 : w.gCheatsSandboxMode <;>
      cases h3 : w.map_is_location_in_park x y <;>
      by_cases hs1 : s = 0xFF <;> by_cases hs2 : s = el.surfaceStyle <;>
      by_cases he1 : e = 0xFF <;> by_cases he2 : e = el.edgeStyle <;>
      simp [hs1, hs2, he1, he2, SurfaceElement.GetSurfaceStyle, SurfaceElement.GetEdgeStyle]

/-- The surface accumulator after one run of the body of `Query`: unchanged
when the requested style is the sentinel or the style of the tile. -/
theorem queryTile_surfaceCost_same (w : World) (s e : Nat) (acc : Costs) (x y : Int)
    (h : ∀ el, map_get_surface_element_at w.tiles x y = some el →
      s = 0xFF ∨ s = el.GetSurfaceStyle) :
    (queryTile w s e acc x y).surfaceCost = acc.surfaceCost := by
  rw [queryTile_eq]
  cases hp : pricedElement w (x, y) with
  | none => rfl
  | some el =>
    have hel : map_get_surface_element_at w.tiles x y = some el := by
      unfold pricedElement at hp
      split_ifs at hp
      exact hp
    show (if s ≠ 0xFF ∧ s ≠ el.surfaceStyle then _ else acc.surfaceCost) = acc.surfaceCost
    rw [if_neg]
    rintro ⟨h1, h2⟩
    rcases h el hel with h3 | h3
    · exact h1 h3
    · exact h2 h3

/-- The edge accumulator after one run of the body of `Query`: unchanged when
the requested style is the sentinel or the style of the tile. -/
theorem queryTile_edgeCost_same (w : World) (s e : Nat) (acc : Costs) (x y : Int)
    (h : ∀ el, map_get_surface_element_at w.tiles x y = some el →
      e = 0xFF ∨ e = el.GetEdgeStyle) :
    (queryTile w s e acc x y).edgeCost = acc.edgeCost := by
  rw [queryTile_eq]
  cases hp : pricedElement w (x, y) with
  | none => rfl
  | some el =>
    have hel : map_get_surface_element_at w.tiles x y = some el := by
      unfold pricedElement at hp
      split_ifs at hp
      exact hp
    show (if e ≠ 0xFF ∧ e ≠ el.edgeStyle then _ else acc.edgeCost) = acc.edgeCost
    rw [if_neg]
    rintro ⟨h1, h2⟩
    rcases h el hel with h3 | h3
    · exact h1 h3
    · exact h2 h3

/-- The surface style of `elementAfter` when the request leaves it alone. -/
theorem elementAfter_surfaceStyle_same (w : World) (s e : Nat) (el : SurfaceElement)
    (h : s = 0xFF ∨ s = el.surfaceStyle) : (elementAfter w s e el).surfaceStyle = el.surfaceStyle := by
  unfold elementAfter
  rcases h with h | h
  · simp [h]
  · simp [← h]

/-- The edge style of `elementAfter` when the request leaves it alone. -/
theorem elementAfter_edgeStyle_same (w : World) (s e : Nat) (el : SurfaceElement)
    (h : e = 0xFF ∨ e = el.edgeStyle) : (elementAfter w s e el).edgeStyle = el.edgeStyle := by
  unfold elementAfter
  rcases h with h | h
  · simp [h]
  · simp [← h]

/-- An attribute that the body of `Execute` never changes on the tile of
`(x, y)` has, after the body ran over any list of coordinates, the value it
had. The attribute is read by `attr`; `keep` says the body keeps it on an
element that has the value. -/
theorem executeFold_keeps_attribute (w : World) (s e : Nat) (x y : Int)
    (el : SurfaceElement) (attr : SurfaceElement → Nat)
    (hel : map_get_surface_element_at w.tiles x y = some el)
    (keep : ∀ el1, attr el1 = attr el → attr (elementAfter w s e el1) = attr el)
    (l : List (Int × Int)) :
    ∃ el1, map_get_surface_element_at
        (l.foldl (fun st c => executeTile w s e st c.1 c.2)
          { surfaceCost := 0, edgeCost := 0, tiles := w.tiles, log := [] }).tiles x y
        = some el1
      ∧ attr el1 = attr el := by
  refine foldl_invariant
    (fun st => ∃ el1, map_get_surface_element_at st.tiles x y = some el1 ∧ attr el1 = attr el)
    (fun st c => executeTile w s e st c.1 c.2) l _ ?_ ?_
  · rintro st c _ ⟨el1, h1, h2⟩
    by_cases hsame : tileIndex x = tileIndex c.1 ∧ tileIndex y = tileIndex c.2
    · have hc : map_get_surface_element_at st.tiles c.1 c.2 = some el1 := by
        unfold map_get_surface_element_at at h1 ⊢
        rw [← hsame.1, ← hsame.2]; exact h1
      refine ⟨elementAfter w s e el1, ?_, keep el1 h2⟩
      have := executeTile_at w s e st c.1 c.2 el1 hc
      unfold map_get_surface_element_at at this ⊢
      rw [hsame.1, hsame.2]; exact this
    · refine ⟨el1, ?_, h2⟩
      unfold map_get_surface_element_at at h1 ⊢
      rw [executeTile_tiles_other w s e st c.1 c.2 _ _ hsame]; exact h1
  · exact ⟨el, hel, rfl⟩

/-- The element `Execute` leaves on a tile keeps an attribute that the body
never changes there. -/
theorem Execute_keeps_attribute (w : World) (range : MapRange) (s e : Nat) (x y : Int)
    (el : SurfaceElement) (attr : SurfaceElement → Nat)
    (hel : map_get_surface_element_at w.tiles x y = some el)
    (keep : ∀ el1, attr el1 = attr el → attr (elementAfter w s e el1) = attr el) :
    ∃ el1, map_get_surface_element_at (Execute w range s e).2.1.tiles x y = some el1
      ∧ attr el1 = attr el := by
  show ∃ el1, map_get_surface_element_at (executeLoop w (validRange w range) s e).tiles x y
      = some el1 ∧ attr el1 = attr el
  rw [executeLoop_eq]
  exact executeFold_keeps_attribute w s e x y el attr hel keep _

/-- The body of `Execute` on an element whose surface style the request leaves
alone: nothing is added to the surface accumulator and the style stays. -/
theorem executeTile_surface_free (w : World) (s e : Nat) (st : ExecState) (x y : Int)
    (el : SurfaceElement) (hel : map_get_surface_element_at st.tiles x y = some el)
    (hs : s = 0xFF ∨ s = el.GetSurfaceStyle) :
    (executeTile w s e st x y).surfaceCost = st.surfaceCost
    ∧ ∃ el1, map_get_surface_element_at (executeTile w s e st x y).tiles x y = some el1
        ∧ el1.GetSurfaceStyle = el.GetSurfaceStyle := by
  refine ⟨?_, elementAfter w s e el, executeTile_at w s e st x y el hel,
    elementAfter_surfaceStyle_same w s e el hs⟩
  rw [executeTile_surfaceCost w s e st x y el hel]
  rcases hs with hs | hs
  · simp [hs]
  · rw [if_neg]
    rintro ⟨_, h2⟩
    exact h2 hs

/-- The body of `Execute` on an element whose edge style the request leaves
alone: nothing is added to the edge accumulator and the style stays. -/
theorem executeTile_edge_free (w : World) (s e : Nat) (st : ExecState) (x y : Int)
    (el : SurfaceElement) (hel : map_get_surface_element_at st.tiles x y = some el)
    (he : e = 0xFF ∨ e = el.GetEdgeStyle) :
    (executeTile w s e st x y).edgeCost = st.edgeCost
    ∧ ∃ el1, map_get_surface_element_at (executeTile w s e st x y).tiles x y = some el1
        ∧ el1.GetEdgeStyle = el.GetEdgeStyle := by
  refine ⟨?_, elementAfter w s e el, executeTile_at w s e st x y el hel,
    elementAfter_edgeStyle_same w s e el he⟩
  rw [executeTile_edgeCost w s e st x y el hel]
  rcases he with he | he
  · simp [he]
  · rw [if_neg]
    rintro ⟨_, h2⟩
    exact h2 he

end SurfaceSetStyleAction

/-! ## Each tile is visited at most once -/

namespace SurfaceSetStyleAction

/-- The values of a loop variable are at least the start value and increase
by at least 32 from one to the next. -/
theorem forValues_pairwise (hi : Int) :
    ∀ (fuel : Nat) (v : Int),
      (∀ a ∈ forValues fuel v hi, v ≤ a)
      ∧ (forValues fuel v hi).Pairwise (fun a b => a + 32 ≤ b) := by
  intro fuel
  induction fuel with
  | zero => intro v; simp [forValues]
  | succ n ih =>
    intro v
    unfold forValues
    split_ifs with hv
    · obtain ⟨ih1, ih2⟩ := ih (v + 32)
      constructor
      · intro a ha
        rcases List.mem_cons.mp ha with h | h
        · omega
        · have := ih1 a h; omega
      · rw [List.pairwise_cons]
        exact ⟨fun a ha => ih1 a ha, ih2⟩
    · simp

/-- Two coordinates at least 32 apart, the smaller not negative, lie on different tiles. -/
theorem tileIndex_lt (a b : Int) (ha : 0 ≤ a) (hab : a + 32 ≤ b) : tileIndex a < tileIndex b := by
  unfold tileIndex
  rw [Int.tdiv_eq_ediv ha (by decide), Int.tdiv_eq_ediv (by omega) (by decide)]
  omega

/-- The values of a loop variable that starts at 32 or more lie on pairwise
different tile indices. -/
theorem loopValues_pairwise_tileIndex (lo hi : Int) (hlo : 32 ≤ lo) :
    (loopValues lo hi).Pairwise (fun a b => tileIndex a ≠ tileIndex b) := by
  obtain ⟨h1, h2⟩ := forValues_pairwise hi (hi + 1 - lo).toNat lo
  unfold loopValues
  have h3 : (forValues (hi + 1 - lo).toNat lo hi).Pairwise
      (fun a b => lo ≤ a ∧ a + 32 ≤ b) := by
    rw [List.pairwise_iff_forall_sublist] at h2 ⊢
    intro a b hab
    exact ⟨h1 a (hab.subset (List.mem_cons_self a [b])), h2 hab⟩
  refine h3.imp ?_
  rintro a b ⟨ha, hab⟩
  exact ne_of_lt (tileIndex_lt a b (by omega) hab)

/-- No two visited coordinates lie on the same tile. -/
theorem visitedCoords_pairwise (w : World) (range : MapRange) :
    (visitedCoords w range).Pairwise
      (fun c d => ¬ (tileIndex d.1 = tileIndex c.1 ∧ tileIndex d.2 = tileIndex c.2)) := by
  have hx := loopValues_pairwise_tileIndex (validRange w range).GetLeft
    (validRange w range).GetRight (by simp [validRange, MapRange.GetLeft])
  have hy := loopValues_pairwise_tileIndex (validRange w range).GetTop
    (validRange w range).GetBottom (by simp [validRange, MapRange.GetTop])
  unfold visitedCoords
  rw [List.pairwise_flatMap]
  constructor
  · intro x _
    rw [List.pairwise_map]
    refine hy.imp ?_
    intro a b hab h
    exact hab h.2.symm
  · refine hx.imp ?_
    intro a b hab c hc d hd h
    obtain ⟨_, _, rfl⟩ := List.mem_map.mp hc
    obtain ⟨_, _, rfl⟩ := List.mem_map.mp hd
    exact hab h.1.symm

/-- The map after the body of `Execute` ran over a list of coordinates that lie
on pairwise different tiles: a tile that contains one of the coordinates and
had a surface element carries `elementAfter` of that element, and every other
tile is as it was. -/
theorem executeFold_tiles (w : World) (s e : Nat) :
    ∀ (l : List (Int × Int)) (st : ExecState),
      l.Pairwise
        (fun c d => ¬ (tileIndex d.1 = tileIndex c.1 ∧ tileIndex d.2 = tileIndex c.2)) →
      ∀ tx ty : Int,
        (l.foldl (fun st c => executeTile w s e st c.1 c.2) st).tiles tx ty
          = if ∃ c ∈ l, tx = tileIndex c.1 ∧ ty = tileIndex c.2 then
              (st.tiles tx ty).map (elementAfter w s e)
            else st.tiles tx ty := by
  intro l
  induction l with
  | nil => intro st _ tx ty; simp
  | cons c l ih =>
    intro st hp tx ty
    rw [List.pairwise_cons] at hp
    rw [List.foldl_cons, ih _ hp.2 tx ty]
    by_cases hc : tx = tileIndex c.1 ∧ ty = tileIndex c.2
    · have hrest : ¬ ∃ d ∈ l, tx = tileIndex d.1 ∧ ty = tileIndex d.2 := by
        rintro ⟨d, hd, h1, h2⟩
        exact hp.1 d hd ⟨by rw [← h1, hc.1], by rw [← h2, hc.2]⟩
      rw [if_neg hrest, if_pos ⟨c, List.mem_cons_self c l, hc⟩]
      cases hel : map_get_surface_element_at st.tiles c.1 c.2 with
      | none =>
        rw [executeTile_none w s e st c.1 c.2 hel]
        unfold map_get_surface_element_at at hel
        rw [hc.1, hc.2, hel]; rfl
      | some el =>
        rw [executeTile_tiles w s e st c.1 c.2 el hel]
        unfold map_get_surface_element_at at hel
        rw [hc.1, hc.2, hel]
        simp [storeSurfaceElement]
    · rw [executeTile_tiles_other w s e st c.1 c.2 tx ty hc]
      by_cases hrest : ∃ d ∈ l, tx = tileIndex d.1 ∧ ty = tileIndex d.2
      · obtain ⟨d, hd, hd2⟩ := hrest
        rw [if_pos ⟨d, hd, hd2⟩, if_pos ⟨d, List.mem_cons_of_mem c hd, hd2⟩]
      · rw [if_neg hrest, if_neg]
        rintro ⟨d, hd, hd2⟩
        rcases List.mem_cons.mp hd with h | h
        · subst h; exact hc hd2
        · exact hrest ⟨d, h, hd2⟩

/-- The map `Execute` leaves: a tile that contains a visited coordinate and had
a surface element carries `elementAfter` of that element; every other tile is
as it was. -/
theorem Execute_tiles (w : World) (range : MapRange) (s e : Nat) (tx ty : Int) :
    (Execute w range s e).2.1.tiles tx ty
      = if ∃ c ∈ visitedCoords w range, tx = tileIndex c.1 ∧ ty = tileIndex c.2 then
          (w.tiles tx ty).map (elementAfter w s e)
        else w.tiles tx ty := by
  show (executeLoop w (validRange w range) s e).tiles tx ty = _
  rw [executeLoop_eq]
  exact executeFold_tiles w s e _ _ (visitedCoords_pairwise w range) tx ty

end SurfaceSetStyleAction

/-! ## The cost of `Query` -/

namespace SurfaceSetStyleAction

/-- The surface accumulator after one run of the body of `Query`, when the
requested surface style is the sentinel or is loaded. -/
theorem queryTile_surfaceCost (w : World) (s e : Nat) (acc : Costs) (c : Int × Int)
    (hres : s ≠ 0xFF →
      ∃ obj, w.GetLoadedObject ObjectType.OBJECT_TYPE_TERRAIN_SURFACE s = some obj) :
    (queryTile w s e acc c.1 c.2).surfaceCost
      = if surfaceDiffers w s c = true then add32 acc.surfaceCost (registeredPrice w s)
        else acc.surfaceCost := by
  rw [queryTile_eq]
  unfold surfaceDiffers registeredPrice
  cases hp : pricedElement w (c.1, c.2) with
  | none => simp [hp]
  | some el =>
    by_cases h1 : s = 0xFF
    · simp [hp, h1]
    · obtain ⟨obj, hobj⟩ := hres h1
      by_cases h2 : s = el.surfaceStyle <;> simp [hp, h1, h2, hobj]

/-- The edge accumulator after one run of the body of `Query`. -/
theorem queryTile_edgeCost (w : World) (s e : Nat) (acc : Costs) (c : Int × Int) :
    (queryTile w s e acc c.1 c.2).edgeCost
      = if edgeDiffers w e c = true then add32 acc.edgeCost 100 else acc.edgeCost := by
  rw [queryTile_eq]
  unfold edgeDiffers
  cases hp : pricedElement w (c.1, c.2) with
  | none => simp [hp]
  | some el =>
    by_cases h1 : e = 0xFF <;> by_cases h2 : e = el.edgeStyle <;> simp [hp, h1, h2]

/-- The accumulators of `Query` after its body ran over a list of coordinates:
price times the number of surface differences and 100 times the number of edge
differences, added to the initial values in `int32_t` arithmetic. -/
theorem queryFold_costs (w : World) (s e : Nat)
    (hres : s ≠ 0xFF →
      ∃ obj, w.GetLoadedObject ObjectType.OBJECT_TYPE_TERRAIN_SURFACE s = some obj) :
    ∀ (l : List (Int × Int)) (acc : Costs),
      wrapInt32 acc.surfaceCost = acc.surfaceCost → wrapInt32 acc.edgeCost = acc.edgeCost →
      (l.foldl (fun acc c => queryTile w s e acc c.1 c.2) acc).surfaceCost
          = wrapInt32 (acc.surfaceCost
              + registeredPrice w s * ((l.filter (surfaceDiffers w s)).length : Int))
      ∧ (l.foldl (fun acc c => queryTile w s e acc c.1 c.2) acc).edgeCost
          = wrapInt32 (acc.edgeCost + 100 * ((l.filter (edgeDiffers w e)).length : Int)) := by
  intro l
  induction l with
  | nil =>
    intro acc h1 h2
    simp [h1, h2]
  | cons c l ih =>
    intro acc h1 h2
    have hs := queryTile_surfaceCost w s e acc c hres
    have he := queryTile_edgeCost w s e acc c
    have hs' : wrapInt32 (queryTile w s e acc c.1 c.2).surfaceCost
        = (queryTile w s e acc c.1 c.2).surfaceCost := by
      rw [hs]; split_ifs
      · exact wrapInt32_idem _
      · exact h1
    have he' : wrapInt32 (queryTile w s e acc c.1 c.2).edgeCost
        = (queryTile w s e acc c.1 c.2).edgeCost := by
      rw [he]; split_ifs
      · exact wrapInt32_idem _
      · exact h2
    obtain ⟨ih1, ih2⟩ := ih (queryTile w s e acc c.1 c.2) hs' he'
    rw [List.foldl_cons, ih1, ih2, hs, he]
    constructor
    · by_cases hd : surfaceDiffers w s c = true
      · rw [if_pos hd, List.filter_cons_of_pos hd, List.length_cons, add32,
          wrapInt32_add_left]
        push_cast
        congr 1
        ring
      · rw [if_neg hd, List.filter_cons_of_neg hd]
    · by_cases hd : edgeDiffers w e c = true
      · rw [if_pos hd, List.filter_cons_of_pos hd, List.length_cons, add32,
          wrapInt32_add_left]
        push_cast
        congr 1
        ring
      · rw [if_neg hd, List.filter_cons_of_neg hd]

/-- Counting yields no coordinate when the upper bound is below the lower. -/
theorem claimedStride_nil (lo hi : Int) (h : hi < lo) : claimedStride lo hi = [] := by
  have h0 : ((hi - lo) / 32 + 1).toNat = 0 := by omega
  unfold claimedStride
  rw [h0]
  rfl

/-- Counting from `lo` yields `lo` and then the count from `lo + 32`. -/
theorem claimedStride_cons (lo hi : Int) (h : lo ≤ hi) :
    claimedStride lo hi = lo :: claimedStride (lo + 32) hi := by
  have h1 : ((hi - lo) / 32 + 1).toNat = ((hi - (lo + 32)) / 32 + 1).toNat + 1 := by
    omega
  have h2 : ∀ n : Nat, (List.range (n + 1)).map (fun (i : Nat) => lo + 32 * (i : Int))
      = lo :: (List.range n).map (fun (i : Nat) => lo + 32 + 32 * (i : Int)) := by
    intro n
    rw [List.range_succ_eq_map, List.map_cons, List.map_map]
    congr 1
    · simp
    · apply List.map_congr_left
      intro i _
      simp only [Function.comp_apply, Nat.succ_eq_add_one, Nat.cast_add, Nat.cast_one]
      ring
  unfold claimedStride
  rw [h1, h2]

/-- The loop `for (v = lo; v <= hi; v += 32)` takes the values counted by
`claimedStride`, whenever the fuel covers the distance from `lo` to `hi`. -/
theorem forValues_eq_claimedStride (hi : Int) :
    ∀ (fuel : Nat) (lo : Int), (hi + 1 - lo).toNat ≤ fuel →
      forValues fuel lo hi = claimedStride lo hi := by
  intro fuel
  induction fuel with
  | zero =>
    intro lo h
    rw [claimedStride_nil lo hi (by omega)]
    rfl
  | succ n ih =>
    intro lo h
    unfold forValues
    by_cases hle : lo ≤ hi
    · rw [if_pos hle, ih (lo + 32) (by omega), claimedStride_cons lo hi hle]
    · rw [if_neg hle, claimedStride_nil lo hi (by omega)]

/-- The values of the loop variable are those counted by `claimedStride`. -/
theorem loopValues_eq_claimedStride (lo hi : Int) : loopValues lo hi = claimedStride lo hi :=
  forValues_eq_claimedStride hi _ lo (le_refl _)

/-- The loops of the source visit the tiles of the clamped range, in the order
the specification gives. -/
theorem visitedCoords_eq_claimedTiles (w : World) (range : MapRange) :
    visitedCoords w range = claimedTiles w range := by
  unfold visitedCoords claimedTiles validRange MapRange.GetLeft MapRange.GetRight
    MapRange.GetTop MapRange.GetBottom
  simp only [loopValues_eq_claimedStride]

/-- The sum of the tile prices is the count form of the cost. -/
theorem sum_claimedTileCost (w : World) (s e : Nat) (l : List (Int × Int)) :
    (l.map (claimedTileCost w s e)).sum
      = registeredPrice w s * ((l.filter (surfaceDiffers w s)).length : Int)
        + 100 * ((l.filter (edgeDiffers w e)).length : Int) := by
  induction l with
  | nil => simp
  | cons c l ih =>
    rw [List.map_cons, List.sum_cons, ih]
    unfold claimedTileCost
    by_cases h1 : surfaceDiffers w s c = true <;> by_cases h2 : edgeDiffers w e c = true <;>
      simp [h1, h2, List.filter_cons] <;> ring

end SurfaceSetStyleAction

/-! ## The cost of `Execute` -/

namespace SurfaceSetStyleAction

/-- The surface accumulator after one run of the body of `Execute`, in terms of
`surfaceWritten`. -/
theorem executeTile_surfaceCost_written (w : World) (s e : Nat) (st : ExecState)
    (c : Int × Int) :
    (executeTile w s e st c.1 c.2).surfaceCost
      = if surfaceWritten w st.tiles s c = true then
          add32 st.surfaceCost (registeredPrice w s)
        else st.surfaceCost := by
  unfold surfaceWritten registeredPrice
  cases hel : map_get_surface_element_at st.tiles c.1 c.2 with
  | none => rw [executeTile_none w s e st c.1 c.2 hel]; simp
  | some el =>
    rw [executeTile_surfaceCost w s e st c.1 c.2 el hel]
    cases hobj : w.GetLoadedObject ObjectType.OBJECT_TYPE_TERRAIN_SURFACE s <;>
      by_cases h1 : s = 0xFF <;> by_cases h2 : s = el.surfaceStyle <;> simp [h1, h2]

/-- The edge accumulator after one run of the body of `Execute`, in terms of
`edgeWritten`. -/
theorem executeTile_edgeCost_written (w : World) (s e : Nat) (st : ExecState)
    (c : Int × Int) :
    (executeTile w s e st c.1 c.2).edgeCost
      = if edgeWritten st.tiles e c = true then add32 st.edgeCost 100 else st.edgeCost := by
  unfold edgeWritten
  cases hel : map_get_surface_element_at st.tiles c.1 c.2 with
  | none => rw [executeTile_none w s e st c.1 c.2 hel]; simp
  | some el =>
    rw [executeTile_edgeCost w s e st c.1 c.2 el hel]
    by_cases h1 : e = 0xFF <;> by_cases h2 : e = el.edgeStyle <;> simp [h1, h2]

/-- The accumulators of `Execute` after its body ran over a list of coordinates
that lie on pairwise different tiles, counted on the map before the run. -/
theorem executeFold_costs (w : World) (s e : Nat) :
    ∀ (l : List (Int × Int)) (st : ExecState),
      l.Pairwise
        (fun c d => ¬ (tileIndex d.1 = tileIndex c.1 ∧ tileIndex d.2 = tileIndex c.2)) →
      wrapInt32 st.surfaceCost = st.surfaceCost → wrapInt32 st.edgeCost = st.edgeCost →
      (l.foldl (fun st c => executeTile w s e st c.1 c.2) st).surfaceCost
          = wrapInt32 (st.surfaceCost
              + registeredPrice w s * ((l.filter (surfaceWritten w st.tiles s)).length : Int))
      ∧ (l.foldl (fun st c => executeTile w s e st c.1 c.2) st).edgeCost
          = wrapInt32 (st.edgeCost
              + 100 * ((l.filter (edgeWritten st.tiles e)).length : Int)) := by
  intro l
  induction l with
  | nil =>
    intro st _ h1 h2
    simp [h1, h2]
  | cons c l ih =>
    intro st hp h1 h2
    rw [List.pairwise_cons] at hp
    have hs := executeTile_surfaceCost_written w s e st c
    have he := executeTile_edgeCost_written w s e st c
    have hs' : wrapInt32 (executeTile w s e st c.1 c.2).surfaceCost
        = (executeTile w s e st c.1 c.2).surfaceCost := by
      rw [hs]; split_ifs
      · exact wrapInt32_idem _
      · exact h1
    have he' : wrapInt32 (executeTile w s e st c.1 c.2).edgeCost
        = (executeTile w s e st c.1 c.2).edgeCost := by
      rw [he]; split_ifs
      · exact wrapInt32_idem _
      · exact h2
    obtain ⟨ih1, ih2⟩ := ih (executeTile w s e st c.1 c.2) hp.2 hs' he'
    have hsame : ∀ d ∈ l, map_get_surface_element_at (executeTile w s e st c.1 c.2).tiles
        d.1 d.2 = map_get_surface_element_at st.tiles d.1 d.2 := by
      intro d hd
      exact executeTile_tiles_other w s e st c.1 c.2 _ _ (hp.1 d hd)
    have hfs : l.filter (surfaceWritten w (executeTile w s e st c.1 c.2).tiles s)
        = l.filter (surfaceWritten w st.tiles s) := by
      apply List.filter_congr
      intro d hd
      unfold surfaceWritten
      rw [hsame d hd]
    have hfe : l.filter (edgeWritten (executeTile w s e st c.1 c.2).tiles e)
        = l.filter (edgeWritten st.tiles e) := by
      apply List.filter_congr
      intro d hd
      unfold edgeWritten
      rw [hsame d hd]
    rw [List.foldl_cons, ih1, ih2, hfs, hfe, hs, he]
    constructor
    · by_cases hd : surfaceWritten w st.tiles s c = true
      · rw [if_pos hd, List.filter_cons_of_pos hd, List.length_cons, add32,
          wrapInt32_add_left]
        push_cast
        congr 1
        ring
      · rw [if_neg hd, List.filter_cons_of_neg hd]
    · by_cases hd : edgeWritten st.tiles e c = true
      · rw [if_pos hd, List.filter_cons_of_pos hd, List.length_cons, add32,
          wrapInt32_add_left]
        push_cast
        congr 1
        ring
      · rw [if_neg hd, List.filter_cons_of_neg hd]

/-- The cost `Execute` returns: the registered price times the number of
visited tiles on which it writes the surface style plus 100 times the number on
which it writes the edge style, counted on the map before the run, in signed
32-bit arithmetic. -/
theorem Execute_cost_formula (w : World) (range : MapRange) (s e : Nat) :
    (Execute w range s e).1.Cost
      = wrapInt32
          (registeredPrice w s
              * (((visitedCoords w range).filter (surfaceWritten w w.tiles s)).length : Int)
            + 100 * (((visitedCoords w range).filter (edgeWritten w.tiles e)).length : Int)) := by
  rw [Execute_cost, executeLoop_eq]
  obtain ⟨h1, h2⟩ := executeFold_costs w s e (visitedCoords w range)
    { surfaceCost := 0, edgeCost := 0, tiles := w.tiles, log := [] }
    (visitedCoords_pairwise w range) rfl rfl
  rw [h1, h2]
  unfold add32
  rw [wrapInt32_add_left, wrapInt32_add_right]
  simp only [zero_add]

end SurfaceSetStyleAction

/-! ## The element and the effects `Execute` leaves on a visited tile -/

namespace SurfaceSetStyleAction

/-- The element `Execute` leaves at a visited coordinate. -/
theorem Execute_at_visited (w : World) (range : MapRange) (s e : Nat) (c : Int × Int)
    (hc : c ∈ visitedCoords w range) :
    map_get_surface_element_at (Execute w range s e).2.1.tiles c.1 c.2
      = (map_get_surface_element_at w.tiles c.1 c.2).map (elementAfter w s e) := by
  unfold map_get_surface_element_at
  rw [Execute_tiles, if_pos ⟨c, hc, rfl, rfl⟩]

/-- The surface style `Execute` leaves, for a loaded style within the bound of
surface styles. -/
theorem elementAfter_surfaceStyle (w : World) (s e : Nat) (el : SurfaceElement)
    (hs : s ≠ 0xFF) (hb : s ≤ 0x1F)
    (hres : (w.GetLoadedObject ObjectType.OBJECT_TYPE_TERRAIN_SURFACE s).isSome = true) :
    (elementAfter w s e el).surfaceStyle = s := by
  unfold elementAfter SurfaceElement.SetSurfaceStyle
  by_cases h : s = el.surfaceStyle
  · simp [← h]
  · simp only [hs, h, hres, ne_eq, not_false_eq_true, and_self, if_true]
    omega

/-- The edge style `Execute` leaves, for a style within the bound of edge styles. -/
theorem elementAfter_edgeStyle (w : World) (s e : Nat) (el : SurfaceElement) (hb : e ≤ 0xF) :
    (elementAfter w s e el).edgeStyle = e := by
  unfold elementAfter SurfaceElement.SetEdgeStyle
  by_cases h : e = el.edgeStyle
  · simp [← h]
  · have he : e ≠ 0xFF := by omega
    simp only [he, h, ne_eq, not_false_eq_true, and_self, if_true]
    omega

/-- The surface style `Execute` leaves differs from the one it found exactly
when it wrote the style, for a requested style that is the sentinel or within
the bound of surface styles. -/
theorem elementAfter_surfaceStyle_ne (w : World) (s e : Nat) (el : SurfaceElement)
    (hb : s ≠ 0xFF → s ≤ 0x1F) :
    (elementAfter w s e el).surfaceStyle ≠ el.surfaceStyle
      ↔ s ≠ 0xFF ∧ s ≠ el.surfaceStyle
        ∧ (w.GetLoadedObject ObjectType.OBJECT_TYPE_TERRAIN_SURFACE s).isSome = true := by
  unfold elementAfter SurfaceElement.SetSurfaceStyle
  simp only []
  split_ifs with h
  · have h1 := hb h.1
    have h2 := h.2.1
    refine ⟨fun _ => h, fun _ => ?_⟩
    omega
  · exact ⟨fun h2 => absurd rfl h2, fun h2 => absurd h2 h⟩

/-- The edge style `Execute` leaves differs from the one it found exactly when
it wrote the style, for a requested style that is the sentinel or within the
bound of edge styles. -/
theorem elementAfter_edgeStyle_ne (w : World) (s e : Nat) (el : SurfaceElement)
    (hb : e ≠ 0xFF → e ≤ 0xF) :
    (elementAfter w s e el).edgeStyle ≠ el.edgeStyle ↔ e ≠ 0xFF ∧ e ≠ el.edgeStyle := by
  unfold elementAfter SurfaceElement.SetEdgeStyle
  simp only []
  split_ifs with h
  · have h1 := hb h.1
    have h2 := h.2
    refine ⟨fun _ => h, fun _ => ?_⟩
    omega
  · exact ⟨fun h2 => absurd rfl h2, fun h2 => absurd h2 h⟩

/-- The grass length `Execute` leaves. -/
theorem elementAfter_grassLength (w : World) (s e : Nat) (el : SurfaceElement) :
    (elementAfter w s e el).grassLength
      = if w.CanGrassGrow (elementAfter w s e el).surfaceStyle = true
            ∧ el.grassLength % 8 ≠ GRASS_LENGTH_CLEAR_0 then
          GRASS_LENGTH_CLEAR_0
        else el.grassLength := by
  unfold elementAfter
  rfl

/-- Running the body of `Execute` a second time on a tile changes nothing, for
requested styles that are the sentinel or within their bounds. -/
theorem elementAfter_idem (w : World) (s e : Nat) (el : SurfaceElement)
    (hs : s ≠ 0xFF → s ≤ 0x1F) (he : e ≠ 0xFF → e ≤ 0xF) :
    elementAfter w s e (elementAfter w s e el) = elementAfter w s e el := by
  obtain ⟨es, ee, eg⟩ := el
  have hs2 : s ≠ 0xFF → s % 32 = s := fun h => Nat.mod_eq_of_lt (by have := hs h; omega)
  have he2 : e ≠ 0xFF → e % 16 = e := fun h => Nat.mod_eq_of_lt (by have := he h; omega)
  unfold elementAfter SurfaceElement.SetSurfaceStyle SurfaceElement.SetEdgeStyle
  by_cases h1 : s = 0xFF <;> by_cases h2 : s = es <;> by_cases h3 : e = 0xFF <;>
    by_cases h4 : e = ee <;> by_cases h5 : eg % 8 = GRASS_LENGTH_CLEAR_0 <;>
    cases hobj : (w.GetLoadedObject ObjectType.OBJECT_TYPE_TERRAIN_SURFACE s).isSome <;>
    simp [h1, h2, h3, h4, h5, hobj, hs2, he2] <;>
    split_ifs <;> simp_all [GRASS_LENGTH_CLEAR_0]

/-- The effect log after one run of the body of `Execute`. -/
theorem executeTile_log (w : World) (s e : Nat) (st : ExecState) (c : Int × Int) :
    (executeTile w s e st c.1 c.2).log = st.log ++ eventsAt w st.tiles s e c := by
  unfold eventsAt
  cases hel : map_get_surface_element_at st.tiles c.1 c.2 with
  | none => rw [executeTile_none w s e st c.1 c.2 hel]; simp
  | some el =>
    obtain ⟨es, ee, eg⟩ := el
    unfold executeTile tileEvents elementAfter
    rw [hel]
    cases hobj : w.GetLoadedObject ObjectType.OBJECT_TYPE_TERRAIN_SURFACE s <;>
      by_cases h1 : s = 0xFF <;> by_cases h2 : s = es <;>
      by_cases h3 : e = 0xFF <;> by_cases h4 : e = ee <;>
      by_cases h5 : eg % 8 = GRASS_LENGTH_CLEAR_0 <;>
      simp [h1, h2, h3, h4, h5, hobj, SurfaceElement.GetSurfaceStyle,
        SurfaceElement.GetEdgeStyle, SurfaceElement.GetGrassLength,
        SurfaceElement.SetSurfaceStyle, SurfaceElement.SetEdgeStyle,
        SurfaceElement.SetGrassLength] <;>
      split_ifs <;> simp_all

/-- The effect log after the body of `Execute` ran over a list of coordinates
that lie on pairwise different tiles: the effects at each coordinate, in order,
as determined by the map before the run. -/
theorem executeFold_log (w : World) (s e : Nat) :
    ∀ (l : List (Int × Int)) (st : ExecState),
      l.Pairwise
        (fun c d => ¬ (tileIndex d.1 = tileIndex c.1 ∧ tileIndex d.2 = tileIndex c.2)) →
      (l.foldl (fun st c => executeTile w s e st c.1 c.2) st).log
        = st.log ++ l.flatMap (eventsAt w st.tiles s e) := by
  intro l
  induction l with
  | nil => intro st _; simp
  | cons c l ih =>
    intro st hp
    rw [List.pairwise_cons] at hp
    rw [List.foldl_cons, ih _ hp.2, executeTile_log, List.flatMap_cons, List.append_assoc]
    congr 2
    apply List.flatMap_congr
    intro d hd
    unfold eventsAt map_get_surface_element_at
    rw [executeTile_tiles_other w s e st c.1 c.2 _ _ (hp.1 d hd)]

/-- The effects `Execute` performs: those at each visited coordinate, in order. -/
theorem Execute_log (w : World) (range : MapRange) (s e : Nat) :
    (Execute w range s e).2.2 = (visitedCoords w range).flatMap (eventsAt w w.tiles s e) := by
  show (executeLoop w (validRange w range) s e).log = _
  rw [executeLoop_eq, executeFold_log w s e _ _ (visitedCoords_pairwise w range)]
  rfl

/-- Every effect of the body of `Execute` at `(x, y)` names the coordinate `(x, y)`. -/
theorem tileEvents_setGrassLength (w : World) (s e : Nat) (x y : Int) (el : SurfaceElement)
    (x1 y1 : Int) (v : Nat)
    (h : MapEvent.SetGrassLength x1 y1 v ∈ tileEvents w s e x y el) :
    x1 = x ∧ y1 = y ∧ w.CanGrassGrow (elementAfter w s e el).surfaceStyle = true
      ∧ el.grassLength % 8 ≠ GRASS_LENGTH_CLEAR_0 := by
  unfold tileEvents at h
  simp only [List.mem_append] at h
  rcases h with (h | h) | h
  · split_ifs at h <;> simp at h
  · split_ifs at h <;> simp at h
  · split_ifs at h with hg
    · simp at h
      exact ⟨h.1, h.2.1, hg.1, hg.2⟩
    · simp at h

end SurfaceSetStyleAction

/-! ## What `Execute` changed, and a second run -/

namespace SurfaceSetStyleAction

/-- At a visited coordinate, `Execute` wrote the surface style exactly when the
surface style of the tile differs between the map before and the map after,
for a requested style that is the sentinel or within the bound. -/
theorem surfaceWritten_eq_changed (w : World) (range : MapRange) (s e : Nat) (c : Int × Int)
    (hb : s ≠ 0xFF → s ≤ 0x1F) (hc : c ∈ visitedCoords w range) :
    surfaceWritten w w.tiles s c
      = surfaceStyleChanged w.tiles (Execute w range s e).2.1.tiles c := by
  unfold surfaceWritten surfaceStyleChanged
  rw [Execute_at_visited w range s e c hc]
  cases hel : map_get_surface_element_at w.tiles c.1 c.2 with
  | none => rfl
  | some el =>
    have h := elementAfter_surfaceStyle_ne w s e el hb
    simp only [Option.map_some', SurfaceElement.GetSurfaceStyle]
    by_cases hne : (elementAfter w s e el).surfaceStyle = el.surfaceStyle
    · have h2 := (not_congr h).mp (not_not.mpr hne)
      rw [hne]
      simp only [bne_self_eq_false]
      by_cases h3 : s = 0xFF
      · simp [h3]
      · by_cases h4 : s = el.surfaceStyle
        · simp [h4]
        · have h5 : (w.GetLoadedObject ObjectType.OBJECT_TYPE_TERRAIN_SURFACE s).isSome
              = false := by
            cases h6 : (w.GetLoadedObject ObjectType.OBJECT_TYPE_TERRAIN_SURFACE s).isSome
            · rfl
            · exact absurd ⟨h3, h4, h6⟩ h2
          simp [h5]
    · obtain ⟨h3, h4, h5⟩ := h.mp hne
      have h6 : (some el.surfaceStyle != some (elementAfter w s e el).surfaceStyle) = true := by
        simp only [bne_iff_ne, ne_eq, Option.some.injEq]
        exact fun h7 => hne h7.symm
      rw [h6]
      simp [h3, h4, h5]

/-- At a visited coordinate, `Execute` wrote the edge style exactly when the
edge style of the tile differs between the map before and the map after, for a
requested style that is the sentinel or within the bound. -/
theorem edgeWritten_eq_changed (w : World) (range : MapRange) (s e : Nat) (c : Int × Int)
    (hb : e ≠ 0xFF → e ≤ 0xF) (hc : c ∈ visitedCoords w range) :
    edgeWritten w.tiles e c = edgeStyleChanged w.tiles (Execute w range s e).2.1.tiles c := by
  unfold edgeWritten edgeStyleChanged
  rw [Execute_at_visited w range s e c hc]
  cases hel : map_get_surface_element_at w.tiles c.1 c.2 with
  | none => rfl
  | some el =>
    have h := elementAfter_edgeStyle_ne w s e el hb
    simp only [Option.map_some', SurfaceElement.GetEdgeStyle]
    by_cases hne : (elementAfter w s e el).edgeStyle = el.edgeStyle
    · have h2 := (not_congr h).mp (not_not.mpr hne)
      rw [hne]
      simp only [bne_self_eq_false]
      by_cases h3 : e = 0xFF
      · simp [h3]
      · by_cases h4 : e = el.edgeStyle
        · simp [h4]
        · exact absurd ⟨h3, h4⟩ h2
    · obtain ⟨h3, h4⟩ := h.mp hne
      have h6 : (some el.edgeStyle != some (elementAfter w s e el).edgeStyle) = true := by
        simp only [bne_iff_ne, ne_eq, Option.some.injEq]
        exact fun h7 => hne h7.symm
      rw [h6]
      simp [h3, h4]

/-- The cost `Execute` returns, counted on the tiles it changed: the registered
price times the number of visited tiles whose surface style differs between
the map before and the map after, plus 100 times the number whose edge style
differs, in signed 32-bit arithmetic; for requested styles that are the
sentinel or within their bounds. -/
theorem Execute_cost_changed (w : World) (range : MapRange) (s e : Nat)
    (hs : s ≠ 0xFF → s ≤ 0x1F) (he : e ≠ 0xFF → e ≤ 0xF) :
    (Execute w range s e).1.Cost
      = wrapInt32
          (registeredPrice w s
              * (((visitedCoords w range).filter
                  (surfaceStyleChanged w.tiles (Execute w range s e).2.1.tiles)).length : Int)
            + 100 * (((visitedCoords w range).filter
                  (edgeStyleChanged w.tiles (Execute w range s e).2.1.tiles)).length : Int)) := by
  rw [Execute_cost_formula]
  have h1 : (visitedCoords w range).filter (surfaceWritten w w.tiles s)
      = (visitedCoords w range).filter
          (surfaceStyleChanged w.tiles (Execute w range s e).2.1.tiles) :=
    List.filter_congr (fun c hc => surfaceWritten_eq_changed w range s e c hs hc)
  have h2 : (visitedCoords w range).filter (edgeWritten w.tiles e)
      = (visitedCoords w range).filter
          (edgeStyleChanged w.tiles (Execute w range s e).2.1.tiles) :=
    List.filter_congr (fun c hc => edgeWritten_eq_changed w range s e c he hc)
  rw [h1, h2]

/-- On an element that the body of `Execute` leaves as it is, the body writes
nothing and performs no effect, for requested styles that are the sentinel or
within their bounds. -/
theorem fixed_element_no_effect (w : World) (tiles : TileMap) (s e : Nat) (c : Int × Int)
    (hsb : s ≠ 0xFF → s ≤ 0x1F) (heb : e ≠ 0xFF → e ≤ 0xF)
    (h : ∀ el, map_get_surface_element_at tiles c.1 c.2 = some el →
      elementAfter w s e el = el) :
    surfaceWritten w tiles s c = false ∧ edgeWritten tiles e c = false
      ∧ eventsAt w tiles s e c = [] := by
  unfold surfaceWritten edgeWritten eventsAt
  cases hel : map_get_surface_element_at tiles c.1 c.2 with
  | none => exact ⟨rfl, rfl, rfl⟩
  | some el =>
    have hfix := h el hel
    have hs := (not_congr (elementAfter_surfaceStyle_ne w s e el hsb)).mp
      (not_not.mpr (by rw [hfix]))
    have he := (not_congr (elementAfter_edgeStyle_ne w s e el heb)).mp
      (not_not.mpr (by rw [hfix]))
    have hg := elementAfter_grassLength w s e el
    rw [hfix] at hg
    have hgrass : ¬ (w.CanGrassGrow (elementAfter w s e el).surfaceStyle = true
        ∧ el.grassLength % 8 ≠ GRASS_LENGTH_CLEAR_0) := by
      rw [hfix]
      intro hc
      rw [if_pos hc] at hg
      apply hc.2
      rw [hg]
      decide
    refine ⟨?_, ?_, ?_⟩
    · simp only []
      by_cases h1 : s = 0xFF
      · simp [h1]
      · by_cases h2 : s = el.surfaceStyle
        · simp [h2]
        · cases h3 : (w.GetLoadedObject ObjectType.OBJECT_TYPE_TERRAIN_SURFACE s).isSome
          · simp
          · exact absurd ⟨h1, h2, h3⟩ hs
    · simp only []
      by_cases h1 : e = 0xFF
      · simp [h1]
      · by_cases h2 : e = el.edgeStyle
        · simp [h2]
        · exact absurd ⟨h1, h2⟩ he
    · simp only []
      unfold tileEvents
      rw [if_neg hs, if_neg he, if_neg hgrass]
      rfl

/-- For requested styles that are the sentinel or within their bounds, a second
run of `Execute`, on the world the first run left, returns cost 0 and the
position the first run returned, leaves every tile (surface style, edge style
and grass length) as the first run left it, and performs no effect. -/
theorem Execute_second_run (w : World) (range : MapRange) (s e : Nat)
    (hs : s ≠ 0xFF → s ≤ 0x1F) (he : e ≠ 0xFF → e ≤ 0xF) :
    (Execute (Execute w range s e).2.1 range s e).1.Cost = 0
    ∧ (Execute (Execute w range s e).2.1 range s e).1.Position
        = (Execute w range s e).1.Position
    ∧ (∀ tx ty, (Execute (Execute w range s e).2.1 range s e).2.1.tiles tx ty
        = (Execute w range s e).2.1.tiles tx ty)
    ∧ (Execute (Execute w range s e).2.1 range s e).2.2 = [] := by
  have hvis : visitedCoords (Execute w range s e).2.1 range = visitedCoords w range := rfl
  have hafter : ∀ el, elementAfter (Execute w range s e).2.1 s e el = elementAfter w s e el :=
    fun _ => rfl
  have hfixed : ∀ c ∈ visitedCoords w range, ∀ el,
      map_get_surface_element_at (Execute w range s e).2.1.tiles c.1 c.2 = some el →
      elementAfter (Execute w range s e).2.1 s e el = el := by
    intro c hc el hel
    rw [Execute_at_visited w range s e c hc] at hel
    cases hel0 : map_get_surface_element_at w.tiles c.1 c.2 with
    | none => rw [hel0] at hel; cases hel
    | some el0 =>
      rw [hel0] at hel
      simp only [Option.map_some', Option.some.injEq] at hel
      rw [hafter, ← hel, elementAfter_idem w s e el0 hs he]
  refine ⟨?_, rfl, ?_, ?_⟩
  · rw [Execute_cost_formula, hvis]
    have h1 : (visitedCoords w range).filter
        (surfaceWritten (Execute w range s e).2.1 (Execute w range s e).2.1.tiles s) = [] := by
      rw [List.filter_eq_nil_iff]
      intro c hc
      rw [(fixed_element_no_effect _ _ s e c hs he (hfixed c hc)).1]
      exact Bool.false_ne_true
    have h2 : (visitedCoords w range).filter
        (edgeWritten (Execute w range s e).2.1.tiles e) = [] := by
      rw [List.filter_eq_nil_iff]
      intro c hc
      rw [(fixed_element_no_effect (Execute w range s e).2.1 _ s e c hs he (hfixed c hc)).2.1]
      exact Bool.false_ne_true
    rw [h1, h2]
    simp [wrapInt32]
  · intro tx ty
    rw [Execute_tiles (Execute w range s e).2.1 range s e tx ty, hvis]
    split_ifs with hv
    · obtain ⟨c, hc, hx, hy⟩ := hv
      cases hel : (Execute w range s e).2.1.tiles tx ty with
      | none => rfl
      | some el =>
        have hget : map_get_surface_element_at (Execute w range s e).2.1.tiles c.1 c.2
            = some el := by
          unfold map_get_surface_element_at
          rw [← hx, ← hy]; exact hel
        simp only [Option.map_some', Option.some.injEq]
        exact hfixed c hc el hget
    · rfl
  · rw [Execute_log, hvis, List.flatMap_eq_nil_iff]
    intro c hc
    exact (fixed_element_no_effect (Execute w range s e).2.1 _ s e c hs he (hfixed c hc)).2.2

end SurfaceSetStyleAction

/-! ## The placement section of `TrackDesignAction` -/

namespace TrackDesignAction

/-- The query passes call nothing but `place_virtual_track`. -/
theorem queryPasses_calls {G : Type} (c : Collaborators G) (td : TrackDesign) (ride : Ride)
    (loc : CoordsXYZ) (g : G) :
    ∀ call ∈ (queryPasses c td ride loc g).calls,
      call.isDemolish = false ∧ call.isCascade = false := by
  intro call hcall
  unfold queryPasses at hcall
  simp only [] at hcall
  split_ifs at hcall
  · simp only [List.mem_cons, List.mem_singleton, List.not_mem_nil, or_false] at hcall
    rcases hcall with h | h <;> subst h <;> exact ⟨rfl, rfl⟩
  · simp only [List.mem_singleton] at hcall
    subst hcall
    exact ⟨rfl, rfl⟩

/-- The commit pass calls nothing but `place_virtual_track`. -/
theorem commitPass_calls {G : Type} (c : Collaborators G) (flags : CommandFlags)
    (td : TrackDesign) (ride : Ride) (loc : CoordsXYZ) (q : Placement G)
    (hq : ∀ call ∈ q.calls, call.isDemolish = false ∧ call.isCascade = false) :
    ∀ call ∈ (commitPass c flags td ride loc q).calls,
      call.isDemolish = false ∧ call.isCascade = false := by
  intro call hcall
  unfold commitPass at hcall
  split_ifs at hcall
  · simp only [List.mem_append, List.mem_singleton] at hcall
    rcases hcall with h | h
    · exact hq call h
    · subst h; exact ⟨rfl, rfl⟩
  · exact hq call hcall

/-- The paused return path of `Query` and of `Execute` (lines 34-40, 127-133):
nothing is called and the game state is returned as it was. -/
theorem paused_path {G : Type} (c : Collaborators G) (flags : CommandFlags) (loc : CoordsXYZ)
    (td : TrackDesign) (g : G) (hpause : pauseGate c flags g = true) :
    Query c flags loc td g
        = (MakeResultMessage c.resultPosition0 GA_ERROR.GAME_PAUSED
            rct_string_id.STR_CONSTRUCTION_NOT_POSSIBLE_WHILE_GAME_IS_PAUSED, g, [])
    ∧ Execute c flags loc td g
        = (MakeResultMessage c.resultPosition0 GA_ERROR.GAME_PAUSED
            rct_string_id.STR_CONSTRUCTION_NOT_POSSIBLE_WHILE_GAME_IS_PAUSED, g, []) := by
  unfold Query Execute
  simp only [hpause, if_true, and_self]

/-- The return path of `Query` and of `Execute` on which ride creation fails
(lines 87-90, 180-183). -/
theorem no_free_elements_path {G : Type} (c : Collaborators G) (flags : CommandFlags)
    (loc : CoordsXYZ) (td : TrackDesign) (g : G) (hpause : pauseGate c flags g = false)
    (hcreate : (createRide c flags td g).1.1 = MONEY32_UNDEFINED) :
    Query c flags loc td g
        = (MakeResultTitleMessage c.resultPosition0 GA_ERROR.NO_FREE_ELEMENTS
            rct_string_id.STR_CANT_CREATE_NEW_RIDE_ATTRACTION rct_string_id.STR_NONE,
          (createRide c flags td g).2,
          [Call.ride_create_command td.type (resolveEntryIndex c td g) flags])
    ∧ Execute c flags loc td g
        = (MakeResultTitleMessage c.resultPosition0 GA_ERROR.NO_FREE_ELEMENTS
            rct_string_id.STR_CANT_CREATE_NEW_RIDE_ATTRACTION rct_string_id.STR_NONE,
          (createRide c flags td g).2,
          [Call.ride_create_command td.type (resolveEntryIndex c td g) flags]) := by
  unfold createRide at hcreate ⊢
  unfold Query Execute
  simp only [hpause, Bool.false_eq_true, if_false, hcreate, if_true, and_self]

/-- The return path of `Query` and of `Execute` on which the created ride is
not retrievable (lines 92-97, 185-190). -/
theorem unknown_path {G : Type} (c : Collaborators G) (flags : CommandFlags)
    (loc : CoordsXYZ) (td : TrackDesign) (g : G) (hpause : pauseGate c flags g = false)
    (hcreate : (createRide c flags td g).1.1 ≠ MONEY32_UNDEFINED)
    (hride : c.get_ride (createRide c flags td g).2 (createRide c flags td g).1.2.1 = none) :
    Query c flags loc td g
        = (MakeResultError c.resultPosition0 GA_ERROR.UNKNOWN, (createRide c flags td g).2,
          [Call.ride_create_command td.type (resolveEntryIndex c td g) flags])
    ∧ Execute c flags loc td g
        = (MakeResultError c.resultPosition0 GA_ERROR.UNKNOWN, (createRide c flags td g).2,
          [Call.ride_create_command td.type (resolveEntryIndex c td g) flags]) := by
  unfold createRide at hcreate hride ⊢
  unfold Query Execute
  simp only [hpause, Bool.false_eq_true, if_false, if_neg hcreate, hride, and_self]

/-- The return paths of `Query` after the ride was created and retrieved
(lines 99-116): the query passes, the demolition, and the result. -/
theorem Query_placement_path {G : Type} (c : Collaborators G) (flags : CommandFlags)
    (loc : CoordsXYZ) (td : TrackDesign) (g : G) (ride : Ride)
    (hpause : pauseGate c flags g = false)
    (hcreate : (createRide c flags td g).1.1 ≠ MONEY32_UNDEFINED)
    (hride : c.get_ride (createRide c flags td g).2 (createRide c flags td g).1.2.1
      = some ride) :
    Query c flags loc td g
      = (if (queryPlacement c flags loc td ride g).cost = MONEY32_UNDEFINED then
          MakeResultMessage c.resultPosition0 GA_ERROR.DISALLOWED
            (c.gGameCommandErrorText (queryPlacement c flags loc td ride g).game)
        else { initialResult c loc with Cost := (queryPlacement c flags loc td ride g).cost },
        c.applyCall (queryPlacement c flags loc td ride g).game
          (Call.ride_action_modify_demolish ride flags),
        Call.ride_create_command td.type (resolveEntryIndex c td g) flags
          :: (queryPlacement c flags loc td ride g).calls
          ++ [Call.ride_action_modify_demolish ride flags]) := by
  unfold queryPlacement createRide at *
  unfold Query
  simp only [hpause, Bool.false_eq_true, if_false, if_neg hcreate, hride]
  split_ifs <;> rfl

/-- The successful return path of `Execute` (lines 224-274): the configuration
cascade is applied to the game state that placement left. -/
theorem Execute_success_path {G : Type} (c : Collaborators G) (flags : CommandFlags)
    (loc : CoordsXYZ) (td : TrackDesign) (g : G) (ride : Ride)
    (hpause : pauseGate c flags g = false)
    (hcreate : (createRide c flags td g).1.1 ≠ MONEY32_UNDEFINED)
    (hride : c.get_ride (createRide c flags td g).2 (createRide c flags td g).1.2.1
      = some ride)
    (hcost : (executePlacement c flags loc td ride g).cost ≠ MONEY32_UNDEFINED) :
    Execute c flags loc td g
      = ({ initialResult c loc with
            Cost := (executePlacement c flags loc td ride g).cost
            rideIndex := some ride.id },
        (cascadeCalls td ride (resolveEntryIndex c td g)
            (c.ride_get_unused_preset_vehicle_colour
              (executePlacement c flags loc td ride g).game (resolveEntryIndex c td g))).foldl
          c.applyCall (executePlacement c flags loc td ride g).game,
        Call.ride_create_command td.type (resolveEntryIndex c td g) flags
          :: (executePlacement c flags loc td ride g).calls
          ++ cascadeCalls td ride (resolveEntryIndex c td g)
              (c.ride_get_unused_preset_vehicle_colour
                (executePlacement c flags loc td ride g).game (resolveEntryIndex c td g))) := by
  unfold executePlacement queryPlacement createRide at *
  unfold Execute
  simp only [hpause, Bool.false_eq_true, if_false, if_neg hcreate, hride, if_neg hcost]

/-- The failing return path of `Execute` after the ride was created and
retrieved (lines 217-222): the error text is read, the ride is demolished and
`DISALLOWED` is returned. -/
theorem Execute_failure_path {G : Type} (c : Collaborators G) (flags : CommandFlags)
    (loc : CoordsXYZ) (td : TrackDesign) (g : G) (ride : Ride)
    (hpause : pauseGate c flags g = false)
    (hcreate : (createRide c flags td g).1.1 ≠ MONEY32_UNDEFINED)
    (hride : c.get_ride (createRide c flags td g).2 (createRide c flags td g).1.2.1
      = some ride)
    (hcost : (executePlacement c flags loc td ride g).cost = MONEY32_UNDEFINED) :
    Execute c flags loc td g
      = (MakeResultMessage c.resultPosition0 GA_ERROR.DISALLOWED
          (c.gGameCommandErrorText (executePlacement c flags loc td ride g).game),
        c.applyCall (executePlacement c flags loc td ride g).game
          (Call.ride_action_modify_demolish ride flags),
        Call.ride_create_command td.type (resolveEntryIndex c td g) flags
          :: (executePlacement c flags loc td ride g).calls
          ++ [Call.ride_action_modify_demolish ride flags]) := by
  unfold executePlacement queryPlacement createRide at hcost ⊢
  unfold createRide at hcreate hride
  unfold Execute
  simp only [hpause, Bool.false_eq_true, if_false, if_neg hcreate, hride, hcost, if_true]

/-- A failure of the last query pass is a failure of the placement section:
the commit pass is then not run. -/
theorem commitPass_of_query_failed {G : Type} (c : Collaborators G) (flags : CommandFlags)
    (td : TrackDesign) (ride : Ride) (loc : CoordsXYZ) (q : Placement G)
    (h : q.cost = MONEY32_UNDEFINED) : commitPass c flags td ride loc q = q := by
  unfold commitPass
  rw [if_neg (not_not.mpr h)]

end TrackDesignAction

/-! ## The results of `TrackDesignAction` -/

namespace TrackDesignAction

/-- The pause gate in the words of the specification. -/
theorem pauseGate_iff {G : Type} (c : Collaborators G) (flags : CommandFlags) (g : G) :
    pauseGate c flags g = true ↔
      flags.GAME_COMMAND_FLAG_ALLOW_DURING_PAUSED = false ∧ c.game_is_paused g = true
        ∧ c.gCheatsBuildInPauseMode g = false := by
  unfold pauseGate
  cases flags.GAME_COMMAND_FLAG_ALLOW_DURING_PAUSED <;> cases c.game_is_paused g <;>
    cases c.gCheatsBuildInPauseMode g <;> simp

/-- After the ride was created and retrieved, `Query` ends in `DISALLOWED` when
the last query pass failed and without error otherwise. -/
theorem Query_retrieved_error {G : Type} (c : Collaborators G) (flags : CommandFlags)
    (loc : CoordsXYZ) (td : TrackDesign) (g : G) (ride : Ride)
    (hpause : pauseGate c flags g = false)
    (hcreate : (createRide c flags td g).1.1 ≠ MONEY32_UNDEFINED)
    (hride : c.get_ride (createRide c flags td g).2 (createRide c flags td g).1.2.1
      = some ride) :
    (Query c flags loc td g).1.Error
      = if (queryPlacement c flags loc td ride g).cost = MONEY32_UNDEFINED then
          GA_ERROR.DISALLOWED
        else GA_ERROR.OK := by
  rw [Query_placement_path c flags loc td g ride hpause hcreate hride]
  split_ifs <;> rfl

/-- After the ride was created and retrieved, `Execute` ends in `DISALLOWED`
when placement failed and without error otherwise. -/
theorem Execute_retrieved_error {G : Type} (c : Collaborators G) (flags : CommandFlags)
    (loc : CoordsXYZ) (td : TrackDesign) (g : G) (ride : Ride)
    (hpause : pauseGate c flags g = false)
    (hcreate : (createRide c flags td g).1.1 ≠ MONEY32_UNDEFINED)
    (hride : c.get_ride (createRide c flags td g).2 (createRide c flags td g).1.2.1
      = some ride) :
    (Execute c flags loc td g).1.Error
      = if (executePlacement c flags loc td ride g).cost = MONEY32_UNDEFINED then
          GA_ERROR.DISALLOWED
        else GA_ERROR.OK := by
  by_cases hcost : (executePlacement c flags loc td ride g).cost = MONEY32_UNDEFINED
  · rw [Execute_failure_path c flags loc td g ride hpause hcreate hride hcost, if_pos hcost]
    rfl
  · rw [Execute_success_path c flags loc td g ride hpause hcreate hride hcost, if_neg hcost]
    rfl

/-- A run that takes the paused path, the path on which ride creation fails or
the path on which the ride is not retrievable as the source does, and ends in
`DISALLOWED` or without error otherwise, meets `EarlyFailures`. -/
theorem earlyFailures_of_paths {G : Type} (c : Collaborators G) (flags : CommandFlags)
    (td : TrackDesign) (g : G) (out : GameActionResult × G × List Call)
    (hp : pauseGate c flags g = true →
      out = (MakeResultMessage c.resultPosition0 GA_ERROR.GAME_PAUSED
        rct_string_id.STR_CONSTRUCTION_NOT_POSSIBLE_WHILE_GAME_IS_PAUSED, g, []))
    (hn : pauseGate c flags g = false →
      (createRide c flags td g).1.1 = MONEY32_UNDEFINED →
      out = (MakeResultTitleMessage c.resultPosition0 GA_ERROR.NO_FREE_ELEMENTS
          rct_string_id.STR_CANT_CREATE_NEW_RIDE_ATTRACTION rct_string_id.STR_NONE,
        (createRide c flags td g).2,
        [Call.ride_create_command td.type (resolveEntryIndex c td g) flags]))
    (hu : pauseGate c flags g = false →
      (createRide c flags td g).1.1 ≠ MONEY32_UNDEFINED →
      c.get_ride (createRide c flags td g).2 (createRide c flags td g).1.2.1 = none →
      out = (MakeResultError c.resultPosition0 GA_ERROR.UNKNOWN, (createRide c flags td g).2,
        [Call.ride_create_command td.type (resolveEntryIndex c td g) flags]))
    (hr : pauseGate c flags g = false →
      (createRide c flags td g).1.1 ≠ MONEY32_UNDEFINED →
      ∀ ride, c.get_ride (createRide c flags td g).2 (createRide c flags td g).1.2.1
          = some ride →
        out.1.Error = GA_ERROR.DISALLOWED ∨ out.1.Error = GA_ERROR.OK) :
    EarlyFailures c flags td g out := by
  unfold EarlyFailures
  rw [← pauseGate_iff]
  by_cases hpause : pauseGate c flags g = true
  · rw [hp hpause]
    simp [MakeResultMessage, MakeResult, hpause]
  · have hpause' : pauseGate c flags g = false := by simpa using hpause
    by_cases hcreate : (createRide c flags td g).1.1 = MONEY32_UNDEFINED
    · rw [hn hpause' hcreate]
      simp [MakeResultTitleMessage, MakeResult, hpause', hcreate, Call.isPlacement,
        Call.isCascade]
    · cases hride : c.get_ride (createRide c flags td g).2 (createRide c flags td g).1.2.1 with
      | none =>
        rw [hu hpause' hcreate hride]
        simp [MakeResultError, MakeResult, hpause', hcreate, Call.isPlacement,
          Call.isCascade]
      | some ride =>
        rcases hr hpause' hcreate ride hride with h | h <;>
          simp [h, hpause', hcreate]

end TrackDesignAction

/-! ## Entry resolution and the calls of `TrackDesignAction` -/

namespace TrackDesignAction

/-- The loop over the available ride entries returns the first usable entry of
the ride group, or the index it started with. -/
theorem searchRideEntries_eq_find {G : Type} (c : Collaborators G) (g : G)
    (type td6RideGroup : Nat) :
    ∀ (l : List Nat) (entryIndex : Nat),
      searchRideEntries c g type td6RideGroup l entryIndex
        = (l.find? (fun rei => entryUsable c g rei
            && c.RideGroupEquals td6RideGroup (c.GetRideGroup g type rei))).getD entryIndex := by
  intro l
  induction l with
  | nil => intro entryIndex; rfl
  | cons rei rest ih =>
    intro entryIndex
    unfold searchRideEntries
    rw [List.find?_cons, ih]
    unfold entryUsable
    cases c.ride_entry_is_invented g rei <;> cases c.gCheatsIgnoreResearchStatus g <;>
      cases c.RideGroupEquals td6RideGroup (c.GetRideGroup g type rei) <;> simp

/-- The entry index computed by the source is the one the specification
describes, when a resolved entry index is never the null index 0xFF. -/
theorem resolveEntryIndex_eq_claimed {G : Type} (c : Collaborators G) (td : TrackDesign)
    (g : G)
    (hidx : ∀ found, c.find_object_in_entry_group g td.vehicle_object = some found →
      found.2 ≠ 0xFF) :
    resolveEntryIndex c td g = claimedEntryIndex c td g := by
  unfold resolveEntryIndex claimedEntryIndex claimedFallbackEntryIndex
  cases hfind : c.find_object_in_entry_group g td.vehicle_object with
  | none =>
    simp only [searchRideEntries_eq_find]
    cases c.RideTypeHasRideGroups td.type <;>
      cases c.object_repository_find_object_by_name g td.vehicle_object.name <;> simp
  | some found =>
    have hne := hidx found hfind
    simp only [searchRideEntries_eq_find]
    unfold entryUsable
    cases c.ride_entry_is_invented g found.2 <;> cases c.gCheatsIgnoreResearchStatus g <;>
      cases c.RideTypeHasRideGroups td.type <;>
      cases c.object_repository_find_object_by_name g td.vehicle_object.name <;>
      simp [hne]

/-- The fallback entry index is 0xFF or a usable entry. -/
theorem claimedFallbackEntryIndex_usable {G : Type} (c : Collaborators G) (td : TrackDesign)
    (g : G) :
    claimedFallbackEntryIndex c td g = 0xFF
      ∨ entryUsable c g (claimedFallbackEntryIndex c td g) = true := by
  unfold claimedFallbackEntryIndex
  split_ifs
  · cases c.object_repository_find_object_by_name g td.vehicle_object.name with
    | none => left; rfl
    | some rideGroupIndex =>
      simp only []
      cases hfind : (c.get_ride_entry_indices_for_ride_type g td.type).find?
          (fun rei => entryUsable c g rei
            && c.RideGroupEquals (c.RideGroupFind td.type rideGroupIndex)
                (c.GetRideGroup g td.type rei)) with
      | none => left; rfl
      | some rei =>
        right
        have h := List.find?_some hfind
        simp only [Bool.and_eq_true] at h
        exact h.1
  · left; rfl

/-- The calls of the configuration cascade are cascade calls. -/
theorem cascadeCalls_isCascade (td : TrackDesign) (ride : Ride) (entryIndex colour : Nat) :
    ∀ call ∈ cascadeCalls td ride entryIndex colour,
      call.isCascade = true ∧ call.isRideCreation = false ∧ call.isPlacement = false
        ∧ call.isDemolish = false := by
  intro call hcall
  unfold cascadeCalls at hcall
  simp only [List.mem_append, List.mem_cons, List.mem_map, List.mem_singleton,
    List.not_mem_nil, or_false] at hcall
  rcases hcall with ((((h | h) | h) | h) | h)
  · split_ifs at h
    · simp only [List.mem_singleton] at h
      subst h; exact ⟨rfl, rfl, rfl, rfl⟩
    · simp at h
  · rcases h with h | h | h | h | h | h | h | h | h | h | h | h | h <;> subst h <;>
      exact ⟨rfl, rfl, rfl, rfl⟩
  · obtain ⟨i, _, rfl⟩ := h; exact ⟨rfl, rfl, rfl, rfl⟩
  · obtain ⟨i, _, rfl⟩ := h; exact ⟨rfl, rfl, rfl, rfl⟩
  · subst h; exact ⟨rfl, rfl, rfl, rfl⟩

/-- The calls of the query passes are placement calls in query mode, on the ride. -/
theorem queryPasses_calls_mode {G : Type} (c : Collaborators G) (td : TrackDesign)
    (ride : Ride) (loc : CoordsXYZ) (g : G) :
    ∀ call ∈ (queryPasses c td ride loc g).calls,
      ∃ placeScenery, call = Call.place_virtual_track
        PtdOperation.PTD_OPERATION_PLACE_QUERY placeScenery ride loc := by
  intro call hcall
  unfold queryPasses at hcall
  simp only [] at hcall
  split_ifs at hcall
  · simp only [List.mem_cons, List.mem_singleton, List.not_mem_nil, or_false] at hcall
    rcases hcall with h | h
    · exact ⟨true, h⟩
    · exact ⟨false, h⟩
  · simp only [List.mem_singleton] at hcall
    exact ⟨true, hcall⟩

/-- The calls of the placement section of `Execute` are placement calls. -/
theorem executePlacement_calls {G : Type} (c : Collaborators G) (flags : CommandFlags)
    (loc : CoordsXYZ) (td : TrackDesign) (ride : Ride) (g : G) :
    ∀ call ∈ (executePlacement c flags loc td ride g).calls,
      call.isPlacement = true ∧ call.isRideCreation = false ∧ call.isDemolish = false
        ∧ call.isCascade = false := by
  intro call hcall
  unfold executePlacement commitPass at hcall
  split_ifs at hcall
  · simp only [List.mem_append, List.mem_singleton] at hcall
    rcases hcall with h | h
    · obtain ⟨ps, rfl⟩ := queryPasses_calls_mode c td ride loc _ call h
      exact ⟨rfl, rfl, rfl, rfl⟩
    · subst h; exact ⟨rfl, rfl, rfl, rfl⟩
  · obtain ⟨ps, rfl⟩ := queryPasses_calls_mode c td ride loc _ call hcall
    exact ⟨rfl, rfl, rfl, rfl⟩

/-- When the game is not paused, `Query` and `Execute` call ride creation
first, with the entry index computed by `resolveEntryIndex`, and never again. -/
theorem ride_creation_call {G : Type} (c : Collaborators G) (flags : CommandFlags)
    (loc : CoordsXYZ) (td : TrackDesign) (g : G) (hpause : pauseGate c flags g = false) :
    (∃ rest, (Query c flags loc td g).2.2
        = Call.ride_create_command td.type (resolveEntryIndex c td g) flags :: rest
      ∧ ∀ call ∈ rest, call.isRideCreation = false)
    ∧ (∃ rest, (Execute c flags loc td g).2.2
        = Call.ride_create_command td.type (resolveEntryIndex c td g) flags :: rest
      ∧ ∀ call ∈ rest, call.isRideCreation = false) := by
  by_cases hcreate : (createRide c flags td g).1.1 = MONEY32_UNDEFINED
  · obtain ⟨hq, he⟩ := no_free_elements_path c flags loc td g hpause hcreate
    rw [hq, he]
    exact ⟨⟨[], rfl, by simp⟩, ⟨[], rfl, by simp⟩⟩
  · cases hride : c.get_ride (createRide c flags td g).2 (createRide c flags td g).1.2.1 with
    | none =>
      obtain ⟨hq, he⟩ := unknown_path c flags loc td g hpause hcreate hride
      rw [hq, he]
      exact ⟨⟨[], rfl, by simp⟩, ⟨[], rfl, by simp⟩⟩
    | some ride =>
      constructor
      · rw [Query_placement_path c flags loc td g ride hpause hcreate hride]
        refine ⟨(queryPlacement c flags loc td ride g).calls
          ++ [Call.ride_action_modify_demolish ride flags], rfl, ?_⟩
        intro call hcall
        simp only [List.mem_append, List.mem_singleton] at hcall
        rcases hcall with h | h
        · obtain ⟨ps, rfl⟩ := queryPasses_calls_mode c td ride loc _ call h
          rfl
        · subst h; rfl
      · by_cases hcost : (executePlacement c flags loc td ride g).cost = MONEY32_UNDEFINED
        · rw [Execute_failure_path c flags loc td g ride hpause hcreate hride hcost]
          refine ⟨(executePlacement c flags loc td ride g).calls
            ++ [Call.ride_action_modify_demolish ride flags], rfl, ?_⟩
          intro call hcall
          simp only [List.mem_append, List.mem_singleton] at hcall
          rcases hcall with h | h
          · exact (executePlacement_calls c flags loc td ride g call h).2.1
          · subst h; rfl
        · rw [Execute_success_path c flags loc td g ride hpause hcreate hride hcost]
          refine ⟨(executePlacement c flags loc td ride g).calls
            ++ cascadeCalls td ride (resolveEntryIndex c td g)
              (c.ride_get_unused_preset_vehicle_colour
                (executePlacement c flags loc td ride g).game (resolveEntryIndex c td g)),
            rfl, ?_⟩
          intro call hcall
          simp only [List.mem_append] at hcall
          rcases hcall with h | h
          · exact (executePlacement_calls c flags loc td ride g call h).2.1
          · exact (cascadeCalls_isCascade td ride _ _ call h).2.1

end TrackDesignAction

/-! ## The configuration cascade and the reported position -/

namespace TrackDesignAction

/-- The circuit count calls of the configuration cascade. -/
theorem mem_cascadeCalls_numCircuits (td : TrackDesign) (ride : Ride)
    (entryIndex colour rideIndex value : Nat) :
    Call.set_operating_setting_nested rideIndex RideSetSetting.NumCircuits value
        ∈ cascadeCalls td ride entryIndex colour
      ↔ rideIndex = ride.id ∧ value = if td.num_circuits = 0 then 1 else td.num_circuits := by
  unfold cascadeCalls
  by_cases h : entryIndex = 0xFF <;> simp [h]

/-- The lift-hill speed calls of the configuration cascade. -/
theorem mem_cascadeCalls_liftHillSpeed (td : TrackDesign) (ride : Ride)
    (entryIndex colour rideIndex value : Nat) :
    Call.set_operating_setting_nested rideIndex RideSetSetting.LiftHillSpeed value
        ∈ cascadeCalls td ride entryIndex colour
      ↔ rideIndex = ride.id ∧ value = td.lift_hill_speed % 32 := by
  unfold cascadeCalls
  by_cases h : entryIndex = 0xFF <;> simp [h]

/-- On the successful path of `Execute`, a call that sets an operating setting
is a call of the configuration cascade. -/
theorem mem_Execute_calls_setting {G : Type} (c : Collaborators G) (flags : CommandFlags)
    (loc : CoordsXYZ) (td : TrackDesign) (g : G) (ride : Ride)
    (hpause : pauseGate c flags g = false)
    (hcreate : (createRide c flags td g).1.1 ≠ MONEY32_UNDEFINED)
    (hride : c.get_ride (createRide c flags td g).2 (createRide c flags td g).1.2.1
      = some ride)
    (hcost : (executePlacement c flags loc td ride g).cost ≠ MONEY32_UNDEFINED)
    (rideIndex : Nat) (setting : RideSetSetting) (value : Nat) :
    Call.set_operating_setting_nested rideIndex setting value ∈ (Execute c flags loc td g).2.2
      ↔ Call.set_operating_setting_nested rideIndex setting value
          ∈ cascadeCalls td ride (resolveEntryIndex c td g)
              (c.ride_get_unused_preset_vehicle_colour
                (executePlacement c flags loc td ride g).game (resolveEntryIndex c td g)) := by
  have hcalls : (Execute c flags loc td g).2.2
      = Call.ride_create_command td.type (resolveEntryIndex c td g) flags
          :: ((executePlacement c flags loc td ride g).calls
            ++ cascadeCalls td ride (resolveEntryIndex c td g)
                (c.ride_get_unused_preset_vehicle_colour
                  (executePlacement c flags loc td ride g).game (resolveEntryIndex c td g))) := by
    rw [Execute_success_path c flags loc td g ride hpause hcreate hride hcost]
    rfl
  rw [hcalls, List.mem_cons, List.mem_append]
  constructor
  · rintro (h | h | h)
    · cases h
    · have := (executePlacement_calls c flags loc td ride g _ h).1
      simp [Call.isPlacement] at this
    · exact h
  · intro h
    exact Or.inr (Or.inr h)

/-- The position of the result of `Query`: the initial position of a result on
an error, the placement location offset by 16 otherwise. -/
theorem Query_result_position {G : Type} (c : Collaborators G) (flags : CommandFlags)
    (loc : CoordsXYZ) (td : TrackDesign) (g : G) :
    ((Query c flags loc td g).1.Error ≠ GA_ERROR.OK
        ∧ (Query c flags loc td g).1.Position = c.resultPosition0)
    ∨ ((Query c flags loc td g).1.Error = GA_ERROR.OK
        ∧ (Query c flags loc td g).1.Position = ⟨add32 loc.x 16, add32 loc.y 16, loc.z⟩) := by
  by_cases hpause : pauseGate c flags g = true
  · rw [(paused_path c flags loc td g hpause).1]
    left; exact ⟨by simp [MakeResultMessage, MakeResult], rfl⟩
  · have hpause' : pauseGate c flags g = false := by simpa using hpause
    by_cases hcreate : (createRide c flags td g).1.1 = MONEY32_UNDEFINED
    · rw [(no_free_elements_path c flags loc td g hpause' hcreate).1]
      left; exact ⟨by simp [MakeResultTitleMessage, MakeResult], rfl⟩
    · cases hride : c.get_ride (createRide c flags td g).2 (createRide c flags td g).1.2.1 with
      | none =>
        rw [(unknown_path c flags loc td g hpause' hcreate hride).1]
        left; exact ⟨by simp [MakeResultError, MakeResult], rfl⟩
      | some ride =>
        rw [Query_placement_path c flags loc td g ride hpause' hcreate hride]
        split_ifs
        · left; exact ⟨by simp [MakeResultMessage, MakeResult], rfl⟩
        · right; exact ⟨rfl, rfl⟩

/-- The position of the result of `Execute`: the initial position of a result
on an error, the placement location offset by 16 otherwise. -/
theorem Execute_result_position {G : Type} (c : Collaborators G) (flags : CommandFlags)
    (loc : CoordsXYZ) (td : TrackDesign) (g : G) :
    ((Execute c flags loc td g).1.Error ≠ GA_ERROR.OK
        ∧ (Execute c flags loc td g).1.Position = c.resultPosition0)
    ∨ ((Execute c flags loc td g).1.Error = GA_ERROR.OK
        ∧ (Execute c flags loc td g).1.Position
            = ⟨add32 loc.x 16, add32 loc.y 16, loc.z⟩) := by
  by_cases hpause : pauseGate c flags g = true
  · rw [(paused_path c flags loc td g hpause).2]
    left; exact ⟨by simp [MakeResultMessage, MakeResult], rfl⟩
  · have hpause' : pauseGate c flags g = false := by simpa using hpause
    by_cases hcreate : (createRide c flags td g).1.1 = MONEY32_UNDEFINED
    · rw [(no_free_elements_path c flags loc td g hpause' hcreate).2]
      left; exact ⟨by simp [MakeResultTitleMessage, MakeResult], rfl⟩
    · cases hride : c.get_ride (createRide c flags td g).2 (createRide c flags td g).1.2.1 with
      | none =>
        rw [(unknown_path c flags loc td g hpause' hcreate hride).2]
        left; exact ⟨by simp [MakeResultError, MakeResult], rfl⟩
      | some ride =>
        by_cases hcost : (executePlacement c flags loc td ride g).cost = MONEY32_UNDEFINED
        · rw [Execute_failure_path c flags loc td g ride hpause' hcreate hride hcost]
          left; exact ⟨by simp [MakeResultMessage, MakeResult], rfl⟩
        · rw [Execute_success_path c flags loc td g ride hpause' hcreate hride hcost]
          right; exact ⟨rfl, rfl⟩

end TrackDesignAction

/-! ## The two query passes and the commit pass -/

namespace TrackDesignAction

/-- The query passes, pass by pass. -/
theorem queryPlacement_eq {G : Type} (c : Collaborators G) (flags : CommandFlags)
    (loc : CoordsXYZ) (td : TrackDesign) (ride : Ride) (g : G) :
    (queryPlacement c flags loc td ride g).calls
        = Call.place_virtual_track PtdOperation.PTD_OPERATION_PLACE_QUERY true ride loc
          :: (if sceneryUnavailable c flags loc td ride g = true then
                [Call.place_virtual_track PtdOperation.PTD_OPERATION_PLACE_QUERY false ride loc]
              else [])
    ∧ (queryPlacement c flags loc td ride g).placeScenery
        = !sceneryUnavailable c flags loc td ride g
    ∧ (queryPlacement c flags loc td ride g).cost
        = (if sceneryUnavailable c flags loc td ride g = true then
            (secondQueryPass c flags loc td ride g).1
          else (firstQueryPass c flags loc td ride g).1)
    ∧ (queryPlacement c flags loc td ride g).game
        = (if sceneryUnavailable c flags loc td ride g = true then
            (secondQueryPass c flags loc td ride g).2
          else (firstQueryPass c flags loc td ride g).2) := by
  unfold queryPlacement queryPasses sceneryUnavailable secondQueryPass firstQueryPass
  simp only []
  split_ifs with h <;> simp [h]

/-- The commit pass: skipped when the last query pass failed, one placement
call otherwise. -/
theorem executePlacement_eq {G : Type} (c : Collaborators G) (flags : CommandFlags)
    (loc : CoordsXYZ) (td : TrackDesign) (ride : Ride) (g : G) :
    ((queryPlacement c flags loc td ride g).cost = MONEY32_UNDEFINED →
        executePlacement c flags loc td ride g = queryPlacement c flags loc td ride g)
    ∧ ((queryPlacement c flags loc td ride g).cost ≠ MONEY32_UNDEFINED →
        (executePlacement c flags loc td ride g).calls
            = (queryPlacement c flags loc td ride g).calls
              ++ [Call.place_virtual_track (commitOperation flags)
                    (queryPlacement c flags loc td ride g).placeScenery ride loc]
        ∧ (executePlacement c flags loc td ride g).cost = (commitCall c flags loc td ride g).1
        ∧ (executePlacement c flags loc td ride g).game
            = (commitCall c flags loc td ride g).2) := by
  unfold executePlacement commitPass commitCall
  constructor
  · intro h
    rw [if_neg (not_not.mpr h)]
  · intro h
    rw [if_pos h]
    exact ⟨rfl, rfl, rfl⟩

/-- The placement calls among the calls of `Query` are those of the query passes. -/
theorem Query_placement_calls {G : Type} (c : Collaborators G) (flags : CommandFlags)
    (loc : CoordsXYZ) (td : TrackDesign) (g : G) (ride : Ride)
    (hpause : pauseGate c flags g = false)
    (hcreate : (createRide c flags td g).1.1 ≠ MONEY32_UNDEFINED)
    (hride : c.get_ride (createRide c flags td g).2 (createRide c flags td g).1.2.1
      = some ride) :
    (Query c flags loc td g).2.2.filter Call.isPlacement
        = (queryPlacement c flags loc td ride g).calls
    ∧ (Query c flags loc td g).2.2.filter Call.isDemolish
        = [Call.ride_action_modify_demolish ride flags] := by
  have hcalls : (Query c flags loc td g).2.2
      = Call.ride_create_command td.type (resolveEntryIndex c td g) flags
          :: ((queryPlacement c flags loc td ride g).calls
            ++ [Call.ride_action_modify_demolish ride flags]) := by
    rw [Query_placement_path c flags loc td g ride hpause hcreate hride]
    rfl
  have hq : ∀ call ∈ (queryPlacement c flags loc td ride g).calls,
      call.isPlacement = true ∧ call.isDemolish = false := by
    intro call hcall
    obtain ⟨ps, rfl⟩ := queryPasses_calls_mode c td ride loc _ call hcall
    exact ⟨rfl, rfl⟩
  rw [hcalls]
  constructor
  · rw [List.filter_cons_of_neg (by simp [Call.isPlacement]), List.filter_append,
      List.filter_eq_self.mpr (fun call h => (hq call h).1)]
    simp [Call.isPlacement]
  · rw [List.filter_cons_of_neg (by simp [Call.isDemolish]), List.filter_append,
      List.filter_eq_nil_iff.mpr (fun call h => by rw [(hq call h).2]; exact Bool.false_ne_true)]
    simp [Call.isDemolish]

/-- The placement calls among the calls of `Execute` are those of the query
passes and of the commit pass. -/
theorem Execute_placement_calls {G : Type} (c : Collaborators G) (flags : CommandFlags)
    (loc : CoordsXYZ) (td : TrackDesign) (g : G) (ride : Ride)
    (hpause : pauseGate c flags g = false)
    (hcreate : (createRide c flags td g).1.1 ≠ MONEY32_UNDEFINED)
    (hride : c.get_ride (createRide c flags td g).2 (createRide c flags td g).1.2.1
      = some ride) :
    (Execute c flags loc td g).2.2.filter Call.isPlacement
      = (executePlacement c flags loc td ride g).calls := by
  have hp := executePlacement_calls c flags loc td ride g
  by_cases hcost : (executePlacement c flags loc td ride g).cost = MONEY32_UNDEFINED
  · have hcalls : (Execute c flags loc td g).2.2
        = Call.ride_create_command td.type (resolveEntryIndex c td g) flags
            :: ((executePlacement c flags loc td ride g).calls
              ++ [Call.ride_action_modify_demolish ride flags]) := by
      rw [Execute_failure_path c flags loc td g ride hpause hcreate hride hcost]
      rfl
    rw [hcalls, List.filter_cons_of_neg (by simp [Call.isPlacement]), List.filter_append,
      List.filter_eq_self.mpr (fun call h => (hp call h).1)]
    simp [Call.isPlacement]
  · have hcalls : (Execute c flags loc td g).2.2
        = Call.ride_create_command td.type (resolveEntryIndex c td g) flags
            :: ((executePlacement c flags loc td ride g).calls
              ++ cascadeCalls td ride (resolveEntryIndex c td g)
                  (c.ride_get_unused_preset_vehicle_colour
                    (executePlacement c flags loc td ride g).game
                    (resolveEntryIndex c td g))) := by
      rw [Execute_success_path c flags loc td g ride hpause hcreate hride hcost]
      rfl
    rw [hcalls, List.filter_cons_of_neg (by simp [Call.isPlacement]), List.filter_append,
      List.filter_eq_self.mpr (fun call h => (hp call h).1),
      List.filter_eq_nil_iff.mpr (fun call h => by
        rw [(cascadeCalls_isCascade td ride _ _ call h).2.2.1]; exact Bool.false_ne_true)]
    simp

/-- The calls of `Query` on the paths that end before placement hold no
placement call. -/
theorem Query_placement_mode {G : Type} (c : Collaborators G) (flags : CommandFlags)
    (loc : CoordsXYZ) (td : TrackDesign) (g : G) :
    ∀ call ∈ (Query c flags loc td g).2.2, ∀ ptdOperation placeScenery ride placeLoc,
      call = Call.place_virtual_track ptdOperation placeScenery ride placeLoc →
      ptdOperation = PtdOperation.PTD_OPERATION_PLACE_QUERY := by
  intro call hcall op ps r l hop
  subst hop
  by_cases hpause : pauseGate c flags g = true
  · rw [(paused_path c flags loc td g hpause).1] at hcall
    simp at hcall
  · have hpause' : pauseGate c flags g = false := by simpa using hpause
    by_cases hcreate : (createRide c flags td g).1.1 = MONEY32_UNDEFINED
    · rw [(no_free_elements_path c flags loc td g hpause' hcreate).1] at hcall
      simp at hcall
    · cases hride : c.get_ride (createRide c flags td g).2 (createRide c flags td g).1.2.1 with
      | none =>
        rw [(unknown_path c flags loc td g hpause' hcreate hride).1] at hcall
        simp at hcall
      | some ride =>
        have hcalls : (Query c flags loc td g).2.2
            = Call.ride_create_command td.type (resolveEntryIndex c td g) flags
                :: ((queryPlacement c flags loc td ride g).calls
                  ++ [Call.ride_action_modify_demolish ride flags]) := by
          rw [Query_placement_path c flags loc td g ride hpause' hcreate hride]
          rfl
        rw [hcalls, List.mem_cons, List.mem_append, List.mem_singleton] at hcall
        rcases hcall with h | h | h
        · cases h
        · obtain ⟨ps2, h2⟩ := queryPasses_calls_mode c td ride loc _ _ h
          cases h2; rfl
        · cases h

end TrackDesignAction

/-! ## `Query` and `Execute` in editor or sandbox mode -/

namespace SurfaceSetStyleAction

/-- In editor or sandbox mode, the surface style `Query` prices at a coordinate
is the one `Execute` writes there, when the requested style is the sentinel or
is loaded. -/
theorem surfaceDiffers_eq_written (w : World) (s : Nat) (c : Int × Int)
    (hpriv : privileged w = true)
    (hres : s ≠ 0xFF →
      ∃ obj, w.GetLoadedObject ObjectType.OBJECT_TYPE_TERRAIN_SURFACE s = some obj) :
    surfaceDiffers w s c = surfaceWritten w w.tiles s c := by
  unfold surfaceDiffers surfaceWritten pricedElement
  rw [hpriv]
  simp only [Bool.true_or, if_true]
  cases map_get_surface_element_at w.tiles c.1 c.2 with
  | none => rfl
  | some el =>
    by_cases hs : s = 0xFF
    · simp [hs]
    · obtain ⟨obj, hobj⟩ := hres hs
      simp [hobj]

/-- In editor or sandbox mode, the edge style `Query` prices at a coordinate is
the one `Execute` writes there. -/
theorem edgeDiffers_eq_written (w : World) (e : Nat) (c : Int × Int)
    (hpriv : privileged w = true) :
    edgeDiffers w e c = edgeWritten w.tiles e c := by
  unfold edgeDiffers edgeWritten pricedElement
  rw [hpriv]
  simp only [Bool.true_or, if_true]

/-- The price of the effects the body of `Execute` performs at one coordinate. -/
theorem sum_effectPrice_eventsAt (w : World) (tiles : TileMap) (s e : Nat) (c : Int × Int) :
    ((eventsAt w tiles s e c).map (effectPrice w)).sum
      = (if surfaceWritten w tiles s c then registeredPrice w s else 0)
        + (if edgeWritten tiles e c then 100 else 0) := by
  unfold eventsAt surfaceWritten edgeWritten
  cases map_get_surface_element_at tiles c.1 c.2 with
  | none => simp
  | some el =>
    unfold tileEvents
    by_cases h1 : s = 0xFF <;> by_cases h2 : s = el.surfaceStyle <;>
      by_cases h3 : e = 0xFF <;> by_cases h4 : e = el.edgeStyle <;>
      cases hobj : w.GetLoadedObject ObjectType.OBJECT_TYPE_TERRAIN_SURFACE s <;>
      simp [h1, h2, h3, h4, hobj, effectPrice] <;>
      split_ifs <;> simp [effectPrice]

/-- The price of the effects the body of `Execute` performs over a list of
coordinates, all read on the same map. -/
theorem sum_effectPrice_flatMap (w : World) (tiles : TileMap) (s e : Nat)
    (l : List (Int × Int)) :
    ((l.flatMap (eventsAt w tiles s e)).map (effectPrice w)).sum
      = registeredPrice w s * ((l.filter (surfaceWritten w tiles s)).length : Int)
        + 100 * ((l.filter (edgeWritten tiles e)).length : Int) := by
  induction l with
  | nil => simp
  | cons c l ih =>
    rw [List.flatMap_cons, List.map_append, List.sum_append, ih, sum_effectPrice_eventsAt]
    by_cases h1 : surfaceWritten w tiles s c = true <;>
      by_cases h2 : edgeWritten tiles e c = true <;>
      simp [h1, h2, List.filter_cons] <;> ring

/-- The cost `Execute` returns is the price of the effects it performed. -/
theorem Execute_cost_effects (w : World) (range : MapRange) (s e : Nat) :
    (Execute w range s e).1.Cost = effectsPrice w (Execute w range s e).2.2 := by
  rw [Execute_cost_formula, Execute_log]
  unfold effectsPrice
  rw [sum_effectPrice_flatMap]

/-- In editor or sandbox mode, a request that passes the style validation of
`Query` is accepted, with the position and the cost `Execute` returns. -/
theorem Query_privileged (w : World) (range : MapRange) (s e : Nat)
    (hpriv : privileged w = true)
    (hvalid : (Query w range s e).Error ≠ GA_ERROR.INVALID_PARAMETERS) :
    (Query w range s e).Error = GA_ERROR.OK
    ∧ (Query w range s e).Position = (Execute w range s e).1.Position
    ∧ (Query w range s e).Cost = (Execute w range s e).1.Cost := by
  rcases Query_cases w range s e with h | ⟨_, hgate⟩ | ⟨h, hres, _⟩
  · rw [h] at hvalid
    exact absurd rfl hvalid
  · unfold privileged at hpriv
    cases h1 : w.screenFlagScenarioEditor <;> cases h2 : w.gCheatsSandboxMode <;>
      simp [h1, h2] at hpriv hgate
  · refine ⟨by rw [h], by rw [h]; rfl, ?_⟩
    rw [Execute_cost_formula, h]
    show add32 (queryLoop w (validRange w range) s e).surfaceCost
      (queryLoop w (validRange w range) s e).edgeCost = _
    rw [queryLoop_eq]
    obtain ⟨h1, h2⟩ := queryFold_costs w s e (fun hs => (hres hs).2)
      (visitedCoords w range) { surfaceCost := 0, edgeCost := 0 } rfl rfl
    rw [h1, h2]
    unfold add32
    rw [wrapInt32_add_left, wrapInt32_add_right]
    simp only [zero_add]
    have h3 : (visitedCoords w range).filter (surfaceDiffers w s)
        = (visitedCoords w range).filter (surfaceWritten w w.tiles s) :=
      List.filter_congr
        (fun c _ => surfaceDiffers_eq_written w s c hpriv (fun hs => (hres hs).2))
    have h4 : (visitedCoords w range).filter (edgeDiffers w e)
        = (visitedCoords w range).filter (edgeWritten w.tiles e) :=
      List.filter_congr (fun c _ => edgeDiffers_eq_written w e c hpriv)
    rw [h3, h4]

end SurfaceSetStyleAction

/-! ## Claims -/

namespace SurfaceSetStyleAction

/-- C1 (evaluation at the failing input). Outside editor and sandbox mode, on a
map whose only tile lies outside the park, `Query` accepts the request
(surface style 1, edge style 1) and quotes cost 0, while `Execute` from the
same world returns cost 150: `Execute` lacks the `map_is_location_in_park`
test that `Query` makes at lines 106-110. The positions agree. -/
theorem C1_query_and_execute_costs_differ_outside_park :
    (Query (Examples.world false false false false) Examples.tileRange 1 1).Error
        = GA_ERROR.OK
    ∧ (Query (Examples.world false false false false) Examples.tileRange 1 1).Cost = 0
    ∧ (Execute (Examples.world false false false false) Examples.tileRange 1 1).1.Cost = 150
    ∧ (Query (Examples.world false false false false) Examples.tileRange 1 1).Position
        = (Execute (Examples.world false false false false) Examples.tileRange 1 1).1.Position := by
  decide

/-- C2 (evaluation at the failing input). With edge style 0x11, which is not
the sentinel and is above 0xF, `Query` returns `INVALID_PARAMETERS`, but
`Execute` does not: it has none of the validation of `Query` (lines 49-83),
reports no error, charges 100, calls `SetEdgeStyle(0x11)` and `SetGrassLength`
on the tile at (32, 32) and leaves that tile changed (edge style 1, the low
four bits of 0x11, and grass length 1). -/
theorem C2_execute_accepts_invalid_edge_style :
    ((17 : Nat) ≠ 0xFF ∧ (17 : Nat) > 0xF)
    ∧ (Query (Examples.world true false false false) Examples.tileRange 0xFF 17).Error
        = GA_ERROR.INVALID_PARAMETERS
    ∧ (Execute (Examples.world true false false false) Examples.tileRange 0xFF 17).1.Error
        = GA_ERROR.OK
    ∧ (Execute (Examples.world true false false false) Examples.tileRange 0xFF 17).1.Cost = 100
    ∧ (Execute (Examples.world true false false false) Examples.tileRange 0xFF 17).2.2
        = [MapEvent.SetEdgeStyle 32 32 17, MapEvent.map_invalidate_tile_full 32 32,
           MapEvent.SetGrassLength 32 32 GRASS_LENGTH_CLEAR_0,
           MapEvent.map_invalidate_tile_full 32 32]
    ∧ map_get_surface_element_at (Examples.world true false false false).tiles 32 32
        = some ⟨0, 0, 0⟩
    ∧ map_get_surface_element_at
        (Execute (Examples.world true false false false) Examples.tileRange 0xFF 17).2.1.tiles
        32 32 = some ⟨0, 1, 1⟩ := by
  decide

/-- C3 (evaluation at the failing input). With the editor flag clear, sandbox
mode off and landscape changes forbidden, `Query` returns `DISALLOWED` for the
valid request (surface style 1, edge style 0xFF), but `Execute` does not: it
has no landscape gate (lines 93-98 of `Query`), reports no error, charges 50
and changes the surface style of the tile at (32, 32). -/
theorem C3_execute_ignores_landscape_gate :
    (Query (Examples.world true false false true) Examples.tileRange 1 0xFF).Error
        = GA_ERROR.DISALLOWED
    ∧ (Execute (Examples.world true false false true) Examples.tileRange 1 0xFF).1.Error
        = GA_ERROR.OK
    ∧ (Execute (Examples.world true false false true) Examples.tileRange 1 0xFF).1.Cost = 50
    ∧ (Execute (Examples.world true false false true) Examples.tileRange 1 0xFF).2.2
        = [MapEvent.SetSurfaceStyle 32 32 1, MapEvent.map_invalidate_tile_full 32 32,
           MapEvent.footpath_remove_litter 32 32 16]
    ∧ map_get_surface_element_at (Examples.world true false false true).tiles 32 32
        = some ⟨0, 0, 0⟩
    ∧ map_get_surface_element_at
        (Execute (Examples.world true false false true) Examples.tileRange 1 0xFF).2.1.tiles
        32 32 = some ⟨1, 0, 0⟩ := by
  decide

end SurfaceSetStyleAction

namespace TrackDesignAction

/-- C4. In `Execute`, when the ride was created and retrieved and geometry
placement returns `MONEY32_UNDEFINED` in the last query pass or in the commit
pass: the result is the fresh error result `DISALLOWED` whose message is the
value of `gGameCommandErrorText` in the game state that placement left, that
is, before the demolition; the game state returned is that state after the
demolition of the ride; the calls made are ride creation, the placement calls
and, last, one demolition, of exactly the ride retrieved; no call of the
configuration cascade is made. -/
theorem C4_failed_placement_demolishes_the_ride {G : Type} (c : Collaborators G)
    (flags : CommandFlags) (loc : CoordsXYZ) (td : TrackDesign) (g : G) (ride : Ride)
    (hpause : pauseGate c flags g = false)
    (hcreate : (createRide c flags td g).1.1 ≠ MONEY32_UNDEFINED)
    (hride : c.get_ride (createRide c flags td g).2 (createRide c flags td g).1.2.1
      = some ride)
    (hfail : (queryPlacement c flags loc td ride g).cost = MONEY32_UNDEFINED
      ∨ (executePlacement c flags loc td ride g).cost = MONEY32_UNDEFINED) :
    (Execute c flags loc td g).1
        = MakeResultMessage c.resultPosition0 GA_ERROR.DISALLOWED
            (c.gGameCommandErrorText (executePlacement c flags loc td ride g).game)
    ∧ (Execute c flags loc td g).2.1
        = c.applyCall (executePlacement c flags loc td ride g).game
            (Call.ride_action_modify_demolish ride flags)
    ∧ (Execute c flags loc td g).2.2
        = Call.ride_create_command td.type (resolveEntryIndex c td g) flags
            :: (executePlacement c flags loc td ride g).calls
            ++ [Call.ride_action_modify_demolish ride flags]
    ∧ (Execute c flags loc td g).2.2.filter Call.isDemolish
        = [Call.ride_action_modify_demolish ride flags]
    ∧ (∀ call ∈ (Execute c flags loc td g).2.2, call.isCascade = false) := by
  have hcost : (executePlacement c flags loc td ride g).cost = MONEY32_UNDEFINED := by
    rcases hfail with h | h
    · unfold executePlacement
      rw [commitPass_of_query_failed c flags td ride loc _ h]
      exact h
    · exact h
  have hcalls : ∀ call ∈ (executePlacement c flags loc td ride g).calls,
      call.isDemolish = false ∧ call.isCascade = false :=
    commitPass_calls c flags td ride loc _ (queryPasses_calls c td ride loc _)
  have hexec := Execute_failure_path c flags loc td g ride hpause hcreate hride hcost
  rw [hexec]
  refine ⟨rfl, rfl, rfl, ?_, ?_⟩
  · have hnone : (executePlacement c flags loc td ride g).calls.filter Call.isDemolish = [] := by
      rw [List.filter_eq_nil_iff]
      intro call hcall
      rw [(hcalls call hcall).1]
      exact Bool.false_ne_true
    simp only [List.cons_append, List.filter_cons, Call.isDemolish, List.filter_append, hnone,
      List.nil_append, Bool.false_eq_true, if_false, if_true, List.filter_nil]
  · intro call hcall
    simp only [List.cons_append, List.mem_cons, List.mem_append, List.mem_singleton,
      List.not_mem_nil, or_false] at hcall
    rcases hcall with h | h | h
    · subst h; rfl
    · exact (hcalls call h).2
    · subst h; rfl

/-- C4 (witness): on the ride-list collaborators with a failing query pass, the
ride created by `Execute` is demolished and is no longer retrievable. -/
theorem C4_failed_placement_demolishes_the_ride_witness :
    (Execute (Examples.rideList MONEY32_UNDEFINED 0) Examples.noFlags ⟨64, 64, 16⟩
        (Examples.design 3) []).2.2.filter Call.isDemolish
      = [Call.ride_action_modify_demolish ⟨0⟩ Examples.noFlags]
    ∧ (Examples.rideList MONEY32_UNDEFINED 0).get_ride
        (Execute (Examples.rideList MONEY32_UNDEFINED 0) Examples.noFlags ⟨64, 64, 16⟩
          (Examples.design 3) []).2.1 0 = none := by
  have h := C4_failed_placement_demolishes_the_ride (Examples.rideList MONEY32_UNDEFINED 0)
    Examples.noFlags ⟨64, 64, 16⟩ (Examples.design 3) [] ⟨0⟩ (by decide) (by decide)
    (by decide) (Or.inl (by decide))
  exact ⟨h.2.2.2.1, by rw [h.2.1]; decide⟩

end TrackDesignAction

namespace SurfaceSetStyleAction

/-- C5. A requested style that is the sentinel 0xFF or the current style of a
tile costs nothing on that tile and is not written to it, for the surface
attribute (1, 3, 5) and for the edge attribute (2, 4, 6) alike.
(1, 2) For a tile of the world whose style the request leaves alone: the body
of the loop of `Query` leaves the accumulator of the attribute as it is; so
does the body of the loop of `Execute` when it runs on the tile, whatever
coordinates the loop visited before, and the tile keeps the attribute; after
`Execute` the tile still has the attribute.
(3, 4) In any state of the loop of `Execute`, the body run on a tile whose
style at that moment the request leaves alone adds nothing to the accumulator
of the attribute and the tile keeps the attribute.
(5, 6) With the sentinel, the accumulator of the attribute is 0 when the loops
of `Query` and of `Execute` end. -/
theorem C5_sentinel_or_current_style_is_free (w : World) (range : MapRange) (s e : Nat) :
    (∀ x y el, map_get_surface_element_at w.tiles x y = some el →
        (s = 0xFF ∨ s = el.GetSurfaceStyle) →
        (∀ acc, (queryTile w s e acc x y).surfaceCost = acc.surfaceCost)
        ∧ (∀ before : List (Int × Int),
            (executeTile w s e
                (before.foldl (fun st c => executeTile w s e st c.1 c.2)
                  { surfaceCost := 0, edgeCost := 0, tiles := w.tiles, log := [] }) x y).surfaceCost
              = (before.foldl (fun st c => executeTile w s e st c.1 c.2)
                  { surfaceCost := 0, edgeCost := 0, tiles := w.tiles, log := [] }).surfaceCost
            ∧ ∃ el1, map_get_surface_element_at
                (executeTile w s e
                  (before.foldl (fun st c => executeTile w s e st c.1 c.2)
                    { surfaceCost := 0, edgeCost := 0, tiles := w.tiles, log := [] }) x y).tiles
                x y = some el1
              ∧ el1.GetSurfaceStyle = el.GetSurfaceStyle)
        ∧ ∃ el1, map_get_surface_element_at (Execute w range s e).2.1.tiles x y = some el1
            ∧ el1.GetSurfaceStyle = el.GetSurfaceStyle)
    ∧ (∀ x y el, map_get_surface_element_at w.tiles x y = some el →
        (e = 0xFF ∨ e = el.GetEdgeStyle) →
        (∀ acc, (queryTile w s e acc x y).edgeCost = acc.edgeCost)
        ∧ (∀ before : List (Int × Int),
            (executeTile w s e
                (before.foldl (fun st c => executeTile w s e st c.1 c.2)
                  { surfaceCost := 0, edgeCost := 0, tiles := w.tiles, log := [] }) x y).edgeCost
              = (before.foldl (fun st c => executeTile w s e st c.1 c.2)
                  { surfaceCost := 0, edgeCost := 0, tiles := w.tiles, log := [] }).edgeCost
            ∧ ∃ el1, map_get_surface_element_at
                (executeTile w s e
                  (before.foldl (fun st c => executeTile w s e st c.1 c.2)
                    { surfaceCost := 0, edgeCost := 0, tiles := w.tiles, log := [] }) x y).tiles
                x y = some el1
              ∧ el1.GetEdgeStyle = el.GetEdgeStyle)
        ∧ ∃ el1, map_get_surface_element_at (Execute w range s e).2.1.tiles x y = some el1
            ∧ el1.GetEdgeStyle = el.GetEdgeStyle)
    ∧ (∀ (st : ExecState) x y el, map_get_surface_element_at st.tiles x y = some el →
        (s = 0xFF ∨ s = el.GetSurfaceStyle) →
        (executeTile w s e st x y).surfaceCost = st.surfaceCost
        ∧ ∃ el1, map_get_surface_element_at (executeTile w s e st x y).tiles x y = some el1
            ∧ el1.GetSurfaceStyle = el.GetSurfaceStyle)
    ∧ (∀ (st : ExecState) x y el, map_get_surface_element_at st.tiles x y = some el →
        (e = 0xFF ∨ e = el.GetEdgeStyle) →
        (executeTile w s e st x y).edgeCost = st.edgeCost
        ∧ ∃ el1, map_get_surface_element_at (executeTile w s e st x y).tiles x y = some el1
            ∧ el1.GetEdgeStyle = el.GetEdgeStyle)
    ∧ (s = 0xFF → (queryLoop w (validRange w range) s e).surfaceCost = 0
        ∧ (executeLoop w (validRange w range) s e).surfaceCost = 0)
    ∧ (e = 0xFF → (queryLoop w (validRange w range) s e).edgeCost = 0
        ∧ (executeLoop w (validRange w range) s e).edgeCost = 0) := by
  refine ⟨?_, ?_, ?_, ?_, ?_, ?_⟩
  · intro x y el hel hs
    have keep : ∀ el1 : SurfaceElement, el1.GetSurfaceStyle = el.GetSurfaceStyle →
        (elementAfter w s e el1).GetSurfaceStyle = el.GetSurfaceStyle := by
      intro el1 h1
      exact (elementAfter_surfaceStyle_same w s e el1 (by
        rcases hs with hs | hs
        · exact Or.inl hs
        · exact Or.inr (hs.trans h1.symm))).trans h1
    refine ⟨fun acc => queryTile_surfaceCost_same w s e acc x y ?_, ?_,
      Execute_keeps_attribute w range s e x y el SurfaceElement.GetSurfaceStyle hel keep⟩
    · intro el1 h1
      rw [hel] at h1
      cases h1
      exact hs
    · intro before
      obtain ⟨el1, h1, h2⟩ := executeFold_keeps_attribute w s e x y el
        SurfaceElement.GetSurfaceStyle hel keep before
      obtain ⟨hcost, el2, h3, h4⟩ := executeTile_surface_free w s e _ x y el1 h1 (by
        rcases hs with hs | hs
        · exact Or.inl hs
        · exact Or.inr (hs.trans h2.symm))
      exact ⟨hcost, el2, h3, h4.trans h2⟩
  · intro x y el hel he
    have keep : ∀ el1 : SurfaceElement, el1.GetEdgeStyle = el.GetEdgeStyle →
        (elementAfter w s e el1).GetEdgeStyle = el.GetEdgeStyle := by
      intro el1 h1
      exact (elementAfter_edgeStyle_same w s e el1 (by
        rcases he with he | he
        · exact Or.inl he
        · exact Or.inr (he.trans h1.symm))).trans h1
    refine ⟨fun acc => queryTile_edgeCost_same w s e acc x y ?_, ?_,
      Execute_keeps_attribute w range s e x y el SurfaceElement.GetEdgeStyle hel keep⟩
    · intro el1 h1
      rw [hel] at h1
      cases h1
      exact he
    · intro before
      obtain ⟨el1, h1, h2⟩ := executeFold_keeps_attribute w s e x y el
        SurfaceElement.GetEdgeStyle hel keep before
      obtain ⟨hcost, el2, h3, h4⟩ := executeTile_edge_free w s e _ x y el1 h1 (by
        rcases he with he | he
        · exact Or.inl he
        · exact Or.inr (he.trans h2.symm))
      exact ⟨hcost, el2, h3, h4.trans h2⟩
  · intro st x y el hel hs
    exact executeTile_surface_free w s e st x y el hel hs
  · intro st x y el hel he
    exact executeTile_edge_free w s e st x y el hel he
  · intro hs
    constructor
    · apply queryLoop_invariant w range s e (fun acc => acc.surfaceCost = 0) rfl
      intro acc c _ hacc
      show (queryTile w s e acc c.1 c.2).surfaceCost = 0
      rw [queryTile_surfaceCost_same w s e acc c.1 c.2 (fun _ _ => Or.inl hs)]
      exact hacc
    · apply executeLoop_invariant w range s e (fun st => st.surfaceCost = 0) rfl
      intro st c _ hst
      show (executeTile w s e st c.1 c.2).surfaceCost = 0
      cases hel : map_get_surface_element_at st.tiles c.1 c.2 with
      | none => rw [executeTile_none w s e st c.1 c.2 hel]; exact hst
      | some el =>
        rw [executeTile_surfaceCost w s e st c.1 c.2 el hel, if_neg (fun h => h.1 hs)]
        exact hst
  · intro he
    constructor
    · apply queryLoop_invariant w range s e (fun acc => acc.edgeCost = 0) rfl
      intro acc c _ hacc
      show (queryTile w s e acc c.1 c.2).edgeCost = 0
      rw [queryTile_edgeCost_same w s e acc c.1 c.2 (fun _ _ => Or.inl he)]
      exact hacc
    · apply executeLoop_invariant w range s e (fun st => st.edgeCost = 0) rfl
      intro st c _ hst
      show (executeTile w s e st c.1 c.2).edgeCost = 0
      cases hel : map_get_surface_element_at st.tiles c.1 c.2 with
      | none => rw [executeTile_none w s e st c.1 c.2 hel]; exact hst
      | some el =>
        rw [executeTile_edgeCost w s e st c.1 c.2 el hel, if_neg (fun h => h.1 he)]
        exact hst

/-- C5 (instance): on the example world the request (surface style 0, edge
style 0xFF) names the current surface style of the tile at (32, 32) and the
sentinel for the edge; after `Execute` the tile has surface style 0 and edge
style 0, and both accumulators contribute nothing. -/
theorem C5_sentinel_or_current_style_is_free_witness :
    (∃ el1, map_get_surface_element_at
        (Execute (Examples.world true false false false) Examples.tileRange 0 0xFF).2.1.tiles
        32 32 = some el1 ∧ el1.GetSurfaceStyle = 0)
    ∧ (∃ el1, map_get_surface_element_at
        (Execute (Examples.world true false false false) Examples.tileRange 0 0xFF).2.1.tiles
        32 32 = some el1 ∧ el1.GetEdgeStyle = 0)
    ∧ (queryLoop (Examples.world true false false false)
          (validRange (Examples.world true false false false) Examples.tileRange)
          0 0xFF).edgeCost = 0
    ∧ (executeLoop (Examples.world true false false false)
          (validRange (Examples.world true false false false) Examples.tileRange)
          0 0xFF).edgeCost = 0 :=
  have h := C5_sentinel_or_current_style_is_free (Examples.world true false false false)
    Examples.tileRange 0 0xFF
  ⟨(h.1 32 32 ⟨0, 0, 0⟩ (by decide) (Or.inr rfl)).2.2,
    (h.2.1 32 32 ⟨0, 0, 0⟩ (by decide) (Or.inl rfl)).2.2,
    (h.2.2.2.2.2 rfl).1, (h.2.2.2.2.2 rfl).2⟩

/-- C6 (counterexample). The requested range (0, 0)-(0, 0) on a map of maximum
size 8159 is clamped to left 32, top 32, right 0, bottom 0: left exceeds right
and top exceeds bottom. -/
theorem C6_clamped_range_can_be_inverted :
    validRange (Examples.world true false false false) ⟨0, 0, 0, 0⟩ = ⟨32, 32, 0, 0⟩
    ∧ ¬ ((validRange (Examples.world true false false false) ⟨0, 0, 0, 0⟩).left
          ≤ (validRange (Examples.world true false false false) ⟨0, 0, 0, 0⟩).right)
    ∧ ¬ ((validRange (Examples.world true false false false) ⟨0, 0, 0, 0⟩).top
          ≤ (validRange (Examples.world true false false false) ⟨0, 0, 0, 0⟩).bottom) := by
  decide

/-- C6 (amended). The clamped range (max(left,32), max(top,32), min(right,M),
min(bottom,M)) satisfies left <= right exactly when the requested range has
left <= right, left <= M, 32 <= right and 32 <= M, and top <= bottom exactly
when it has top <= bottom, top <= M, 32 <= bottom and 32 <= M. When either
order fails the loops of `Query` and `Execute` visit no coordinate. -/
theorem C6_clamped_range_ordered_iff (w : World) (range : MapRange) :
    ((validRange w range).left ≤ (validRange w range).right ↔
        range.left ≤ range.right ∧ range.left ≤ w.gMapSizeMaxXY ∧ 32 ≤ range.right
          ∧ 32 ≤ w.gMapSizeMaxXY)
    ∧ ((validRange w range).top ≤ (validRange w range).bottom ↔
        range.top ≤ range.bottom ∧ range.top ≤ w.gMapSizeMaxXY ∧ 32 ≤ range.bottom
          ∧ 32 ≤ w.gMapSizeMaxXY)
    ∧ (¬ ((validRange w range).left ≤ (validRange w range).right
          ∧ (validRange w range).top ≤ (validRange w range).bottom) →
        visitedCoords w range = []) := by
  refine ⟨?_, ?_, ?_⟩
  · simp only [validRange, MapRange.GetLeft, MapRange.GetRight]
    omega
  · simp only [validRange, MapRange.GetTop, MapRange.GetBottom]
    omega
  · intro h
    apply List.eq_nil_iff_forall_not_mem.mpr
    rintro ⟨x, y⟩ hmem
    rw [mem_visitedCoords] at hmem
    obtain ⟨⟨i, hx, hxle⟩, ⟨j, hy, hyle⟩⟩ := hmem
    apply h
    constructor <;> omega

/-- C8 (counterexample). On the example world with landscape changes forbidden,
`Query` returns `DISALLOWED` for the range (32,32)-(63,63), whose midpoint
position is (63, 63, 16), but the result carries the initial position of a
fresh result object, not the midpoint; the same holds of the
`INVALID_PARAMETERS` result for surface style 0x20. -/
theorem C8_query_error_results_drop_position :
    claimedPosition (Examples.world true false false true) Examples.tileRange = ⟨63, 63, 16⟩
    ∧ (Query (Examples.world true false false true) Examples.tileRange 1 0xFF).Error
        = GA_ERROR.DISALLOWED
    ∧ (Query (Examples.world true false false true) Examples.tileRange 1 0xFF).Position
        = (Examples.world true false false true).resultPosition0
    ∧ (Query (Examples.world true false false true) Examples.tileRange 1 0xFF).Position
        ≠ claimedPosition (Examples.world true false false true) Examples.tileRange
    ∧ (Query (Examples.world true false false true) Examples.tileRange 0x20 0xFF).Error
        = GA_ERROR.INVALID_PARAMETERS
    ∧ (Query (Examples.world true false false true) Examples.tileRange 0x20 0xFF).Position
        = (Examples.world true false false true).resultPosition0
    ∧ (Query (Examples.world true false false true) Examples.tileRange 0x20 0xFF).Position
        ≠ claimedPosition (Examples.world true false false true) Examples.tileRange := by
  decide

/-- C8 (amended). When the sums x0 + x1 and y0 + y1 of the clamped bounds fit
an `int32_t`: `Execute` always, and `Query` whenever it reports no error,
return the position x = (x0 + x1)/2 + 16, y = (y0 + y1)/2 + 16 with z the map
height at (x, y) masked to 16 bits. The error results of `Query`
(`INVALID_PARAMETERS` and `DISALLOWED`) are fresh result objects: their
position is the initial position of a result, not the midpoint. -/
theorem C8_position_is_midpoint (w : World) (range : MapRange) (s e : Nat)
    (hx1 : -2147483648 ≤ (validRange w range).left + (validRange w range).right)
    (hx2 : (validRange w range).left + (validRange w range).right ≤ 2147483647)
    (hy1 : -2147483648 ≤ (validRange w range).top + (validRange w range).bottom)
    (hy2 : (validRange w range).top + (validRange w range).bottom ≤ 2147483647) :
    (Execute w range s e).1.Position = claimedPosition w range
    ∧ ((Query w range s e).Error = GA_ERROR.OK →
        (Query w range s e).Position = claimedPosition w range)
    ∧ ((Query w range s e).Error ≠ GA_ERROR.OK →
        (Query w range s e).Position = w.resultPosition0) := by
  have hpos : (⟨xMid (validRange w range), yMid (validRange w range),
      heightMid w (validRange w range)⟩ : CoordsXYZ) = claimedPosition w range := by
    unfold claimedPosition heightMid xMid yMid MapRange.GetLeft MapRange.GetRight
      MapRange.GetTop MapRange.GetBottom
    rw [midpoint_of_range _ _ hx1 hx2, midpoint_of_range _ _ hy1 hy2]
  refine ⟨by rw [Execute_position, hpos], ?_, ?_⟩
  · intro hok
    rcases Query_cases w range s e with h | ⟨h, _⟩ | ⟨h, _, _⟩
    · rw [h] at hok; simp [MakeResultMessage, MakeResult] at hok
    · rw [h] at hok; simp [MakeResultTitleMessage, MakeResult] at hok
    · rw [h]; exact hpos
  · intro herr
    rcases Query_cases w range s e with h | ⟨h, _⟩ | ⟨h, _, _⟩
    · rw [h]; rfl
    · rw [h]; rfl
    · rw [h] at herr; exact absurd rfl herr

/-- C8 (witness): the range (32,32)-(63,63) on the example world. -/
theorem C8_position_is_midpoint_witness :
    (Execute (Examples.world true false false false) Examples.tileRange 1 0xFF).1.Position
        = claimedPosition (Examples.world true false false false) Examples.tileRange
    ∧ ((Query (Examples.world true false false false) Examples.tileRange 1 0xFF).Error
          = GA_ERROR.OK →
        (Query (Examples.world true false false false) Examples.tileRange 1 0xFF).Position
          = claimedPosition (Examples.world true false false false) Examples.tileRange)
    ∧ ((Query (Examples.world true false false false) Examples.tileRange 1 0xFF).Error
          ≠ GA_ERROR.OK →
        (Query (Examples.world true false false false) Examples.tileRange 1 0xFF).Position
          = (Examples.world true false false false).resultPosition0) :=
  C8_position_is_midpoint (Examples.world true false false false) Examples.tileRange 1 0xFF
    (by decide) (by decide) (by decide) (by decide)

/-- C9. For every request that `Query` accepts, the returned cost is the sum
over the tiles of the clamped range (one tile every 32 units from the clamped
left and top, counted independently of the loops of the source) of the tile
price: the registered price of the requested surface style where it is not
0xFF and differs from the style of the tile, plus 100 where the requested edge
style is not 0xFF and differs, taken over the tiles that have a surface
element and, outside editor and sandbox mode, lie inside the park;
equivalently price times the number of tiles whose surface differs plus 100
times the number whose edge differs. Both in signed 32-bit arithmetic. -/
theorem C9_query_cost_formula (w : World) (range : MapRange) (s e : Nat)
    (hok : (Query w range s e).Error = GA_ERROR.OK) :
    (Query w range s e).Cost = claimedQueryCost w range s e
    ∧ (Query w range s e).Cost = claimedQueryCostByCount w range s e := by
  have hcount : (Query w range s e).Cost = claimedQueryCostByCount w range s e := by
    rcases Query_cases w range s e with h | ⟨h, _⟩ | ⟨h, hres, _⟩
    · rw [h] at hok; simp [MakeResultMessage, MakeResult] at hok
    · rw [h] at hok; simp [MakeResultTitleMessage, MakeResult] at hok
    · rw [h]
      show add32 (queryLoop w (validRange w range) s e).surfaceCost
        (queryLoop w (validRange w range) s e).edgeCost = _
      rw [queryLoop_eq]
      obtain ⟨h1, h2⟩ := queryFold_costs w s e (fun hs => (hres hs).2)
        (visitedCoords w range) { surfaceCost := 0, edgeCost := 0 } rfl rfl
      rw [h1, h2, visitedCoords_eq_claimedTiles]
      unfold claimedQueryCostByCount add32
      rw [wrapInt32_add_left, wrapInt32_add_right]
      simp only [zero_add]
  refine ⟨?_, hcount⟩
  rw [hcount]
  unfold claimedQueryCost claimedQueryCostByCount
  rw [sum_claimedTileCost]

/-- C9 (witness): outside editor and sandbox mode, with both tiles inside the
park, the request (surface style 1, edge style 0) over the tiles at (32, 32)
and (64, 32) is accepted and costs 50 + 100 = 150: the first tile (surface 0,
edge 0) differs in surface style, the second (surface 1, edge 2) in edge style.
The sum form and the count form of the specification both give 150 there. With
both tiles outside the park the same request costs 0, in both forms; in
sandbox mode it costs 150 again. -/
theorem C9_query_cost_formula_witness :
    ((Query Examples.grassWorld Examples.twoTileRange 1 0).Cost
        = claimedQueryCost Examples.grassWorld Examples.twoTileRange 1 0
      ∧ (Query Examples.grassWorld Examples.twoTileRange 1 0).Cost
        = claimedQueryCostByCount Examples.grassWorld Examples.twoTileRange 1 0)
    ∧ claimedTiles Examples.grassWorld Examples.twoTileRange = [(32, 32), (64, 32)]
    ∧ (Query Examples.grassWorld Examples.twoTileRange 1 0).Cost = 150
    ∧ claimedQueryCost Examples.grassWorld Examples.twoTileRange 1 0 = 150
    ∧ claimedQueryCostByCount Examples.grassWorld Examples.twoTileRange 1 0 = 150
    ∧ (Query Examples.outsideWorld Examples.twoTileRange 1 0).Cost = 0
    ∧ claimedQueryCost Examples.outsideWorld Examples.twoTileRange 1 0 = 0
    ∧ claimedQueryCostByCount Examples.outsideWorld Examples.twoTileRange 1 0 = 0
    ∧ (Query Examples.sandboxWorld Examples.twoTileRange 1 0).Cost = 150
    ∧ claimedQueryCost Examples.sandboxWorld Examples.twoTileRange 1 0 = 150 :=
  ⟨C9_query_cost_formula Examples.grassWorld Examples.twoTileRange 1 0 (by decide),
    by decide, by decide, by decide, by decide, by decide, by decide, by decide,
    by decide, by decide⟩

/-- C10 (evaluation at the failing input). Outside editor and sandbox mode, the
tile at (32, 32) lies outside the park. `Query` skips it (cost 0), but
`Execute` does not: it charges 50 + 100 for it, sets its surface style to 1 and
its edge style to 1. The loop of `Execute` (lines 173-181) lacks the
`map_is_location_in_park` test of the loop of `Query` (lines 106-110). -/
theorem C10_execute_changes_tile_outside_park :
    (Examples.world false false false false).map_is_location_in_park 32 32 = false
    ∧ (Query (Examples.world false false false false) Examples.tileRange 1 1).Cost = 0
    ∧ (Execute (Examples.world false false false false) Examples.tileRange 1 1).1.Error
        = GA_ERROR.OK
    ∧ (Execute (Examples.world false false false false) Examples.tileRange 1 1).1.Cost = 150
    ∧ map_get_surface_element_at (Examples.world false false false false).tiles 32 32
        = some ⟨0, 0, 0⟩
    ∧ map_get_surface_element_at
        (Execute (Examples.world false false false false) Examples.tileRange 1 1).2.1.tiles
        32 32 = some ⟨1, 1, 0⟩ := by
  decide

/-- C11 (evaluation at the failing input). On a world whose object manager
holds the terrain edge object 2 but no terrain surface object 2, the request
(surface style 0xFF, edge style 2) meets none of the four conditions of the
specification, yet `Query` returns `INVALID_PARAMETERS`; and the request
(surface style 0xFF, edge style 1), whose edge style resolves to no terrain
edge object, is accepted because a terrain surface object 1 is loaded. Line 76
queries the object manager with `OBJECT_TYPE_TERRAIN_SURFACE` for the edge
style. -/
theorem C11_query_resolves_edge_style_as_surface :
    claimedInvalidParameters Examples.edgeWorld 0xFF 2 = false
    ∧ (Query Examples.edgeWorld Examples.tileRange 0xFF 2).Error
        = GA_ERROR.INVALID_PARAMETERS
    ∧ claimedInvalidParameters Examples.edgeWorld 0xFF 1 = true
    ∧ (Query Examples.edgeWorld Examples.tileRange 0xFF 1).Error = GA_ERROR.OK := by
  decide

end SurfaceSetStyleAction

namespace TrackDesignAction

/-- C12. The early failures of `Query` and of `Execute`: the result is
`GAME_PAUSED` exactly when the flag allowing the action during pause is
absent, the game is paused and the build-in-pause cheat is off, and then no
collaborator is called; otherwise it is `NO_FREE_ELEMENTS` exactly when ride
creation returns `MONEY32_UNDEFINED`; otherwise it is `UNKNOWN` exactly when
the created ride id is not retrievable; with any of the three results no
placement call and no call of the configuration cascade is made. -/
theorem C12_early_failures {G : Type} (c : Collaborators G) (flags : CommandFlags)
    (loc : CoordsXYZ) (td : TrackDesign) (g : G) :
    EarlyFailures c flags td g (Query c flags loc td g)
    ∧ EarlyFailures c flags td g (Execute c flags loc td g) := by
  constructor
  · apply earlyFailures_of_paths
    · intro h; exact (paused_path c flags loc td g h).1
    · intro h1 h2; exact (no_free_elements_path c flags loc td g h1 h2).1
    · intro h1 h2 h3; exact (unknown_path c flags loc td g h1 h2 h3).1
    · intro h1 h2 ride h3
      rw [Query_retrieved_error c flags loc td g ride h1 h2 h3]
      split_ifs
      · exact Or.inl rfl
      · exact Or.inr rfl
  · apply earlyFailures_of_paths
    · intro h; exact (paused_path c flags loc td g h).2
    · intro h1 h2; exact (no_free_elements_path c flags loc td g h1 h2).2
    · intro h1 h2 h3; exact (unknown_path c flags loc td g h1 h2 h3).2
    · intro h1 h2 ride h3
      rw [Execute_retrieved_error c flags loc td g ride h1 h2 h3]
      split_ifs
      · exact Or.inl rfl
      · exact Or.inr rfl

/-- C12 (instances): the three early failures on the example collaborators, for
`Execute`: paused game, ride limit reached, ride not retrievable. -/
theorem C12_early_failures_witness :
    ((Execute Examples.pausedGame Examples.noFlags ⟨64, 64, 16⟩ (Examples.design 3) []).1.Error
        = GA_ERROR.GAME_PAUSED
      ∧ (Execute Examples.pausedGame Examples.noFlags ⟨64, 64, 16⟩ (Examples.design 3)
          []).2.2 = [])
    ∧ (Execute Examples.fullGame Examples.noFlags ⟨64, 64, 16⟩ (Examples.design 3) []).1.Error
        = GA_ERROR.NO_FREE_ELEMENTS
    ∧ (Execute Examples.lostRide Examples.noFlags ⟨64, 64, 16⟩ (Examples.design 3) []).1.Error
        = GA_ERROR.UNKNOWN :=
  have hp := (C12_early_failures Examples.pausedGame Examples.noFlags ⟨64, 64, 16⟩
    (Examples.design 3) []).2
  have hf := (C12_early_failures Examples.fullGame Examples.noFlags ⟨64, 64, 16⟩
    (Examples.design 3) []).2
  have hl := (C12_early_failures Examples.lostRide Examples.noFlags ⟨64, 64, 16⟩
    (Examples.design 3) []).2
  have hp1 := hp.1.mpr (by decide)
  have hf0 : (Execute Examples.fullGame Examples.noFlags ⟨64, 64, 16⟩ (Examples.design 3)
      []).1.Error ≠ GA_ERROR.GAME_PAUSED := fun h => absurd (hf.1.mp h) (by decide)
  have hf1 := (hf.2.2.1 hf0).mpr (by decide)
  have hl0 : (Execute Examples.lostRide Examples.noFlags ⟨64, 64, 16⟩ (Examples.design 3)
      []).1.Error ≠ GA_ERROR.GAME_PAUSED := fun h => absurd (hl.1.mp h) (by decide)
  have hl1 : (Execute Examples.lostRide Examples.noFlags ⟨64, 64, 16⟩ (Examples.design 3)
      []).1.Error ≠ GA_ERROR.NO_FREE_ELEMENTS :=
    fun h => absurd ((hl.2.2.1 hl0).mp h) (by decide)
  ⟨⟨hp1, (hp.2.1 hp1).1⟩, hf1, (hl.2.2.2.1 hl0 hl1).mpr (by decide)⟩

/-- C13. Vehicle entry resolution, the same in `Query` and `Execute`. When a
resolved entry index is never the null index 0xFF: the entry index passed to
ride creation is the resolved entry index of the descriptor when it resolves
and is invented (or the cheat that ignores the research status is on);
otherwise, when the ride type has ride groups and the object of the descriptor
is found in the object repository, the first entry of the ride type, in
registry order, that is invented (or exempt by the cheat) and whose ride group
equals the one of the descriptor, and 0xFF when there is none; otherwise 0xFF.
It is the index of the first call and only ride creation call of `Query` and of
`Execute`, and it is 0xFF or an entry that is invented or exempt by the cheat. -/
theorem C13_entry_index_resolution {G : Type} (c : Collaborators G) (flags : CommandFlags)
    (loc : CoordsXYZ) (td : TrackDesign) (g : G)
    (hidx : ∀ found, c.find_object_in_entry_group g td.vehicle_object = some found →
      found.2 ≠ 0xFF) :
    resolveEntryIndex c td g = claimedEntryIndex c td g
    ∧ (pauseGate c flags g = false →
        (∃ rest, (Query c flags loc td g).2.2
            = Call.ride_create_command td.type (claimedEntryIndex c td g) flags :: rest
          ∧ ∀ call ∈ rest, call.isRideCreation = false)
        ∧ (∃ rest, (Execute c flags loc td g).2.2
            = Call.ride_create_command td.type (claimedEntryIndex c td g) flags :: rest
          ∧ ∀ call ∈ rest, call.isRideCreation = false))
    ∧ (claimedEntryIndex c td g = 0xFF
        ∨ entryUsable c g (claimedEntryIndex c td g) = true) := by
  have heq := resolveEntryIndex_eq_claimed c td g hidx
  refine ⟨heq, ?_, ?_⟩
  · intro hpause
    rw [← heq]
    exact ride_creation_call c flags loc td g hpause
  · unfold claimedEntryIndex
    cases hfind : c.find_object_in_entry_group g td.vehicle_object with
    | none => exact claimedFallbackEntryIndex_usable c td g
    | some found =>
      simp only []
      split_ifs with h
      · exact Or.inr h
      · exact claimedFallbackEntryIndex_usable c td g

/-- C13 (witness): with ride groups, a descriptor whose entry 4 is not invented
is created with entry 5, the first invented entry of its ride group. -/
theorem C13_entry_index_resolution_witness :
    resolveEntryIndex Examples.rideGroups (Examples.design 3) [] = 5
    ∧ claimedEntryIndex Examples.rideGroups (Examples.design 3) [] = 5
    ∧ (Execute Examples.rideGroups Examples.noFlags ⟨64, 64, 16⟩ (Examples.design 3)
        []).2.2.head?
      = some (Call.ride_create_command 3 5 Examples.noFlags) :=
  have h := C13_entry_index_resolution Examples.rideGroups Examples.noFlags ⟨64, 64, 16⟩
    (Examples.design 3) [] (fun found hfound => by
      have h4 : found = (0, 4) := (Option.some.inj hfound).symm
      rw [h4]; decide)
  ⟨h.1.trans (by decide), by decide, by decide⟩

/-- C14. On a successful commit of `Execute`, the circuit count applied to the
new ride is 1 when `num_circuits` of the descriptor is 0 and `num_circuits`
otherwise, so it is never 0, and the lift-hill speed applied is
`lift_hill_speed` of the descriptor masked to its low 5 bits, so it is below
32: these are the only calls that set the two settings, they name the new
ride, and the game state returned is the one the calls of the cascade leave. -/
theorem C14_configuration_normalisation {G : Type} (c : Collaborators G)
    (flags : CommandFlags) (loc : CoordsXYZ) (td : TrackDesign) (g : G) (ride : Ride)
    (hpause : pauseGate c flags g = false)
    (hcreate : (createRide c flags td g).1.1 ≠ MONEY32_UNDEFINED)
    (hride : c.get_ride (createRide c flags td g).2 (createRide c flags td g).1.2.1
      = some ride)
    (hcost : (executePlacement c flags loc td ride g).cost ≠ MONEY32_UNDEFINED) :
    (∀ rideIndex value,
        Call.set_operating_setting_nested rideIndex RideSetSetting.NumCircuits value
            ∈ (Execute c flags loc td g).2.2
          ↔ rideIndex = ride.id
            ∧ value = if td.num_circuits = 0 then 1 else td.num_circuits)
    ∧ (∀ rideIndex value,
        Call.set_operating_setting_nested rideIndex RideSetSetting.NumCircuits value
            ∈ (Execute c flags loc td g).2.2 → value ≠ 0)
    ∧ (∀ rideIndex value,
        Call.set_operating_setting_nested rideIndex RideSetSetting.LiftHillSpeed value
            ∈ (Execute c flags loc td g).2.2
          ↔ rideIndex = ride.id ∧ value = td.lift_hill_speed &&& 0x1F)
    ∧ (∀ rideIndex value,
        Call.set_operating_setting_nested rideIndex RideSetSetting.LiftHillSpeed value
            ∈ (Execute c flags loc td g).2.2 → value < 32)
    ∧ (Execute c flags loc td g).2.1
        = (cascadeCalls td ride (resolveEntryIndex c td g)
            (c.ride_get_unused_preset_vehicle_colour
              (executePlacement c flags loc td ride g).game
              (resolveEntryIndex c td g))).foldl
          c.applyCall (executePlacement c flags loc td ride g).game := by
  have hmask : td.lift_hill_speed &&& 0x1F = td.lift_hill_speed % 32 :=
    Nat.and_pow_two_sub_one_eq_mod td.lift_hill_speed 5
  have hcirc : ∀ rideIndex value,
      Call.set_operating_setting_nested rideIndex RideSetSetting.NumCircuits value
          ∈ (Execute c flags loc td g).2.2
        ↔ rideIndex = ride.id ∧ value = if td.num_circuits = 0 then 1 else td.num_circuits := by
    intro rideIndex value
    rw [mem_Execute_calls_setting c flags loc td g ride hpause hcreate hride hcost,
      mem_cascadeCalls_numCircuits]
  have hlift : ∀ rideIndex value,
      Call.set_operating_setting_nested rideIndex RideSetSetting.LiftHillSpeed value
          ∈ (Execute c flags loc td g).2.2
        ↔ rideIndex = ride.id ∧ value = td.lift_hill_speed &&& 0x1F := by
    intro rideIndex value
    rw [mem_Execute_calls_setting c flags loc td g ride hpause hcreate hride hcost,
      mem_cascadeCalls_liftHillSpeed, hmask]
  refine ⟨hcirc, ?_, hlift, ?_, ?_⟩
  · intro rideIndex value h
    rw [((hcirc rideIndex value).mp h).2]
    split_ifs with h0
    · decide
    · exact h0
  · intro rideIndex value h
    rw [((hlift rideIndex value).mp h).2, hmask]
    exact Nat.mod_lt _ (by decide)
  · rw [Execute_success_path c flags loc td g ride hpause hcreate hride hcost]

/-- C14 (witness): the descriptor with lift-hill speed 0xE5 and circuit count 0
is applied with lift-hill speed 5 and circuit count 1. -/
theorem C14_configuration_normalisation_witness :
    Call.set_operating_setting_nested 0 RideSetSetting.NumCircuits 1
        ∈ (Execute (Examples.rideList 10 20) Examples.noFlags ⟨64, 64, 16⟩
            Examples.fastDesign []).2.2
    ∧ Call.set_operating_setting_nested 0 RideSetSetting.LiftHillSpeed 5
        ∈ (Execute (Examples.rideList 10 20) Examples.noFlags ⟨64, 64, 16⟩
            Examples.fastDesign []).2.2 :=
  have h := C14_configuration_normalisation (Examples.rideList 10 20) Examples.noFlags
    ⟨64, 64, 16⟩ Examples.fastDesign [] ⟨0⟩ (by decide) (by decide) (by decide) (by decide)
  ⟨(h.1 0 1).mpr (by decide), (h.2.2.1 0 5).mpr (by decide)⟩

/-- C15 (counterexample). With placement location (64, 64, 16), whose offset
position is (80, 80, 16): the `DISALLOWED` results of `Query` and `Execute`
after a failed placement, and the `GAME_PAUSED` result of `Execute`, carry the
initial position of a fresh result object instead. -/
theorem C15_error_results_drop_position :
    (Execute (Examples.rideList MONEY32_UNDEFINED 0) Examples.noFlags ⟨64, 64, 16⟩
        (Examples.design 3) []).1.Error = GA_ERROR.DISALLOWED
    ∧ (Execute (Examples.rideList MONEY32_UNDEFINED 0) Examples.noFlags ⟨64, 64, 16⟩
        (Examples.design 3) []).1.Position
      = (Examples.rideList MONEY32_UNDEFINED 0).resultPosition0
    ∧ (Execute (Examples.rideList MONEY32_UNDEFINED 0) Examples.noFlags ⟨64, 64, 16⟩
        (Examples.design 3) []).1.Position ≠ ⟨64 + 16, 64 + 16, 16⟩
    ∧ (Query (Examples.rideList MONEY32_UNDEFINED 0) Examples.noFlags ⟨64, 64, 16⟩
        (Examples.design 3) []).1.Error = GA_ERROR.DISALLOWED
    ∧ (Query (Examples.rideList MONEY32_UNDEFINED 0) Examples.noFlags ⟨64, 64, 16⟩
        (Examples.design 3) []).1.Position ≠ ⟨64 + 16, 64 + 16, 16⟩
    ∧ (Execute Examples.pausedGame Examples.noFlags ⟨64, 64, 16⟩
        (Examples.design 3) []).1.Error = GA_ERROR.GAME_PAUSED
    ∧ (Execute Examples.pausedGame Examples.noFlags ⟨64, 64, 16⟩
        (Examples.design 3) []).1.Position ≠ ⟨64 + 16, 64 + 16, 16⟩ := by
  decide

/-- C15 (amended). When `loc.x + 16` and `loc.y + 16` fit an `int32_t`: every
result of `Query` and of `Execute` that reports no error reports the position
(loc.x + 16, loc.y + 16, loc.z), where `loc` is the placement location and the
height is not resampled. The results of the failure paths (`GAME_PAUSED`,
`NO_FREE_ELEMENTS`, `UNKNOWN`, `DISALLOWED`) are fresh result objects: their
position is the initial position of a result. -/
theorem C15_position_on_success {G : Type} (c : Collaborators G) (flags : CommandFlags)
    (loc : CoordsXYZ) (td : TrackDesign) (g : G)
    (hx1 : -2147483648 ≤ loc.x + 16) (hx2 : loc.x + 16 ≤ 2147483647)
    (hy1 : -2147483648 ≤ loc.y + 16) (hy2 : loc.y + 16 ≤ 2147483647) :
    ((Query c flags loc td g).1.Error = GA_ERROR.OK →
        (Query c flags loc td g).1.Position = ⟨loc.x + 16, loc.y + 16, loc.z⟩)
    ∧ ((Query c flags loc td g).1.Error ≠ GA_ERROR.OK →
        (Query c flags loc td g).1.Position = c.resultPosition0)
    ∧ ((Execute c flags loc td g).1.Error = GA_ERROR.OK →
        (Execute c flags loc td g).1.Position = ⟨loc.x + 16, loc.y + 16, loc.z⟩)
    ∧ ((Execute c flags loc td g).1.Error ≠ GA_ERROR.OK →
        (Execute c flags loc td g).1.Position = c.resultPosition0) := by
  have hx : add32 loc.x 16 = loc.x + 16 := wrapInt32_of_range _ hx1 hx2
  have hy : add32 loc.y 16 = loc.y + 16 := wrapInt32_of_range _ hy1 hy2
  refine ⟨?_, ?_, ?_, ?_⟩
  · intro hok
    rcases Query_result_position c flags loc td g with ⟨h, _⟩ | ⟨_, h⟩
    · exact absurd hok h
    · rw [h, hx, hy]
  · intro herr
    rcases Query_result_position c flags loc td g with ⟨_, h⟩ | ⟨h, _⟩
    · exact h
    · exact absurd h herr
  · intro hok
    rcases Execute_result_position c flags loc td g with ⟨h, _⟩ | ⟨_, h⟩
    · exact absurd hok h
    · rw [h, hx, hy]
  · intro herr
    rcases Execute_result_position c flags loc td g with ⟨_, h⟩ | ⟨h, _⟩
    · exact h
    · exact absurd h herr

/-- C15 (witness): a successful placement at (64, 64, 16) reports (80, 80, 16). -/
theorem C15_position_on_success_witness :
    (Query (Examples.rideList 10 20) Examples.noFlags ⟨64, 64, 16⟩
        (Examples.design 3) []).1.Position = ⟨64 + 16, 64 + 16, 16⟩
    ∧ (Execute (Examples.rideList 10 20) Examples.noFlags ⟨64, 64, 16⟩
        (Examples.design 3) []).1.Position = ⟨64 + 16, 64 + 16, 16⟩ :=
  have h := C15_position_on_success (Examples.rideList 10 20) Examples.noFlags ⟨64, 64, 16⟩
    (Examples.design 3) [] (by decide) (by decide) (by decide) (by decide)
  ⟨h.1 (by decide), h.2.2.1 (by decide)⟩

end TrackDesignAction

namespace SurfaceSetStyleAction

/-- C16 (counterexample). The surface style 1 is not 0xFF and is loaded (price
50), the edge style 0x12 is not 0xFF. After `Execute` over the tiles at
(32, 32) and (64, 32), both of which have a surface element, the edge style of
both tiles is 2, the low four bits of 0x12, and not 0x12: a tile holds no edge
style above 0xF. The second tile had edge style 2 before, so `Execute` changed
the surface style of one tile and the edge style of one tile, for which the
claim gives the cost 50 + 100, but `Execute` returns 250: it charges the edge
fee on the second tile, whose edge style it did not change. Likewise for the
surface style 0x21, not 0xFF and loaded in a world whose object manager has an
object under every index: afterwards the tile at (32, 32) has surface style 1,
the low five bits of 0x21, and not 0x21. -/
theorem C16_edge_style_above_bound :
    ((1 : Nat) ≠ 0xFF
      ∧ Examples.grassWorld.GetLoadedObject ObjectType.OBJECT_TYPE_TERRAIN_SURFACE 1
          = some ⟨50⟩
      ∧ (18 : Nat) ≠ 0xFF)
    ∧ visitedCoords Examples.grassWorld Examples.twoTileRange = [(32, 32), (64, 32)]
    ∧ map_get_surface_element_at Examples.grassWorld.tiles 32 32 = some ⟨0, 0, 3⟩
    ∧ map_get_surface_element_at Examples.grassWorld.tiles 64 32 = some ⟨1, 2, 9⟩
    ∧ map_get_surface_element_at
        (Execute Examples.grassWorld Examples.twoTileRange 1 18).2.1.tiles 32 32
          = some ⟨1, 2, 1⟩
    ∧ map_get_surface_element_at
        (Execute Examples.grassWorld Examples.twoTileRange 1 18).2.1.tiles 64 32
          = some ⟨1, 2, 9⟩
    ∧ (Execute Examples.grassWorld Examples.twoTileRange 1 18).1.Cost = 250
    ∧ 50 * (((visitedCoords Examples.grassWorld Examples.twoTileRange).filter
              (surfaceStyleChanged Examples.grassWorld.tiles
                (Execute Examples.grassWorld Examples.twoTileRange 1 18).2.1.tiles)).length
              : Int)
        + 100 * (((visitedCoords Examples.grassWorld Examples.twoTileRange).filter
              (edgeStyleChanged Examples.grassWorld.tiles
                (Execute Examples.grassWorld Examples.twoTileRange 1 18).2.1.tiles)).length
              : Int)
        = 150
    ∧ ((33 : Nat) ≠ 0xFF
      ∧ Examples.everyStyleWorld.GetLoadedObject ObjectType.OBJECT_TYPE_TERRAIN_SURFACE 33
          = some ⟨50⟩
      ∧ (0 : Nat) ≠ 0xFF)
    ∧ map_get_surface_element_at
        (Execute Examples.everyStyleWorld Examples.twoTileRange 33 0).2.1.tiles 32 32
          = some ⟨1, 0, 1⟩ := by
  decide

/-- C16 (amended). Postcondition of `Execute` for a surface style `s` within the
bound of surface styles (at most 0x1F, hence not 0xFF) that is loaded, and an
edge style `e` within the bound of edge styles (at most 0xF, hence not 0xFF):
after `Execute` the tiles of the clamped range have a surface element exactly
where they had one, every such element has surface style `s` and edge style
`e`, and the returned cost is the price of `s` times the number of those tiles
whose surface style `Execute` changed plus 100 times the number whose edge
style it changed, in signed 32-bit arithmetic (and as plain integers when that
value fits an `int32_t`). The tiles are counted independently of the loops of
the source. -/
theorem C16_execute_postcondition (w : World) (range : MapRange) (s e : Nat)
    (surfaceObj : TerrainObject) (hs : s ≤ 0x1F)
    (hobj : w.GetLoadedObject ObjectType.OBJECT_TYPE_TERRAIN_SURFACE s = some surfaceObj)
    (he : e ≤ 0xF) :
    (∀ c ∈ claimedTiles w range,
        (map_get_surface_element_at (Execute w range s e).2.1.tiles c.1 c.2).isSome
          = (map_get_surface_element_at w.tiles c.1 c.2).isSome
        ∧ ∀ el1, map_get_surface_element_at (Execute w range s e).2.1.tiles c.1 c.2
            = some el1 →
          el1.GetSurfaceStyle = s ∧ el1.GetEdgeStyle = e)
    ∧ (Execute w range s e).1.Cost
        = wrapInt32
            (surfaceObj.Price
                * (((claimedTiles w range).filter
                    (surfaceStyleChanged w.tiles (Execute w range s e).2.1.tiles)).length : Int)
              + 100 * (((claimedTiles w range).filter
                    (edgeStyleChanged w.tiles (Execute w range s e).2.1.tiles)).length : Int))
    ∧ (-2147483648 ≤ surfaceObj.Price
            * (((claimedTiles w range).filter
                (surfaceStyleChanged w.tiles (Execute w range s e).2.1.tiles)).length : Int)
          + 100 * (((claimedTiles w range).filter
                (edgeStyleChanged w.tiles (Execute w range s e).2.1.tiles)).length : Int)
        ∧ surfaceObj.Price
            * (((claimedTiles w range).filter
                (surfaceStyleChanged w.tiles (Execute w range s e).2.1.tiles)).length : Int)
          + 100 * (((claimedTiles w range).filter
                (edgeStyleChanged w.tiles (Execute w range s e).2.1.tiles)).length : Int)
          ≤ 2147483647 →
        (Execute w range s e).1.Cost
          = surfaceObj.Price
              * (((claimedTiles w range).filter
                  (surfaceStyleChanged w.tiles (Execute w range s e).2.1.tiles)).length : Int)
            + 100 * (((claimedTiles w range).filter
                  (edgeStyleChanged w.tiles (Execute w range s e).2.1.tiles)).length : Int)) := by
  have hprice : registeredPrice w s = surfaceObj.Price := by
    unfold registeredPrice
    rw [hobj]
  have hcost := Execute_cost_changed w range s e (fun _ => hs) (fun _ => he)
  rw [hprice, visitedCoords_eq_claimedTiles] at hcost
  refine ⟨?_, hcost, ?_⟩
  · intro c hc
    rw [← visitedCoords_eq_claimedTiles] at hc
    rw [Execute_at_visited w range s e c hc]
    refine ⟨by simp, ?_⟩
    intro el1 hel1
    cases hel : map_get_surface_element_at w.tiles c.1 c.2 with
    | none => rw [hel] at hel1; cases hel1
    | some el =>
      rw [hel] at hel1
      simp only [Option.map_some', Option.some.injEq] at hel1
      subst hel1
      exact ⟨elementAfter_surfaceStyle w s e el (by omega) hs (by rw [hobj]; rfl),
        elementAfter_edgeStyle w s e el he⟩
  · rintro ⟨h1, h2⟩
    rw [hcost]
    exact wrapInt32_of_range _ h1 h2

/-- C16 (witness): the request (surface style 1, edge style 0) over the tiles at
(32, 32) and (64, 32), which hold (surface 0, edge 0) and (surface 1, edge 2):
afterwards both hold surface style 1 and edge style 0, `Execute` changed the
surface style of the first and the edge style of the second, and the cost is
50 * 1 + 100 * 1 = 150. -/
theorem C16_execute_postcondition_witness :
    claimedTiles Examples.grassWorld Examples.twoTileRange = [(32, 32), (64, 32)]
    ∧ map_get_surface_element_at
        (Execute Examples.grassWorld Examples.twoTileRange 1 0).2.1.tiles 32 32
          = some ⟨1, 0, 1⟩
    ∧ map_get_surface_element_at
        (Execute Examples.grassWorld Examples.twoTileRange 1 0).2.1.tiles 64 32
          = some ⟨1, 0, 9⟩
    ∧ (Execute Examples.grassWorld Examples.twoTileRange 1 0).1.Cost
        = wrapInt32
            (50 * (((claimedTiles Examples.grassWorld Examples.twoTileRange).filter
                    (surfaceStyleChanged Examples.grassWorld.tiles
                      (Execute Examples.grassWorld Examples.twoTileRange 1 0).2.1.tiles)).length
                    : Int)
              + 100 * (((claimedTiles Examples.grassWorld Examples.twoTileRange).filter
                    (edgeStyleChanged Examples.grassWorld.tiles
                      (Execute Examples.grassWorld Examples.twoTileRange 1 0).2.1.tiles)).length
                    : Int))
    ∧ (Execute Examples.grassWorld Examples.twoTileRange 1 0).1.Cost = 150 :=
  have h := C16_execute_postcondition Examples.grassWorld Examples.twoTileRange 1 0 ⟨50⟩
    (by decide) (by decide) (by decide)
  ⟨by decide, by decide, by decide, h.2.1, by decide⟩

/-- C17. Grass reset of `Execute`, for every request.
(1) On a visited tile with a surface element whose surface, after any style
change, can grow grass, the grass stage (the low three bits of the grass
length) is `GRASS_LENGTH_CLEAR_0` after `Execute`; where it was not,
`SetGrassLength(GRASS_LENGTH_CLEAR_0)` was called on the tile and the grass
length is `GRASS_LENGTH_CLEAR_0`.
(2) A visited tile whose low three grass-length bits already equal
`GRASS_LENGTH_CLEAR_0` is not written: no `SetGrassLength` is called on it and
its grass length is as it was.
(3) The reset adds nothing to the cost: the cost is the one `Execute` returns
in the same world with no surface able to grow grass, and it is 0 when both
styles are the sentinel. -/
theorem C17_grass_reset (w : World) (range : MapRange) (s e : Nat) :
    (∀ c ∈ visitedCoords w range, ∀ el,
        map_get_surface_element_at w.tiles c.1 c.2 = some el →
        ∃ el1, map_get_surface_element_at (Execute w range s e).2.1.tiles c.1 c.2 = some el1
          ∧ (w.CanGrassGrow el1.GetSurfaceStyle = true →
              el1.GetGrassLength % 8 = GRASS_LENGTH_CLEAR_0
              ∧ (el.GetGrassLength % 8 ≠ GRASS_LENGTH_CLEAR_0 →
                  el1.GetGrassLength = GRASS_LENGTH_CLEAR_0
                  ∧ MapEvent.SetGrassLength c.1 c.2 GRASS_LENGTH_CLEAR_0
                      ∈ (Execute w range s e).2.2))
          ∧ (el.GetGrassLength % 8 = GRASS_LENGTH_CLEAR_0 →
              el1.GetGrassLength = el.GetGrassLength
              ∧ ∀ v, MapEvent.SetGrassLength c.1 c.2 v ∉ (Execute w range s e).2.2))
    ∧ (Execute w range s e).1.Cost
        = (Execute { w with CanGrassGrow := fun _ => false } range s e).1.Cost
    ∧ (s = 0xFF → e = 0xFF → (Execute w range s e).1.Cost = 0) := by
  refine ⟨?_, ?_, ?_⟩
  · intro c hc el hel
    refine ⟨elementAfter w s e el, ?_, ?_, ?_⟩
    · rw [Execute_at_visited w range s e c hc, hel]; rfl
    · intro hgrow
      have hg := elementAfter_grassLength w s e el
      simp only [SurfaceElement.GetSurfaceStyle, SurfaceElement.GetGrassLength] at hgrow ⊢
      by_cases hstage : el.grassLength % 8 = GRASS_LENGTH_CLEAR_0
      · rw [if_neg (fun h => h.2 hstage)] at hg
        rw [hg]
        exact ⟨hstage, fun h => absurd hstage h⟩
      · rw [if_pos ⟨hgrow, hstage⟩] at hg
        rw [hg]
        refine ⟨by decide, fun _ => ⟨rfl, ?_⟩⟩
        rw [Execute_log, List.mem_flatMap]
        refine ⟨c, hc, ?_⟩
        unfold eventsAt
        rw [hel]
        unfold tileEvents
        simp only [List.mem_append]
        right
        rw [if_pos ⟨hgrow, hstage⟩]
        exact List.mem_cons_self _ _
    · intro hstage
      simp only [SurfaceElement.GetGrassLength] at hstage ⊢
      constructor
      · rw [elementAfter_grassLength, if_neg (fun h => h.2 hstage)]
      · intro v hmem
        rw [Execute_log, List.mem_flatMap] at hmem
        obtain ⟨d, hd, hev⟩ := hmem
        unfold eventsAt at hev
        cases hdel : map_get_surface_element_at w.tiles d.1 d.2 with
        | none => rw [hdel] at hev; simp at hev
        | some eld =>
          rw [hdel] at hev
          obtain ⟨hx, hy, _, hne⟩ := tileEvents_setGrassLength w s e d.1 d.2 eld c.1 c.2 v hev
          rw [hx, hy, hdel] at hel
          cases hel
          exact hne hstage
  · rw [Execute_cost_formula, Execute_cost_formula]
    rfl
  · intro hs he
    rw [Execute_cost_formula]
    have h1 : (visitedCoords w range).filter (surfaceWritten w w.tiles s) = [] := by
      rw [List.filter_eq_nil_iff]
      intro c _
      unfold surfaceWritten
      cases map_get_surface_element_at w.tiles c.1 c.2 <;> simp [hs]
    have h2 : (visitedCoords w range).filter (edgeWritten w.tiles e) = [] := by
      rw [List.filter_eq_nil_iff]
      intro c _
      unfold edgeWritten
      cases map_get_surface_element_at w.tiles c.1 c.2 <;> simp [he]
    rw [h1, h2]
    simp [wrapInt32]

/-- C17 (instance): with both styles the sentinel, on a map whose tiles at
(32, 32) and (64, 32) have grass lengths 3 and 9, `Execute` resets the first to
`GRASS_LENGTH_CLEAR_0`, does not write the second, whose low three bits are
already `GRASS_LENGTH_CLEAR_0`, and returns cost 0. -/
theorem C17_grass_reset_witness :
    (Execute Examples.grassWorld Examples.twoTileRange 0xFF 0xFF).2.2
        = [MapEvent.SetGrassLength 32 32 GRASS_LENGTH_CLEAR_0,
           MapEvent.map_invalidate_tile_full 32 32]
    ∧ map_get_surface_element_at
        (Execute Examples.grassWorld Examples.twoTileRange 0xFF 0xFF).2.1.tiles 32 32
      = some ⟨0, 0, GRASS_LENGTH_CLEAR_0⟩
    ∧ map_get_surface_element_at
        (Execute Examples.grassWorld Examples.twoTileRange 0xFF 0xFF).2.1.tiles 64 32
      = some ⟨1, 2, 9⟩
    ∧ (Execute Examples.grassWorld Examples.twoTileRange 0xFF 0xFF).1.Cost = 0 :=
  have h := C17_grass_reset Examples.grassWorld Examples.twoTileRange 0xFF 0xFF
  ⟨by decide, by decide, by decide, h.2.2 rfl rfl⟩

end SurfaceSetStyleAction

namespace TrackDesignAction

/-- C18. `Query` never commits geometry and leaves no ride behind.
(1) On every path, each placement call of `Query` is in query mode
(`PTD_OPERATION_PLACE_QUERY`), never in real or ghost mode.
(2) On every path on which ride creation succeeded and the ride was retrieved,
whether placement succeeded or failed, `Query` calls the demolition exactly
once, on that ride, as its last call, and returns the game state the demolition
leaves. -/
theorem C18_query_demolishes_and_only_queries {G : Type} (c : Collaborators G)
    (flags : CommandFlags) (loc : CoordsXYZ) (td : TrackDesign) (g : G) :
    (∀ call ∈ (Query c flags loc td g).2.2, ∀ ptdOperation placeScenery ride placeLoc,
        call = Call.place_virtual_track ptdOperation placeScenery ride placeLoc →
        ptdOperation = PtdOperation.PTD_OPERATION_PLACE_QUERY)
    ∧ (∀ ride, pauseGate c flags g = false →
        (createRide c flags td g).1.1 ≠ MONEY32_UNDEFINED →
        c.get_ride (createRide c flags td g).2 (createRide c flags td g).1.2.1 = some ride →
        (Query c flags loc td g).2.2.filter Call.isDemolish
            = [Call.ride_action_modify_demolish ride flags]
        ∧ (Query c flags loc td g).2.2.getLast?
            = some (Call.ride_action_modify_demolish ride flags)
        ∧ (Query c flags loc td g).2.1
            = c.applyCall (queryPlacement c flags loc td ride g).game
                (Call.ride_action_modify_demolish ride flags)) := by
  refine ⟨Query_placement_mode c flags loc td g, ?_⟩
  intro ride hpause hcreate hride
  refine ⟨(Query_placement_calls c flags loc td g ride hpause hcreate hride).2, ?_, ?_⟩
  · have hcalls : (Query c flags loc td g).2.2
        = (Call.ride_create_command td.type (resolveEntryIndex c td g) flags
            :: (queryPlacement c flags loc td ride g).calls)
          ++ [Call.ride_action_modify_demolish ride flags] := by
      rw [Query_placement_path c flags loc td g ride hpause hcreate hride]
    rw [hcalls, List.getLast?_append]
    rfl
  · rw [Query_placement_path c flags loc td g ride hpause hcreate hride]

/-- C18 (instances): after a successful and after a failed query placement the
ride that `Query` created is demolished and no ride is left. -/
theorem C18_query_demolishes_and_only_queries_witness :
    ((Query (Examples.rideList 10 20) Examples.noFlags ⟨64, 64, 16⟩
          (Examples.design 3) []).2.2.filter Call.isDemolish
        = [Call.ride_action_modify_demolish ⟨0⟩ Examples.noFlags]
      ∧ (Query (Examples.rideList 10 20) Examples.noFlags ⟨64, 64, 16⟩
          (Examples.design 3) []).2.1 = [])
    ∧ ((Query (Examples.rideList MONEY32_UNDEFINED 0) Examples.noFlags ⟨64, 64, 16⟩
          (Examples.design 3) []).2.2.filter Call.isDemolish
        = [Call.ride_action_modify_demolish ⟨0⟩ Examples.noFlags]
      ∧ (Query (Examples.rideList MONEY32_UNDEFINED 0) Examples.noFlags ⟨64, 64, 16⟩
          (Examples.design 3) []).2.1 = []) :=
  have h1 := (C18_query_demolishes_and_only_queries (Examples.rideList 10 20)
    Examples.noFlags ⟨64, 64, 16⟩ (Examples.design 3) []).2 ⟨0⟩ (by decide) (by decide)
    (by decide)
  have h2 := (C18_query_demolishes_and_only_queries (Examples.rideList MONEY32_UNDEFINED 0)
    Examples.noFlags ⟨64, 64, 16⟩ (Examples.design 3) []).2 ⟨0⟩ (by decide) (by decide)
    (by decide)
  ⟨⟨h1.1, by rw [h1.2.2]; decide⟩, ⟨h2.1, by rw [h2.2.2]; decide⟩⟩

/-- C19. Two-pass placement and the reported cost, once the ride was created
and retrieved.
(1) The first query pass includes scenery; a second query pass, without
scenery, is made exactly when the scenery-unavailable flag is set after the
first; the scenery decision and the cost kept are those of the last pass made.
These are the only placement calls of `Query`.
(2) The placement calls of `Execute` are those query passes followed, exactly
when the last query pass did not fail, by one commit call, in ghost mode
exactly when the ghost flag is set and in real mode otherwise, with the scenery
decision of the last query pass.
(3) When `Query` reports no error its cost is the cost of the last query pass;
when `Execute` reports no error the commit pass was run and its cost is the
cost the commit call returned, with nothing added by the configuration cascade. -/
theorem C19_two_pass_placement_and_cost {G : Type} (c : Collaborators G)
    (flags : CommandFlags) (loc : CoordsXYZ) (td : TrackDesign) (g : G) (ride : Ride)
    (hpause : pauseGate c flags g = false)
    (hcreate : (createRide c flags td g).1.1 ≠ MONEY32_UNDEFINED)
    (hride : c.get_ride (createRide c flags td g).2 (createRide c flags td g).1.2.1
      = some ride) :
    ((Query c flags loc td g).2.2.filter Call.isPlacement
        = Call.place_virtual_track PtdOperation.PTD_OPERATION_PLACE_QUERY true ride loc
          :: (if sceneryUnavailable c flags loc td ride g = true then
                [Call.place_virtual_track PtdOperation.PTD_OPERATION_PLACE_QUERY false ride loc]
              else [])
      ∧ (queryPlacement c flags loc td ride g).placeScenery
          = !sceneryUnavailable c flags loc td ride g
      ∧ (queryPlacement c flags loc td ride g).cost
          = (if sceneryUnavailable c flags loc td ride g = true then
              (secondQueryPass c flags loc td ride g).1
            else (firstQueryPass c flags loc td ride g).1))
    ∧ (Execute c flags loc td g).2.2.filter Call.isPlacement
        = (Query c flags loc td g).2.2.filter Call.isPlacement
          ++ (if (queryPlacement c flags loc td ride g).cost ≠ MONEY32_UNDEFINED then
                [Call.place_virtual_track
                  (if flags.GAME_COMMAND_FLAG_GHOST = true then
                    PtdOperation.PTD_OPERATION_PLACE_GHOST
                  else PtdOperation.PTD_OPERATION_PLACE)
                  (queryPlacement c flags loc td ride g).placeScenery ride loc]
              else [])
    ∧ ((Query c flags loc td g).1.Error = GA_ERROR.OK →
        (Query c flags loc td g).1.Cost = (queryPlacement c flags loc td ride g).cost)
    ∧ ((Execute c flags loc td g).1.Error = GA_ERROR.OK →
        (queryPlacement c flags loc td ride g).cost ≠ MONEY32_UNDEFINED
        ∧ (Execute c flags loc td g).1.Cost = (commitCall c flags loc td ride g).1) := by
  obtain ⟨hqcalls, hqscenery, hqcost, _⟩ := queryPlacement_eq c flags loc td ride g
  obtain ⟨hskip, hcommit⟩ := executePlacement_eq c flags loc td ride g
  have hQ := (Query_placement_calls c flags loc td g ride hpause hcreate hride).1
  refine ⟨⟨hQ.trans hqcalls, hqscenery, hqcost⟩, ?_, ?_, ?_⟩
  · rw [Execute_placement_calls c flags loc td g ride hpause hcreate hride, hQ]
    by_cases hq : (queryPlacement c flags loc td ride g).cost = MONEY32_UNDEFINED
    · rw [hskip hq, if_neg (not_not.mpr hq), List.append_nil]
    · rw [(hcommit hq).1, if_pos hq]
      rfl
  · intro hok
    rw [Query_retrieved_error c flags loc td g ride hpause hcreate hride] at hok
    rw [Query_placement_path c flags loc td g ride hpause hcreate hride]
    split_ifs at hok with hq
    rw [if_neg hq]
  · intro hok
    rw [Execute_retrieved_error c flags loc td g ride hpause hcreate hride] at hok
    split_ifs at hok with hp
    have hq : (queryPlacement c flags loc td ride g).cost ≠ MONEY32_UNDEFINED := by
      intro hq
      rw [hskip hq] at hp
      exact hp hq
    refine ⟨hq, ?_⟩
    rw [Execute_success_path c flags loc td g ride hpause hcreate hride hp]
    exact (hcommit hq).2.1

/-- C19 (witnesses): with the ghost flag, query cost 10 and commit cost 20,
`Query` costs 10 and `Execute` 20 after one query pass and a ghost commit; when
scenery is unavailable two query passes are made and the commit is without
scenery. -/
theorem C19_two_pass_placement_and_cost_witness :
    ((Query (Examples.rideList 10 20) Examples.ghostFlags ⟨64, 64, 16⟩
          (Examples.design 3) []).1.Cost = 10
      ∧ (Execute (Examples.rideList 10 20) Examples.ghostFlags ⟨64, 64, 16⟩
          (Examples.design 3) []).1.Cost = 20
      ∧ (Execute (Examples.rideList 10 20) Examples.ghostFlags ⟨64, 64, 16⟩
          (Examples.design 3) []).2.2.filter Call.isPlacement
        = [Call.place_virtual_track PtdOperation.PTD_OPERATION_PLACE_QUERY true ⟨0⟩
            ⟨64, 64, 16⟩,
           Call.place_virtual_track PtdOperation.PTD_OPERATION_PLACE_GHOST true ⟨0⟩
            ⟨64, 64, 16⟩])
    ∧ (Execute Examples.noScenery Examples.noFlags ⟨64, 64, 16⟩
          (Examples.design 3) []).2.2.filter Call.isPlacement
        = [Call.place_virtual_track PtdOperation.PTD_OPERATION_PLACE_QUERY true ⟨0⟩
            ⟨64, 64, 16⟩,
           Call.place_virtual_track PtdOperation.PTD_OPERATION_PLACE_QUERY false ⟨0⟩
            ⟨64, 64, 16⟩,
           Call.place_virtual_track PtdOperation.PTD_OPERATION_PLACE false ⟨0⟩
            ⟨64, 64, 16⟩] :=
  have h1 := C19_two_pass_placement_and_cost (Examples.rideList 10 20) Examples.ghostFlags
    ⟨64, 64, 16⟩ (Examples.design 3) [] ⟨0⟩ (by decide) (by decide) (by decide)
  have h2 := C19_two_pass_placement_and_cost Examples.noScenery Examples.noFlags
    ⟨64, 64, 16⟩ (Examples.design 3) [] ⟨0⟩ (by decide) (by decide) (by decide)
  ⟨⟨(h1.2.2.1 (by decide)).trans (by decide),
      ((h1.2.2.2 (by decide)).2).trans (by decide),
      h1.2.1.trans (by decide)⟩,
    h2.2.1.trans (by decide)⟩

end TrackDesignAction

namespace SurfaceSetStyleAction

/-- C20 (evaluation at the failing input). With edge style 0x11, which `Query`
rejects as `INVALID_PARAMETERS`, `Execute` has none of the validation of
`Query` and runs. The first run charges 100 and leaves the tile at (32, 32)
with edge style 1, the low four bits of 0x11. The second run, on the world the
first run left, finds edge style 1 on the tile and not 0x11: it returns cost
100 and not 0, and calls `SetEdgeStyle(0x11)` again. -/
theorem C20_second_execute_charges_again :
    (Query (Examples.world true false false false) Examples.tileRange 0xFF 17).Error
        = GA_ERROR.INVALID_PARAMETERS
    ∧ (Execute (Examples.world true false false false) Examples.tileRange 0xFF 17).1.Cost = 100
    ∧ map_get_surface_element_at
        (Execute (Examples.world true false false false) Examples.tileRange 0xFF 17).2.1.tiles
        32 32 = some ⟨0, 1, 1⟩
    ∧ (Execute
        (Execute (Examples.world true false false false) Examples.tileRange 0xFF 17).2.1
        Examples.tileRange 0xFF 17).1.Cost = 100
    ∧ (Execute
        (Execute (Examples.world true false false false) Examples.tileRange 0xFF 17).2.1
        Examples.tileRange 0xFF 17).2.2
        = [MapEvent.SetEdgeStyle 32 32 17, MapEvent.map_invalidate_tile_full 32 32]
    ∧ map_get_surface_element_at
        (Execute
          (Execute (Examples.world true false false false) Examples.tileRange 0xFF 17).2.1
          Examples.tileRange 0xFF 17).2.1.tiles
        32 32 = some ⟨0, 1, 1⟩ := by
  decide

/-- C21. In editor or sandbox mode, for every request that passes the style
validation of `Query` (the result is not `INVALID_PARAMETERS`), `Query` reports
no error and `Query` and `Execute`, run from the same world, return the same
cost and the same position; and the cost of `Query` is the price of the
mutations `Execute` performs: the registered price of the style for each
surface style it writes plus 100 for each edge style it writes, which is the
price of the requested surface style times the number of visited tiles whose
surface style differs between the map before and the map after, plus 100 times
the number whose edge style differs. Signed 32-bit arithmetic. -/
theorem C21_privileged_query_quotes_execute (w : World) (range : MapRange) (s e : Nat)
    (hpriv : w.screenFlagScenarioEditor = true ∨ w.gCheatsSandboxMode = true)
    (hvalid : (Query w range s e).Error ≠ GA_ERROR.INVALID_PARAMETERS) :
    (Query w range s e).Error = GA_ERROR.OK
    ∧ (Query w range s e).Cost = (Execute w range s e).1.Cost
    ∧ (Query w range s e).Position = (Execute w range s e).1.Position
    ∧ (Query w range s e).Cost = effectsPrice w (Execute w range s e).2.2
    ∧ (Query w range s e).Cost
        = wrapInt32
            (registeredPrice w s
                * (((visitedCoords w range).filter
                    (surfaceStyleChanged w.tiles (Execute w range s e).2.1.tiles)).length : Int)
              + 100 * (((visitedCoords w range).filter
                    (edgeStyleChanged w.tiles (Execute w range s e).2.1.tiles)).length : Int)) := by
  have hp : privileged w = true := by
    unfold privileged
    rcases hpriv with h | h <;> simp [h]
  obtain ⟨hok, hpos, hcost⟩ := Query_privileged w range s e hp hvalid
  refine ⟨hok, hcost, hpos, ?_, ?_⟩
  · rw [hcost]
    exact Execute_cost_effects w range s e
  · rw [hcost]
    exact Execute_cost_changed w range s e (Query_valid_bounds w range s e hvalid).1
      (Query_valid_bounds w range s e hvalid).2

/-- C21 (witness): in sandbox mode with both tiles outside the park, the request
(surface style 1, edge style 0) over the two tiles passes the validation; `Query`
and `Execute` both return cost 50 + 100 and the position (79, 63, 16), and
`Execute` writes the surface style of the first tile and the edge style of the
second. -/
theorem C21_privileged_query_quotes_execute_witness :
    ((Query Examples.sandboxWorld Examples.twoTileRange 1 0).Error = GA_ERROR.OK
      ∧ (Query Examples.sandboxWorld Examples.twoTileRange 1 0).Cost
          = (Execute Examples.sandboxWorld Examples.twoTileRange 1 0).1.Cost
      ∧ (Query Examples.sandboxWorld Examples.twoTileRange 1 0).Position
          = (Execute Examples.sandboxWorld Examples.twoTileRange 1 0).1.Position
      ∧ (Query Examples.sandboxWorld Examples.twoTileRange 1 0).Cost
          = effectsPrice Examples.sandboxWorld
              (Execute Examples.sandboxWorld Examples.twoTileRange 1 0).2.2
      ∧ (Query Examples.sandboxWorld Examples.twoTileRange 1 0).Cost
          = wrapInt32
              (registeredPrice Examples.sandboxWorld 1
                  * (((visitedCoords Examples.sandboxWorld Examples.twoTileRange).filter
                      (surfaceStyleChanged Examples.sandboxWorld.tiles
                        (Execute Examples.sandboxWorld Examples.twoTileRange 1 0).2.1.tiles)).length
                      : Int)
                + 100 * (((visitedCoords Examples.sandboxWorld Examples.twoTileRange).filter
                      (edgeStyleChanged Examples.sandboxWorld.tiles
                        (Execute Examples.sandboxWorld Examples.twoTileRange 1 0).2.1.tiles)).length
                      : Int)))
    ∧ (Query Examples.sandboxWorld Examples.twoTileRange 1 0).Cost = 150
    ∧ (Query Examples.sandboxWorld Examples.twoTileRange 1 0).Position = ⟨79, 63, 16⟩
    ∧ (Execute Examples.sandboxWorld Examples.twoTileRange 1 0).2.2
        = [MapEvent.SetSurfaceStyle 32 32 1, MapEvent.map_invalidate_tile_full 32 32,
            MapEvent.footpath_remove_litter 32 32 16,
            MapEvent.SetGrassLength 32 32 1, MapEvent.map_invalidate_tile_full 32 32,
            MapEvent.SetEdgeStyle 64 32 0, MapEvent.map_invalidate_tile_full 64 32] :=
  ⟨C21_privileged_query_quotes_execute Examples.sandboxWorld Examples.twoTileRange 1 0
      (Or.inr (by decide)) (by decide),
    by decide, by decide, by decide⟩

end SurfaceSetStyleAction

end OpenRCT2
